import Mathlib

/-!
# Ud::UsageData — shallow embedding and verified properties

Source: `src/ineud/source/ud_usage_data.cpp`, `src/ineud/include/ud_usage_data.h`.

Modelling conventions

* `std::uint64_t` values are `Nat`; every arithmetic result that the code stores in a
  64-bit unsigned slot is written with an explicit `% 2 ^ 64`.  A signed 64-bit operand that
  is added to an unsigned 64-bit slot is converted with `toU64` (two's complement).
* `QDateTime` is either the null datetime or a UTC instant in milliseconds since the epoch.
  `QDateTime::currentDateTimeUtc()` is an input of each operation (`now : Int`).
* `QHash<QString, V>` is an association list with unique keys (`AList`); the iteration order
  of the hash is the order of that list, and no verified property depends on it.
* `Q_ASSERT(c)` is modelled as in a build with assertions enabled: when `c` is false the
  operation stops there and yields the failed assertion together with the state reached at
  that point.
* Mutexes are not modelled: every operation runs to completion without interleaving.
* Signals, the `QTimer` and the web-hook `send` are recorded in the state (`emitted`, `timer`,
  `sent`) so that their effects can be stated.  An armed timer holds the `int` that
  `scheduleReport` passes to `QTimer::start`.
* Implicit conversions of the code are written out: `std::uint64_t` to `qint64` at
  `QDateTime::addSecs` (`toInt64`), `qint64` to `std::uint64_t` (`toU64`), `std::uint64_t` to
  `int` at `QTimer::start` (`toInt32`), `std::uint64_t` to `double` in the payload (`toDouble`).
* Datetimes are compared as by `QDateTime::operator<` of Qt 5.14 and later (`QDateTime.lt`).
* `QDateTime::addSecs(s)` yields the null (invalid) datetime when `s * 1000` does not fit a
  `qint64`, as Qt 6 defines it (in Qt 5 that product overflows).  Instants are unbounded
  integers, as the clock readings are; a statement that gives a computed instant as a sum says
  when that sum fits a `qint64`.
* The `QSettings` object is a finite map from a group path and a key to a `QVariant`, with the
  stack of groups opened by `beginGroup`; keys are opaque names, and a value read back is the
  variant that was written.  `Crypto::random64()` is an input of `loadSettings`.
* An execution is a list of calls (`Operation`) made in order on the instance and its settings
  object; a failed assertion ends the execution.  When the single-shot report timer expires it
  stops itself and then calls `reportUsageData`.
-/

namespace Ud

/-! ## Machine integers -/

/-- Conversion of a signed integer to `std::uint64_t` (value modulo `2 ^ 64`). -/
def toU64 (z : Int) : Nat := (z % 2 ^ 64).toNat

/-- Conversion of an unsigned value to a 32-bit `int` (two's complement narrowing). -/
def toInt32 (n : Nat) : Int :=
  if n % 2 ^ 32 < 2 ^ 31 then ((n % 2 ^ 32 : Nat) : Int) else ((n % 2 ^ 32 : Nat) : Int) - 2 ^ 32

/-- Number of low bits a `std::uint64_t` loses when converted to `double` (53-bit significand). -/
def droppedBits (v : Nat) : Nat :=
  ((List.range 11).filter (fun e => decide (2 ^ (53 + e) ≤ v))).length

/-- Cast `static_cast<double>(v)` of a `std::uint64_t`: the nearest binary64 value (ties to
even), given as the integer it denotes. -/
def toDouble (v : Nat) : Nat :=
  let e := droppedBits v
  let q := v / 2 ^ e
  let r := v % 2 ^ e
  if 2 * r > 2 ^ e ∨ (2 * r = 2 ^ e ∧ q % 2 = 1) then (q + 1) * 2 ^ e else q * 2 ^ e

/-- Whether an integer fits a `qint64`. -/
def fitsInt64 (z : Int) : Bool := decide (-(2 ^ 63) ≤ z ∧ z < 2 ^ 63)

/-! ## QDateTime -/

/-- A `QDateTime`: null (default constructed) or a UTC instant in milliseconds since epoch. -/
inductive QDateTime where
  | null : QDateTime
  | utc (msecsSinceEpoch : Int) : QDateTime
  deriving DecidableEq, Repr

instance : Inhabited QDateTime := ⟨QDateTime.null⟩

namespace QDateTime

/-- Method `QDateTime::msecsTo`: 0 when either datetime is invalid. -/
def msecsTo (self other : QDateTime) : Int :=
  match self, other with
  | utc a, utc b => b - a
  | _, _ => 0

/-- Method `QDateTime::secsTo`: `msecsTo(other) / 1000` with C++ (truncating) division. -/
def secsTo (self other : QDateTime) : Int :=
  Int.tdiv (self.msecsTo other) 1000

/-- Method `QDateTime::addSecs(qint64 s)`, which adds `s * 1000` milliseconds.  A null datetime
stays null, and when the product `s * 1000` does not fit a `qint64` the result is the null
(invalid) datetime, as Qt 6 defines it (in Qt 5 that product overflows, which is undefined
behaviour).  Instants are not bounded, as the clock readings are not. -/
def addSecs (self : QDateTime) (s : Int) : QDateTime :=
  match self with
  | utc a => if fitsInt64 (1000 * s) then utc (a + 1000 * s) else null
  | null => null

end QDateTime

/-! ## QHash -/

/-- A `QHash<QString, V>`: finite map with unique keys. -/
abbrev QHash (V : Type) := AList (fun _ : String => V)

namespace QHash

variable {V : Type}

/-- Method `QHash::contains`. -/
def contains (h : QHash V) (key : String) : Bool := (AList.lookup key h).isSome

/-- Method `QHash::value`: the stored value, or a default-constructed one. -/
def value [Inhabited V] (h : QHash V) (key : String) : V := (AList.lookup key h).getD default

/-- Method `QHash::insert` (also `h[key] = v`): replaces the value of an existing key. -/
def insert (h : QHash V) (key : String) (v : V) : QHash V := AList.insert key v h

/-- Method `QHash::remove`. -/
def remove (h : QHash V) (key : String) : QHash V := AList.erase key h

/-- Method `QHash::take`: removes the key and returns its value (default when absent). -/
def take [Inhabited V] (h : QHash V) (key : String) : V × QHash V :=
  (value h key, remove h key)

/-- Method `QHash::keys`. -/
def keys (h : QHash V) : List String := AList.keys h

/-- Method `QHash::clear`. -/
def clear (_h : QHash V) : QHash V := ∅

end QHash

/-! ## State -/

/-- Signals of the class. -/
inductive Signal where
  | reportingStarted : Signal
  | reportingFinished (successful : Bool) : Signal
  deriving DecidableEq, Repr

/-- Values supplied by `QCoreApplication`, `QSysInfo` and `QThread` for the report. -/
structure SystemInfo where
  applicationName : String
  applicationVersion : String
  currentCpuArchitecture : String
  kernelType : String
  kernelVersion : String
  productType : String
  productVersion : String
  idealThreadCount : Int
  deriving DecidableEq, Repr

/-- The JSON object `top` built by `reportUsageData`.  Numbers that the code inserts as
`double` are given by the integer the double denotes. -/
structure Payload where
  product : String
  version : String
  cpu_architecture : String
  kernel_type : String
  kernel_version : String
  os_product_type : String
  os_product_version : String
  number_logical_cores : Int
  secret_id_low : Nat
  secret_id_high : Nat
  elapsed_time : Int
  events : QHash Nat
  activities : QHash Nat

/-- Member variables of `Ud::UsageData` (and a record of its outputs). -/
structure UsageData where
  currentSettingsGroup : String
  currentDestinationUrl : String
  enabled : Bool
  secret : Nat
  lastOperation : QDateTime
  nextOperation : QDateTime
  events : QHash Nat
  activities : QHash Nat
  timers : QHash QDateTime
  eventsAdjustment : QHash Nat
  activitiesAdjustment : QHash Nat
  /-- The single-shot `QTimer`: `some msec` while armed with that interval, `none` when stopped. -/
  timer : Option Int
  reportInterval : Nat
  currentlyIsReporting : Bool
  lastReportSuccessful : Bool
  /-- Signals emitted so far, oldest first. -/
  emitted : List Signal
  /-- Calls of `send(url, payload)` so far, oldest first. -/
  sent : List (String × Payload)

/-- The `Q_ASSERT`s of the class. -/
inductive AssertionFailure where
  /-- `Q_ASSERT(!timers.contains(timerName))` in `startTimer`. -/
  | timerAlreadyRunning : AssertionFailure
  /-- `Q_ASSERT(timers.contains(timerName))` in `stopTimer`. -/
  | timerNotRunning : AssertionFailure
  /-- `Q_ASSERT(enabled)` in `reportUsageData`. -/
  | reportingNotEnabled : AssertionFailure
  /-- `Q_ASSERT(isNotReporting())` in `reportUsageData`. -/
  | reportAlreadyInProgress : AssertionFailure
  /-- `Q_ASSERT(adjustment < value)` in `adjustEventsAndActivities`. -/
  | reconciliationUnderflow : AssertionFailure
  deriving DecidableEq, Repr

/-- Outcome of an operation that contains a `Q_ASSERT`: the new state, or the failed assertion
with the state at the point of failure. -/
abbrev Result := Except (AssertionFailure × UsageData) UsageData

/-! ## Operations -/

/-- Method `UsageData::isReporting`. -/
def isReporting (s : UsageData) : Bool := s.currentlyIsReporting

/-- Method `UsageData::isNotReporting`. -/
def isNotReporting (s : UsageData) : Bool := !s.currentlyIsReporting

/-- Method `UsageData::reportingSuccessful`. -/
def reportingSuccessful (s : UsageData) : Bool := s.lastReportSuccessful

/-- Method `UsageData::isTimerActive`. -/
def isTimerActive (s : UsageData) (timerName : String) : Bool :=
  QHash.contains s.timers timerName

/-- Method `UsageData::adjustEvent`; `adjustment` is an `unsigned`, widened to 64 bits. -/
def adjustEvent (s : UsageData) (eventName : String) (adjustment : Nat) : UsageData :=
  if QHash.contains s.events eventName then
    let value := (QHash.value s.events eventName + adjustment) % 2 ^ 64
    { s with events := QHash.insert s.events eventName value }
  else
    { s with events := QHash.insert s.events eventName (adjustment % 2 ^ 64) }

/-- Method `UsageData::adjustActivity`; `adjustment` is a `std::int64_t`, converted to
`std::uint64_t` when stored or added. -/
def adjustActivity (s : UsageData) (activityName : String) (adjustment : Int) : UsageData :=
  if QHash.contains s.activities activityName then
    let value := (QHash.value s.activities activityName + toU64 adjustment) % 2 ^ 64
    { s with activities := QHash.insert s.activities activityName value }
  else
    { s with activities := QHash.insert s.activities activityName (toU64 adjustment) }

/-- Method `UsageData::startTimer`, called at time `now`. -/
def startTimer (s : UsageData) (timerName : String) (now : Int) : Result :=
  if QHash.contains s.timers timerName then
    .error (.timerAlreadyRunning, s)
  else
    .ok { s with timers := QHash.insert s.timers timerName (QDateTime.utc now) }

/-- Method `UsageData::stopTimer`, called at time `now`. -/
def stopTimer (s : UsageData) (timerName : String) (doStop : Bool) (now : Int) : Result :=
  if !QHash.contains s.timers timerName then
    .error (.timerNotRunning, s)
  else
    let endTime := QDateTime.utc now
    let (startTime, timers) :=
      if doStop then
        QHash.take s.timers timerName
      else
        (QHash.value s.timers timerName, QHash.insert s.timers timerName endTime)
    let elapsedTime := startTime.secsTo endTime
    .ok (adjustActivity { s with timers := timers } timerName elapsedTime)

/-- Method `UsageData::stopTimers`, called at time `now`. -/
def stopTimers (s : UsageData) (now : Int) : UsageData :=
  let endTime := QDateTime.utc now
  let s1 := s.timers.entries.foldl
    (fun st it => adjustActivity st it.1 (QDateTime.secsTo it.2 endTime)) s
  { s1 with timers := QHash.clear s1.timers }

/-- Conversion of a `std::uint64_t` to `qint64` (two's complement). -/
def toInt64 (n : Nat) : Int :=
  if n % 2 ^ 64 < 2 ^ 63 then ((n % 2 ^ 64 : Nat) : Int) else ((n % 2 ^ 64 : Nat) : Int) - 2 ^ 64

/-- Method `UsageData::scheduleReport`, reading the clock at `now`: the seconds to the report
are held in a `std::uint64_t`, multiplied by 1000 and passed to `QTimer::start(int)`. -/
def scheduleReport (s : UsageData) (reportTime : QDateTime) (now : Int) : UsageData :=
  let currentTime := QDateTime.utc now
  let secondsToReport := toU64 (currentTime.secsTo reportTime)
  { s with timer := some (toInt32 ((1000 * secondsToReport) % 2 ^ 64)) }

/-- One iteration of the events loop of `reportUsageData`: `acc.1` is the JSON object
`eventsData`, `acc.2` the hash `eventsAdjustment`. -/
def snapshotStep (live : QHash Nat) (acc : QHash Nat × QHash Nat) (key : String) :
    QHash Nat × QHash Nat :=
  let value := QHash.value live key
  (QHash.insert acc.1 key (toDouble value), QHash.insert acc.2 key value)

/-- The loop of `reportUsageData` over `keys = live.keys()` that fills the JSON object and the
(cleared) adjustment hash. -/
def snapshotLoop (live : QHash Nat) : QHash Nat × QHash Nat :=
  (QHash.keys live).foldl (snapshotStep live) (∅, ∅)

/-- The loop of `reportUsageData` that calls `stopTimer(key, false)` for every key of
`timers.keys()`; `clock key` is the time read by the call made for `key`. -/
def checkpointTimers (s : UsageData) (keys : List String) (clock : String → Int) : Result :=
  keys.foldlM (fun st key => stopTimer st key false (clock key)) s

/-- Method `UsageData::reportUsageData`.  `clock key` is the time read by the `stopTimer` call
that checkpoints timer `key`.  Slots connected to `reportingStarted` are not run. -/
def reportUsageData (s : UsageData) (info : SystemInfo) (clock : String → Int) : Result :=
  if !s.enabled then
    .error (.reportingNotEnabled, s)
  else if !isNotReporting s then
    .error (.reportAlreadyInProgress, s)
  else do
    let s1 := { s with currentlyIsReporting := true, emitted := s.emitted ++ [Signal.reportingStarted] }
    let elapsed := s1.lastOperation.secsTo s1.nextOperation
    let (eventsData, eventsAdjustment) := snapshotLoop s1.events
    let s2 := { s1 with eventsAdjustment := eventsAdjustment }
    let s3 ← checkpointTimers s2 (QHash.keys s2.timers) clock
    let (activitiesData, activitiesAdjustment) := snapshotLoop s3.activities
    let s4 := { s3 with activitiesAdjustment := activitiesAdjustment }
    let top : Payload :=
      { product := info.applicationName
        version := info.applicationVersion
        cpu_architecture := info.currentCpuArchitecture
        kernel_type := info.kernelType
        kernel_version := info.kernelVersion
        os_product_type := info.productType
        os_product_version := info.productVersion
        number_logical_cores := info.idealThreadCount
        secret_id_low := toDouble (s4.secret % 2 ^ 32)
        secret_id_high := toDouble ((s4.secret / 2 ^ 32) % 2 ^ 32)
        elapsed_time := elapsed
        events := eventsData
        activities := activitiesData }
    pure { s4 with sent := s4.sent ++ [(s4.currentDestinationUrl, top)] }

/-- One iteration of the events loop of `adjustEventsAndActivities`. -/
def adjustEventsStep (st : UsageData) (it : (_ : String) × Nat) : Result :=
  let key := it.1
  let adjustment := it.2
  let value := QHash.value st.events key
  if value = adjustment then
    .ok { st with events := QHash.remove st.events key }
  else if ¬ adjustment < value then
    .error (.reconciliationUnderflow, st)
  else
    .ok { st with events := QHash.insert st.events key (value - adjustment) }

/-- One iteration of the activities loop of `adjustEventsAndActivities`. -/
def adjustActivitiesStep (st : UsageData) (it : (_ : String) × Nat) : Result :=
  let key := it.1
  let adjustment := it.2
  let value := QHash.value st.activities key
  if value = adjustment then
    .ok { st with activities := QHash.remove st.activities key }
  else if ¬ adjustment < value then
    .error (.reconciliationUnderflow, st)
  else
    .ok { st with activities := QHash.insert st.activities key (value - adjustment) }

/-- Method `UsageData::adjustEventsAndActivities`. -/
def adjustEventsAndActivities (s : UsageData) : Result := do
  let s1 ← s.eventsAdjustment.entries.foldlM adjustEventsStep s
  let s2 ← s1.activitiesAdjustment.entries.foldlM adjustActivitiesStep s1
  pure { s2 with eventsAdjustment := QHash.clear s2.eventsAdjustment,
                 activitiesAdjustment := QHash.clear s2.activitiesAdjustment }

/-- Method `UsageData::jsonResponseWasReceived` (the success outcome).  `now` is the time read
for `nextOperation`, `nowSchedule` the time read inside `scheduleReport`.  The base-class call
and the slots connected to `reportingFinished` are not run. -/
def jsonResponseWasReceived (s : UsageData) (now nowSchedule : Int) : Result := do
  let s1 ← adjustEventsAndActivities s
  let s2 := { s1 with lastOperation := s1.nextOperation }
  let s3 := { s2 with nextOperation := (QDateTime.utc now).addSecs (toInt64 s2.reportInterval) }
  let s4 := { s3 with lastReportSuccessful := true }
  let s5 := if s4.enabled then scheduleReport s4 s4.nextOperation nowSchedule else s4
  let s6 := { s5 with emitted := s5.emitted ++ [Signal.reportingFinished s5.lastReportSuccessful] }
  pure { s6 with currentlyIsReporting := false }

/-! ## Constants and construction -/

/-- The constant `UsageData::defaultReportingInterval`, in seconds. -/
def defaultReportingInterval : Nat := 7 * 24 * 60 * 60

/-- The constant `UsageData::enableReportDelay`, in seconds. -/
def enableReportDelay : Nat := 60

/-- The constant `UsageData::reportRetrialPeriod`, in seconds. -/
def reportRetrialPeriod : Nat := 30 * 60

/-- The constant `UsageData::defaultSettingsGroup`. -/
def defaultSettingsGroup : String := "usageData"

/-- A newly constructed instance: the hashes and datetimes are default constructed, the rest is
set by `UsageData::configure`.  `secret` is not initialised by the constructor; its value is
the parameter. -/
def configure (destinationUrl : String) (secret : Nat) : UsageData :=
  { currentSettingsGroup := defaultSettingsGroup
    currentDestinationUrl := destinationUrl
    enabled := false
    secret := secret
    lastOperation := QDateTime.null
    nextOperation := QDateTime.null
    events := ∅
    activities := ∅
    timers := ∅
    eventsAdjustment := ∅
    activitiesAdjustment := ∅
    timer := none
    reportInterval := defaultReportingInterval
    currentlyIsReporting := false
    lastReportSuccessful := false
    emitted := []
    sent := [] }

/-! ## Outcome of a failed delivery and scheduler operations -/

/-- Operator `QDateTime::operator<` (Qt 5.14 and later): an invalid datetime is less than every
valid one, and valid datetimes compare by their instant. -/
def QDateTime.lt (self other : QDateTime) : Bool :=
  match self, other with
  | QDateTime.utc a, QDateTime.utc b => decide (a < b)
  | QDateTime.null, QDateTime.utc _ => true
  | _, QDateTime.null => false

/-- Method `UsageData::reportingEnabled`. -/
def reportingEnabled (s : UsageData) : Bool := s.enabled

/-- Method `UsageData::reportingDisabled`. -/
def reportingDisabled (s : UsageData) : Bool := !s.enabled

/-- Method `UsageData::interval`. -/
def interval (s : UsageData) : Nat := s.reportInterval

/-- Method `UsageData::lastReportTime`. -/
def lastReportTime (s : UsageData) : QDateTime := s.lastOperation

/-- Method `UsageData::nextReportTime`. -/
def nextReportTime (s : UsageData) : QDateTime := s.nextOperation

/-- Method `UsageData::userSecret`. -/
def userSecret (s : UsageData) : Nat := s.secret

/-- Method `UsageData::failed` (the failure outcome).  `now` is the time read for
`nextOperation`, `nowSchedule` the time read inside `scheduleReport`.  The base-class call and
the slots connected to `reportingFinished` are not run. -/
def failed (s : UsageData) (_networkError : Int) (now nowSchedule : Int) : UsageData :=
  let s1 := { s with nextOperation := (QDateTime.utc now).addSecs reportRetrialPeriod }
  let s2 := { s1 with lastReportSuccessful := false }
  let s3 := if s2.enabled then scheduleReport s2 s2.nextOperation nowSchedule else s2
  let s4 := { s3 with emitted := s3.emitted ++ [Signal.reportingFinished false] }
  { s4 with currentlyIsReporting := false }

/-- Method `UsageData::setReportingEnabled`.  `now` is the time read for
`minimumNextOperation`, `nowSchedule` the time read inside `scheduleReport`;
`timer->stop()` leaves the timer unarmed. -/
def setReportingEnabled (s : UsageData) (nowEnabled : Bool) (now nowSchedule : Int) :
    UsageData :=
  let s2 :=
    if !s.enabled && nowEnabled then
      let minimumNextOperation := (QDateTime.utc now).addSecs enableReportDelay
      let s1 :=
        if QDateTime.lt s.nextOperation minimumNextOperation then
          { s with nextOperation := minimumNextOperation }
        else s
      scheduleReport s1 s1.nextOperation nowSchedule
    else if s.enabled && !nowEnabled then
      { s with timer := none }
    else s
  { s2 with enabled := nowEnabled }

/-- Method `UsageData::setReportingDisabled`. -/
def setReportingDisabled (s : UsageData) (nowDisabled : Bool) (now nowSchedule : Int) :
    UsageData :=
  setReportingEnabled s (!nowDisabled) now nowSchedule

/-- Method `UsageData::setInterval`; `newInterval` is an `unsigned long long`, and `addSecs`
takes it as a `qint64`.  `now` is the time read for `earliestDateTime`, `nowSchedule` the time
read inside `scheduleReport`. -/
def setInterval (s : UsageData) (newInterval : Nat) (now nowSchedule : Int) : UsageData :=
  let s1 := { s with reportInterval := newInterval }
  if s1.enabled && isNotReporting s1 then
    let s2 := { s1 with nextOperation := s1.lastOperation.addSecs (toInt64 s1.reportInterval) }
    let earliestDateTime := (QDateTime.utc now).addSecs enableReportDelay
    let s3 :=
      if QDateTime.lt s2.nextOperation earliestDateTime then
        { s2 with nextOperation := earliestDateTime }
      else s2
    scheduleReport s3 s3.nextOperation nowSchedule
  else s1

/-! ## The spec's wording, for comparison with the code -/

/-- The spec's wording of `stopAllTimers`: apply `stopTimer(name, remove = true)` to every
active timer, all calls reading the same time `now`. -/
def stopAllTimersSpec (s : UsageData) (now : Int) : Result :=
  (QHash.keys s.timers).foldlM (fun st name => stopTimer st name true now) s

/-! ## Observations used in the statements -/

/-- A sequence of `adjustEvent(name, amount)` calls, oldest first. -/
def adjustEventCalls (s : UsageData) (calls : List (String × Nat)) : UsageData :=
  calls.foldl (fun st c => adjustEvent st c.1 c.2) s

/-- Sum of the amounts that the calls add to `name`. -/
def amountAdded (name : String) : List (String × Nat) → Nat
  | [] => 0
  | c :: rest => (if c.1 = name then c.2 else 0) + amountAdded name rest

/-- The entry stored under `key`, if any (`contains` and `value` in one observation). -/
def QHash.lookup {V : Type} (h : QHash V) (key : String) : Option V := AList.lookup key h

/-- Events, activities and timers after a sequence of `adjustEvent(eventName, k)` calls. -/
def adjustEventMany (s : UsageData) (eventName : String) (ks : List Nat) : UsageData :=
  ks.foldl (fun st k => adjustEvent st eventName k) s

/-- The state in which an operation ended: its result, or the state at the failed assertion. -/
def Result.state (r : Result) : UsageData :=
  match r with
  | .ok st => st
  | .error (_, st) => st

/-- The later of two datetimes in the order of `QDateTime.lt` (the first when they are equal). -/
def QDateTime.max (a b : QDateTime) : QDateTime := if QDateTime.lt a b then b else a

/-- The argument that `scheduleReport(reportTime)` passes to `QTimer::start(int)` when it reads
the clock at `now`. -/
def timerInterval (reportTime : QDateTime) (now : Int) : Int :=
  toInt32 ((1000 * toU64 ((QDateTime.utc now).secsTo reportTime)) % 2 ^ 64)

/-- A sequence of `adjustActivity(name, delta)` calls, oldest first. -/
def adjustActivityCalls (s : UsageData) (calls : List (String × Int)) : UsageData :=
  calls.foldl (fun st c => adjustActivity st c.1 c.2) s

/-- Net sum of the deltas that the calls apply to `name`. -/
def netDelta (name : String) : List (String × Int) → Int
  | [] => 0
  | c :: rest => (if c.1 = name then c.2 else 0) + netDelta name rest

/-- A caller adjustment of the store: `adjustEvent` or `adjustActivity`. -/
inductive Adjustment where
  | event (name : String) (amount : Nat) : Adjustment
  | activity (name : String) (delta : Int) : Adjustment

/-- A sequence of caller adjustments, oldest first. -/
def applyAdjustments (s : UsageData) (ops : List Adjustment) : UsageData :=
  ops.foldl (fun st op =>
    match op with
    | Adjustment.event name amount => adjustEvent st name amount
    | Adjustment.activity name delta => adjustActivity st name delta) s

/-! ## QSettings -/

/-- A `QVariant` as the class hands it to and receives it from `QSettings`: invalid (no
value), `bool`, `int` (the default argument `0` of the loops), `unsigned long long` or
`QDateTime`.  A value read back is the variant that was written. -/
inductive QVariant where
  | invalid : QVariant
  | bool (b : Bool) : QVariant
  | int (z : Int) : QVariant
  | uLongLong (n : Nat) : QVariant
  | dateTime (d : QDateTime) : QVariant
  deriving DecidableEq, Repr

namespace QVariant

/-- Method `QVariant::toBool`: the boolean itself, non-zero for a number, false otherwise. -/
def toBool : QVariant → Bool
  | bool b => b
  | int z => decide (z ≠ 0)
  | uLongLong n => decide (n % 2 ^ 64 ≠ 0)
  | _ => false

/-- Method `QVariant::toULongLong`: the number itself (an `int` converted as by a cast), 0 or
1 for a boolean, 0 for a variant that does not convert. -/
def toULongLong : QVariant → Nat
  | uLongLong n => n % 2 ^ 64
  | int z => toU64 z
  | bool b => if b then 1 else 0
  | _ => 0

/-- Method `QVariant::toDateTime`: the datetime itself, a null datetime for a variant that
does not convert. -/
def toDateTime : QVariant → QDateTime
  | dateTime d => d
  | _ => QDateTime.null

end QVariant

/-- A `QSettings` object: the stored values, keyed by the path of groups and the key inside
the group, and the stack of groups opened with `beginGroup`.  Keys are opaque names: the
splitting of a key at `/` is not modelled. -/
structure QSettings where
  values : AList (fun _ : List String × String => QVariant)
  group : List String

namespace QSettings

/-- Method `QSettings::beginGroup`. -/
def beginGroup (q : QSettings) (groupName : String) : QSettings :=
  { q with group := q.group ++ [groupName] }

/-- Method `QSettings::endGroup`. -/
def endGroup (q : QSettings) : QSettings :=
  { q with group := q.group.dropLast }

/-- Method `QSettings::contains`, inside the current group. -/
def contains (q : QSettings) (key : String) : Bool :=
  (AList.lookup (q.group, key) q.values).isSome

/-- Method `QSettings::value(key, defaultValue)`, inside the current group. -/
def value (q : QSettings) (key : String) (defaultValue : QVariant) : QVariant :=
  (AList.lookup (q.group, key) q.values).getD defaultValue

/-- Method `QSettings::setValue`, inside the current group. -/
def setValue (q : QSettings) (key : String) (v : QVariant) : QSettings :=
  { q with values := AList.insert (q.group, key) v q.values }

/-- Method `QSettings::allKeys`: the keys stored in the current group itself.  The class calls
it inside the groups `events` and `activities` only, below which it writes no further group. -/
def allKeys (q : QSettings) : List String :=
  ((AList.keys q.values).filter (fun p => decide (p.1 = q.group))).map Prod.snd

/-- The value stored under `key` in the group with path `path`, if any. -/
def lookup (q : QSettings) (path : List String) (key : String) : Option QVariant :=
  AList.lookup (path, key) q.values

end QSettings

/-! ## Persistence -/

/-- Method `UsageData::setUrl`. -/
def setUrl (s : UsageData) (newUrl : String) : UsageData :=
  { s with currentDestinationUrl := newUrl }

/-- Method `UsageData::setSettingsGroup`. -/
def setSettingsGroup (s : UsageData) (newSettingsGroup : String) : UsageData :=
  { s with currentSettingsGroup := newSettingsGroup }

/-- The second constructor of `UsageData`: `configure` followed by `setSettingsGroup`. -/
def configureWithGroup (settingsGroup destinationUrl : String) (secret : Nat) : UsageData :=
  setSettingsGroup (configure destinationUrl secret) settingsGroup

/-- One iteration of either loop of `loadSettings`: both loops insert the value read for `key`
into `events`. -/
def loadSettingsStep (q : QSettings) (st : UsageData) (key : String) : UsageData :=
  let value := (q.value key (QVariant.int 0)).toULongLong
  { st with events := QHash.insert st.events key value }

/-- The part of `loadSettings` that reads the secret, or generates and stores one when the
group holds none; `random64` is the result of `Crypto::random64()`. -/
def loadSettingsSecret (s : UsageData) (q : QSettings) (random64 : Nat) :
    UsageData × QSettings :=
  if q.contains "secret" then
    ({ s with secret := (q.value "secret" QVariant.invalid).toULongLong }, q)
  else
    let generated := random64 % 2 ^ 64
    ({ s with secret := generated }, q.setValue "secret" (QVariant.uLongLong generated))

/-- The part of `loadSettings` that reads the two timestamps; `nowFirst` and `now` are the two
times read from the clock. -/
def loadSettingsTimestamps (s : UsageData) (q : QSettings) (nowFirst now : Int) : UsageData :=
  let s1 := { s with lastOperation := QDateTime.utc nowFirst }
  let s2 := { s1 with nextOperation := s1.lastOperation.addSecs (toInt64 s1.reportInterval) }
  let defaultLastOperation := QDateTime.utc now
  let defaultNextOperation := defaultLastOperation.addSecs (toInt64 s2.reportInterval)
  let lastRead := (q.value "last_operation" (QVariant.dateTime defaultLastOperation)).toDateTime
  let s3 := { s2 with lastOperation := lastRead }
  let nextRead := (q.value "next_operation" (QVariant.dateTime defaultNextOperation)).toDateTime
  { s3 with nextOperation := nextRead }

/-- The part of `loadSettings` that reads the sub-groups `events` and `activities`. -/
def loadSettingsMappings (s : UsageData) (q : QSettings) : UsageData × QSettings :=
  let s1 := { s with events := QHash.clear s.events }
  let q1 := q.beginGroup "events"
  let s2 := q1.allKeys.foldl (loadSettingsStep q1) s1
  let q2 := q1.endGroup
  let s3 := { s2 with activities := QHash.clear s2.activities }
  let q3 := q2.beginGroup "activities"
  let s4 := q3.allKeys.foldl (loadSettingsStep q3) s3
  (s4, q3.endGroup)

/-- Method `UsageData::loadSettings`.  `random64` is the result of `Crypto::random64()`,
`nowFirst` and `now` are the two times read for the timestamps, `nowSchedule` the time read
inside `scheduleReport`. -/
def loadSettings (s : UsageData) (settings : QSettings) (random64 : Nat)
    (nowFirst now nowSchedule : Int) : UsageData × QSettings :=
  let q1 := settings.beginGroup s.currentSettingsGroup
  let s1 := { s with enabled := (q1.value "enabled" QVariant.invalid).toBool }
  let sq := loadSettingsSecret s1 q1 random64
  let s2 := loadSettingsTimestamps sq.1 sq.2 nowFirst now
  let sq2 := loadSettingsMappings s2 sq.2
  let s3 := sq2.1
  let q2 := sq2.2.endGroup
  let s4 := if s3.enabled then scheduleReport s3 s3.nextOperation nowSchedule
            else { s3 with timer := none }
  (s4, q2)

/-- One iteration of either loop of `saveSettings`. -/
def saveSettingsStep (q : QSettings) (it : (_ : String) × Nat) : QSettings :=
  q.setValue it.1 (QVariant.uLongLong it.2)

/-- One block of `saveSettings`: `beginGroup(groupName)`, the loop that writes every entry of
the hash, `endGroup()`. -/
def saveSettingsMapping (q : QSettings) (groupName : String) (h : QHash Nat) : QSettings :=
  let q1 := q.beginGroup groupName
  let q2 := h.entries.foldl saveSettingsStep q1
  q2.endGroup

/-- Method `UsageData::saveSettings`. -/
def saveSettings (s : UsageData) (settings : QSettings) : QSettings :=
  let q1 := settings.beginGroup s.currentSettingsGroup
  let q2 := q1.setValue "enabled" (QVariant.bool s.enabled)
  let q3 := q2.setValue "secret" (QVariant.uLongLong s.secret)
  let q4 := q3.setValue "lastOperation" (QVariant.dateTime s.lastOperation)
  let q5 := q4.setValue "nextOperation" (QVariant.dateTime s.nextOperation)
  let q6 := saveSettingsMapping q5 "events" s.events
  let q7 := saveSettingsMapping q6 "activities" s.activities
  q7.endGroup

/-! ## Executions -/

/-- A call made on the instance: a public method called by the application, the expiry of the
`QTimer` (which calls `reportUsageData`), or an outcome delivered by the web hook
(`jsonResponseWasReceived` for success, `failed` for failure).  Each call carries the clock
readings it makes. -/
inductive Operation where
  | setUrl (newUrl : String) : Operation
  | setSettingsGroup (newSettingsGroup : String) : Operation
  | setInterval (newInterval : Nat) (now nowSchedule : Int) : Operation
  | loadSettings (random64 : Nat) (nowFirst now nowSchedule : Int) : Operation
  | saveSettings : Operation
  | setReportingEnabled (nowEnabled : Bool) (now nowSchedule : Int) : Operation
  | setReportingDisabled (nowDisabled : Bool) (now nowSchedule : Int) : Operation
  | adjustEvent (eventName : String) (adjustment : Nat) : Operation
  | adjustActivity (activityName : String) (adjustment : Int) : Operation
  | startTimer (timerName : String) (now : Int) : Operation
  | stopTimer (timerName : String) (doStop : Bool) (now : Int) : Operation
  | stopTimers (now : Int) : Operation
  | timerExpiry (info : SystemInfo) (clock : String → Int) : Operation
  | success (now nowSchedule : Int) : Operation
  | failure (networkError : Int) (now nowSchedule : Int) : Operation

/-- Expiry of the report timer: the single-shot `QTimer` stops itself and then calls the slot
`reportUsageData`, to which its `timeout` signal is connected. -/
def timerExpired (s : UsageData) (info : SystemInfo) (clock : String → Int) : Result :=
  reportUsageData { s with timer := none } info clock

/-- The instance together with the `QSettings` object it points to. -/
structure System where
  usageData : UsageData
  settings : QSettings

/-- Outcome of a call on the system: the new system, or the failed assertion with the system
at the point of failure. -/
abbrev SystemResult := Except (AssertionFailure × System) System

/-- The result of a method that does not touch the settings. -/
def withSettings (settings : QSettings) (r : Result) : SystemResult :=
  match r with
  | .ok s => .ok { usageData := s, settings := settings }
  | .error (e, s) => .error (e, { usageData := s, settings := settings })

/-- The effect of one call. -/
def applyOperation (op : Operation) (sys : System) : SystemResult :=
  match op with
  | Operation.setUrl newUrl => .ok { sys with usageData := setUrl sys.usageData newUrl }
  | Operation.setSettingsGroup g => .ok { sys with usageData := setSettingsGroup sys.usageData g }
  | Operation.setInterval n now nowSchedule =>
      .ok { sys with usageData := setInterval sys.usageData n now nowSchedule }
  | Operation.loadSettings random64 nowFirst now nowSchedule =>
      let r := loadSettings sys.usageData sys.settings random64 nowFirst now nowSchedule
      .ok { usageData := r.1, settings := r.2 }
  | Operation.saveSettings =>
      .ok { sys with settings := saveSettings sys.usageData sys.settings }
  | Operation.setReportingEnabled b now nowSchedule =>
      .ok { sys with usageData := setReportingEnabled sys.usageData b now nowSchedule }
  | Operation.setReportingDisabled b now nowSchedule =>
      .ok { sys with usageData := setReportingDisabled sys.usageData b now nowSchedule }
  | Operation.adjustEvent name k => .ok { sys with usageData := adjustEvent sys.usageData name k }
  | Operation.adjustActivity name d =>
      .ok { sys with usageData := adjustActivity sys.usageData name d }
  | Operation.startTimer name now => withSettings sys.settings (startTimer sys.usageData name now)
  | Operation.stopTimer name doStop now =>
      withSettings sys.settings (stopTimer sys.usageData name doStop now)
  | Operation.stopTimers now => .ok { sys with usageData := stopTimers sys.usageData now }
  | Operation.timerExpiry info clock =>
      withSettings sys.settings (timerExpired sys.usageData info clock)
  | Operation.success now nowSchedule =>
      withSettings sys.settings (jsonResponseWasReceived sys.usageData now nowSchedule)
  | Operation.failure code now nowSchedule =>
      .ok { sys with usageData := failed sys.usageData code now nowSchedule }

/-- The system in which a call ended, whether it returned or stopped at an assertion. -/
def endState (r : SystemResult) : System :=
  match r with
  | .ok sys => sys
  | .error (_, sys) => sys

/-- The calls of `ops` made in order; a failed assertion ends the execution. -/
def execute : List Operation → System → SystemResult
  | [], sys => .ok sys
  | op :: rest, sys =>
      match applyOperation op sys with
      | .ok sys2 => execute rest sys2
      | .error e => .error e

/-- Whether every call of `ops` that is made satisfies `guard` in the system it is made on. -/
def guarded (guard : Operation → System → Bool) : List Operation → System → Bool
  | [], _ => true
  | op :: rest, sys =>
      guard op sys &&
        match applyOperation op sys with
        | .ok sys2 => guarded guard rest sys2
        | .error _ => true

/-- Number of `reportingFinished` signals emitted so far. -/
def outcomesReceived (s : UsageData) : Nat :=
  (s.emitted.filter (fun sig => decide (sig ≠ Signal.reportingStarted))).length

/-- Whether a report has been sent whose outcome has not been received yet. -/
def awaitingOutcome (s : UsageData) : Bool := decide (outcomesReceived s < s.sent.length)

/-- Guard of an execution in which an outcome is delivered only for a sent report whose outcome
is still due. -/
def outcomeFollowsReport (op : Operation) (sys : System) : Bool :=
  match op with
  | Operation.success _ _ => awaitingOutcome sys.usageData
  | Operation.failure _ _ _ => awaitingOutcome sys.usageData
  | _ => true

/-- Whether a list of signals alternates `reportingStarted`, `reportingFinished`, ...,
beginning with `reportingStarted`. -/
def alternates : List Signal → Bool
  | [] => true
  | [Signal.reportingStarted] => true
  | Signal.reportingStarted :: Signal.reportingFinished _ :: rest => alternates rest
  | _ => false

/-- The signals a call emits when it returns. -/
def signalsOf (op : Operation) : List Signal :=
  match op with
  | Operation.timerExpiry _ _ => [Signal.reportingStarted]
  | Operation.success _ _ => [Signal.reportingFinished true]
  | Operation.failure _ _ _ => [Signal.reportingFinished false]
  | _ => []

/-- The path of the settings group of the instance inside the settings object. -/
def settingsPath (s : UsageData) (settings : QSettings) : List String :=
  settings.group ++ [s.currentSettingsGroup]

/-- The secret stored in the settings group of the instance, read as `loadSettings` reads it;
`none` when the group holds no secret. -/
def persistedSecret (s : UsageData) (settings : QSettings) : Option Nat :=
  (settings.lookup (settingsPath s settings) "secret").map QVariant.toULongLong

/-- The `enabled` flag stored in the settings group of the instance, read as `loadSettings`
reads it; false when the group holds none. -/
def persistedEnabled (s : UsageData) (settings : QSettings) : Bool :=
  ((settings.lookup (settingsPath s settings) "enabled").getD QVariant.invalid).toBool

/-- The timestamp stored under `key` in the settings group of the instance, read as
`loadSettings` reads it; `none` when the group holds none. -/
def persistedTimestamp (s : UsageData) (settings : QSettings) (key : String) :
    Option QDateTime :=
  (settings.lookup (settingsPath s settings) key).map QVariant.toDateTime

/-- The counter stored under `key` in the sub-group `groupName` (`events` or `activities`) of
the settings group of the instance; `none` when the sub-group does not hold the key. -/
def persistedCounter (s : UsageData) (settings : QSettings) (groupName key : String) :
    Option Nat :=
  (settings.lookup (settingsPath s settings ++ [groupName]) key).map QVariant.toULongLong

/-- The system after `loadSettings` on the instance `s` with the settings object `settings`. -/
def loadedSystem (s : UsageData) (settings : QSettings) (random64 : Nat)
    (nowFirst now nowSchedule : Int) : System :=
  { usageData := (loadSettings s settings random64 nowFirst now nowSchedule).1
    settings := (loadSettings s settings random64 nowFirst now nowSchedule).2 }

/-- The calls that act on the report window: `setReportingEnabled`, `setInterval`, the timer
expiry and the two outcomes. -/
def isWindowOperation (op : Operation) : Bool :=
  match op with
  | Operation.setReportingEnabled _ _ _ => true
  | Operation.setInterval _ _ _ => true
  | Operation.timerExpiry _ _ => true
  | Operation.success _ _ => true
  | Operation.failure _ _ _ => true
  | _ => false

/-- The clock readings a call hands to the method, in the order in which the method makes
them; the timer expiry reads the clock once for every running activity timer. -/
def clockReadings (op : Operation) (s : UsageData) : List Int :=
  match op with
  | Operation.setInterval _ now nowSchedule => [now, nowSchedule]
  | Operation.loadSettings _ nowFirst now nowSchedule => [nowFirst, now, nowSchedule]
  | Operation.setReportingEnabled _ now nowSchedule => [now, nowSchedule]
  | Operation.setReportingDisabled _ now nowSchedule => [now, nowSchedule]
  | Operation.startTimer _ now => [now]
  | Operation.stopTimer _ _ now => [now]
  | Operation.stopTimers now => [now]
  | Operation.timerExpiry _ clock => (QHash.keys s.timers).map clock
  | Operation.success now nowSchedule => [now, nowSchedule]
  | Operation.failure _ now nowSchedule => [now, nowSchedule]
  | _ => []

/-- Whether the readings of the list, made in order after a reading `t`, never decrease. -/
def nonDecreasingFrom : Int → List Int → Bool
  | _, [] => true
  | t, x :: rest => decide (t ≤ x) && nonDecreasingFrom x rest

/-- Whether the clock readings of the calls of `ops`, made in order after a reading `t`, never
decrease. -/
def clockNonDecreasing : Int → List Operation → System → Bool
  | _, [], _ => true
  | t, op :: rest, sys =>
      nonDecreasingFrom t (clockReadings op sys.usageData) &&
        match applyOperation op sys with
        | .ok sys2 =>
            clockNonDecreasing ((clockReadings op sys.usageData).getLastD t) rest sys2
        | .error _ => true

/-- Whether the report timer is armed: started and neither stopped nor expired since. -/
def timerArmed (s : UsageData) : Bool := s.timer.isSome

/-- Guard of an execution in which the report timer expires only while it is armed. -/
def expiryWhenArmed (op : Operation) (sys : System) : Bool :=
  match op with
  | Operation.timerExpiry _ _ => timerArmed sys.usageData
  | _ => true

/-- Guard of an execution over the report window: every call is one of `isWindowOperation`;
every interval passed to `setInterval` is at least one second and its milliseconds fit an
`int`; reporting is not switched from disabled to enabled while a report is in flight; the
timer expires only while it is armed; and an outcome is received only while a report is in
flight. -/
def windowCall (op : Operation) (sys : System) : Bool :=
  match op with
  | Operation.setReportingEnabled nowEnabled _ _ =>
      !(nowEnabled && !sys.usageData.enabled && isReporting sys.usageData)
  | Operation.setInterval newInterval _ _ =>
      decide (1 ≤ newInterval ∧ 1000 * newInterval ≤ 2 ^ 31 - 1)
  | Operation.timerExpiry _ _ => timerArmed sys.usageData
  | Operation.success _ _ => isReporting sys.usageData
  | Operation.failure _ _ _ => isReporting sys.usageData
  | _ => false

/-- The time at which the report timer is due after a call, `none` when it is not armed.  A
call that starts the timer does so right after it reads `nowSchedule`, with the delay found in
the state it leaves; a call that stops the timer, and the expiry itself, leave it not armed;
`deadline` is the time at which the timer was due before the call. -/
def timerDeadline (op : Operation) (sys : System) (deadline : Option Int) : Option Int :=
  match op with
  | Operation.setInterval newInterval now nowSchedule =>
      if sys.usageData.enabled && isNotReporting sys.usageData then
        (setInterval sys.usageData newInterval now nowSchedule).timer.map
          (fun d => nowSchedule + d)
      else deadline
  | Operation.loadSettings random64 nowFirst now nowSchedule =>
      (loadSettings sys.usageData sys.settings random64 nowFirst now nowSchedule).1.timer.map
        (fun d => nowSchedule + d)
  | Operation.setReportingEnabled nowEnabled now nowSchedule =>
      if nowEnabled = sys.usageData.enabled then deadline
      else (setReportingEnabled sys.usageData nowEnabled now nowSchedule).timer.map
        (fun d => nowSchedule + d)
  | Operation.setReportingDisabled nowDisabled now nowSchedule =>
      if (!nowDisabled) = sys.usageData.enabled then deadline
      else (setReportingDisabled sys.usageData nowDisabled now nowSchedule).timer.map
        (fun d => nowSchedule + d)
  | Operation.timerExpiry _ _ => none
  | Operation.success now nowSchedule =>
      if sys.usageData.enabled then
        (Result.state (jsonResponseWasReceived sys.usageData now nowSchedule)).timer.map
          (fun d => nowSchedule + d)
      else deadline
  | Operation.failure code now nowSchedule =>
      if sys.usageData.enabled then
        (failed sys.usageData code now nowSchedule).timer.map (fun d => nowSchedule + d)
      else deadline
  | _ => deadline

/-- The earliest time at which a call can be made after a clock reading `t`: the timer does not
expire before the time `deadline` at which it is due. -/
def earliestTime (op : Operation) (deadline : Option Int) (t : Int) : Int :=
  match op with
  | Operation.timerExpiry _ _ =>
      match deadline with
      | some d => Max.max t d
      | none => t
  | _ => t

/-- Whether the calls of `ops` are made in time order after a clock reading `t`: the clock
readings never decrease, and the report timer, due at `deadline` when it is armed, never
expires before it is due. -/
def timelyFrom : Option Int → Int → List Operation → System → Bool
  | _, _, [], _ => true
  | deadline, t, op :: rest, sys =>
      nonDecreasingFrom (earliestTime op deadline t) (clockReadings op sys.usageData) &&
        match applyOperation op sys with
        | .ok sys2 =>
            timelyFrom (timerDeadline op sys deadline)
              ((clockReadings op sys.usageData).getLastD (earliestTime op deadline t)) rest sys2
        | .error _ => true

/-! ## Example inputs -/

/-- The store of `TestUsageData::testPrimaryInstance` after its three `adjustEvent` calls and
its two `startTimer` calls (here at 1000 ms and 1500 ms), taken with reporting enabled, interval
1 s and the report window from 0 ms to 1000 ms. -/
def testStore : UsageData :=
  { configure "https://autonoma.inesonic.com/v2/test_usage_data" 7 with
    enabled := true
    lastOperation := QDateTime.utc 0
    nextOperation := QDateTime.utc 1000
    reportInterval := 1
    events := QHash.insert (QHash.insert ∅ "test_event_2" 1) "test_event_1" 2
    timers := QHash.insert (QHash.insert ∅ "activity_1" (QDateTime.utc 1000)) "activity_2"
      (QDateTime.utc 1500) }

/-- A `SystemInfo` for the examples. -/
def testSystemInfo : SystemInfo :=
  { applicationName := "test_ineud"
    applicationVersion := "1.0"
    currentCpuArchitecture := "x86_64"
    kernelType := "linux"
    kernelVersion := "6.1"
    productType := "debian"
    productVersion := "12"
    idealThreadCount := 4 }

/-- A store with a report in flight: the snapshot holds `test_event_1 ↦ 2`, `test_event_2 ↦ 1`
and `activity_1 ↦ 4`; since the snapshot `test_event_1` was incremented once more. -/
def inFlightStore : UsageData :=
  { testStore with
    currentlyIsReporting := true
    events := QHash.insert (QHash.insert ∅ "test_event_2" 1) "test_event_1" 3
    activities := QHash.insert ∅ "activity_1" 4
    eventsAdjustment := QHash.insert (QHash.insert ∅ "test_event_2" 1) "test_event_1" 2
    activitiesAdjustment := QHash.insert ∅ "activity_1" 4 }

/-- The store with a report in flight after `adjustActivity("activity_1", -1)`: the live value
3 of `activity_1` is below its snapshotted amount 4. -/
def underflowStore : UsageData :=
  { inFlightStore with activities := QHash.insert ∅ "activity_1" 3 }

/-- The scenario of the spec: `e1` incremented twice and `e2` once on a new instance, then
reporting enabled. -/
def scenarioStore : UsageData :=
  adjustEventCalls { configure "u" 7 with enabled := true } [("e1", 1), ("e2", 1), ("e1", 1)]

/-- The store with a report in flight and the largest interval, as after
`setInterval(2 ^ 64 - 1)` during the report. -/
def maxIntervalStore : UsageData :=
  { inFlightStore with reportInterval := 2 ^ 64 - 1 }

/-- A settings object that holds nothing. -/
def emptySettings : QSettings := { values := ∅, group := [] }

/-- A settings object whose group `usageData` holds `test_event_1 ↦ 2` in its sub-group `events`
and `activity_1 ↦ 4` in its sub-group `activities`. -/
def persistedStore : QSettings :=
  { values :=
      AList.insert (["usageData", "activities"], "activity_1") (QVariant.uLongLong 4)
        (AList.insert (["usageData", "events"], "test_event_1") (QVariant.uLongLong 2) ∅)
    group := [] }

/-- The settings written by `saveSettings` on the test store, starting from no settings. -/
def savedTestSettings : QSettings := saveSettings testStore emptySettings

/-- The test store after its report was built (timers read at 2000 ms) and the success outcome
was received at 2500 ms: every reported counter has been removed. -/
def reportedStore : UsageData :=
  Result.state (jsonResponseWasReceived
    (Result.state (reportUsageData testStore testSystemInfo (fun _ => 2000))) 2500 2500)

/-- A new instance after `setInterval(2 ^ 64 - 1)`. -/
def maxIntervalInstance : UsageData := setInterval (configure "u" 7) (2 ^ 64 - 1) 0 0

/-- A settings object whose group `usageData` holds only `enabled ↦ true`. -/
def enabledSettings : QSettings :=
  { values := AList.insert (["usageData"], "enabled") (QVariant.bool true) ∅
    group := [] }

/-- Calls made after a load at 0 ms: `setInterval(0)` reads the clock at 1000 ms and, inside
`scheduleReport`, at 1001 ms; the timer, armed there with 59000 ms, expires at 60001 ms; the
success outcome is received at 60500 ms. -/
def earlyOutcomeTrace : List Operation :=
  [Operation.setInterval 0 1000 1001,
   Operation.timerExpiry testSystemInfo (fun _ => 60001),
   Operation.success 60500 60500]

/-- Calls made after a load at 0 ms with the default interval: reporting is enabled, the timer
expires after seven days, the delivery fails, the timer expires again after the retry period and
the delivery succeeds. -/
def weeklyTrace : List Operation :=
  [Operation.setReportingEnabled true 1000 1000,
   Operation.timerExpiry testSystemInfo (fun _ => 604800000),
   Operation.failure 3 604800500 604800500,
   Operation.timerExpiry testSystemInfo (fun _ => 606600500),
   Operation.success 606601000 606601000]

/-- Calls made on a new instance: reporting is enabled at 0 ms, which arms the timer with
60 000 ms; the timer expires at 60 000 ms and the report is sent; while its outcome is pending
reporting is disabled at 61 000 ms and enabled again at 62 000 ms, which arms the timer with
60 000 ms; the timer expires at 122 000 ms. -/
def overlapTrace : List Operation :=
  [Operation.setReportingEnabled true 0 0,
   Operation.timerExpiry testSystemInfo (fun _ => 60000),
   Operation.setReportingEnabled false 61000 61000,
   Operation.setReportingEnabled true 62000 62000,
   Operation.timerExpiry testSystemInfo (fun _ => 122000)]

/-- A settings object whose group `usageData` holds `enabled ↦ true` and a `next_operation` of
0 ms. -/
def overdueSettings : QSettings :=
  { values :=
      AList.insert (["usageData"], "next_operation") (QVariant.dateTime (QDateTime.utc 0))
        (AList.insert (["usageData"], "enabled") (QVariant.bool true) ∅)
    group := [] }

/-- Calls made on a new instance: the settings are loaded, reporting is enabled, the timer
expires, reporting is disabled while the report is in flight and the delivery fails. -/
def disableInFlightTrace : List Operation :=
  [Operation.loadSettings 9 0 0 0,
   Operation.setReportingEnabled true 1000 1000,
   Operation.timerExpiry testSystemInfo (fun _ => 604800000),
   Operation.setReportingEnabled false 604800100 604800100,
   Operation.failure 3 604800500 604800500]

/-- Calls made after a load at 0 ms from settings that hold `enabled`: `setInterval(1)` at
1000 ms sets `nextOperation` to 61 000 ms; the timer expires then and the report is sent; while
its outcome is pending reporting is disabled at 61 100 ms and enabled again at 61 200 ms, which
moves `nextOperation` to 121 200 ms; the success outcome is received at 61 500 ms. -/
def reenableInFlightTrace : List Operation :=
  [Operation.setInterval 1 1000 1000,
   Operation.timerExpiry testSystemInfo (fun _ => 61000),
   Operation.setReportingEnabled false 61100 61100,
   Operation.setReportingEnabled true 61200 61200,
   Operation.success 61500 61500]

/-- Calls made after a load at 0 ms of an instance whose interval is 4 294 968 s:
`setInterval(1)`, then `setReportingEnabled(true)`, which hands the timer 704 ms; the timer
expires at 704 ms and the success outcome is received at 1000 ms. -/
def wrappedDelayTrace : List Operation :=
  [Operation.setInterval 1 0 0,
   Operation.setReportingEnabled true 0 0,
   Operation.timerExpiry testSystemInfo (fun _ => 704),
   Operation.success 1000 1000]

/-! ## Lemmas on QHash -/

theorem QHash.contains_eq_isSome {V : Type} (h : QHash V) (key : String) :
    QHash.contains h key = (QHash.lookup h key).isSome := rfl

theorem QHash.value_eq_getD {V : Type} [Inhabited V] (h : QHash V) (key : String) :
    QHash.value h key = (QHash.lookup h key).getD default := rfl

theorem QHash.lookup_insert_self {V : Type} (h : QHash V) (key : String) (v : V) :
    QHash.lookup (QHash.insert h key v) key = some v := by
  simp [QHash.lookup, QHash.insert, AList.lookup_insert]

theorem QHash.lookup_insert_ne {V : Type} (h : QHash V) {key other : String} (v : V)
    (hne : other ≠ key) :
    QHash.lookup (QHash.insert h key v) other = QHash.lookup h other := by
  simp [QHash.lookup, QHash.insert, AList.lookup_insert_ne hne]

theorem QHash.lookup_remove_self {V : Type} (h : QHash V) (key : String) :
    QHash.lookup (QHash.remove h key) key = none := by
  simp [QHash.lookup, QHash.remove, AList.lookup_erase]

theorem QHash.lookup_remove_ne {V : Type} (h : QHash V) {key other : String}
    (hne : other ≠ key) :
    QHash.lookup (QHash.remove h key) other = QHash.lookup h other := by
  simp [QHash.lookup, QHash.remove, AList.lookup_erase_ne hne]

theorem QHash.lookup_clear {V : Type} (h : QHash V) (key : String) :
    QHash.lookup (QHash.clear h) key = none := by
  simp [QHash.lookup, QHash.clear]

/-! ## Lemmas on machine integers -/

theorem toU64_add_nat (old : Nat) (delta : Int) :
    (old + toU64 delta) % 2 ^ 64 = toU64 ((old : Int) + delta) := by
  unfold toU64
  omega

theorem toU64_natCast (n : Nat) : toU64 (n : Int) = n % 2 ^ 64 := by
  unfold toU64
  omega

/-! ## Lemmas on adjustEvent and adjustActivity -/

theorem adjustEvent_lookup_self (s : UsageData) (name : String) (k : Nat) :
    QHash.lookup (adjustEvent s name k).events name
      = some ((QHash.value s.events name + k) % 2 ^ 64) := by
  unfold adjustEvent
  by_cases h : QHash.contains s.events name = true
  · simp [h, QHash.lookup_insert_self]
  · have h0 : QHash.value s.events name = 0 := by
      simp only [QHash.contains_eq_isSome, Bool.not_eq_true, Option.not_isSome,
        Option.isNone_iff_eq_none] at h
      simp [QHash.value_eq_getD, h]
    simp [h, QHash.lookup_insert_self, h0]

theorem adjustEvent_lookup_ne (s : UsageData) {name other : String} (k : Nat)
    (hne : other ≠ name) :
    QHash.lookup (adjustEvent s name k).events other = QHash.lookup s.events other := by
  unfold adjustEvent
  by_cases h : QHash.contains s.events name = true <;>
    simp [h, QHash.lookup_insert_ne _ _ hne]

theorem adjustEvent_frame (s : UsageData) (name : String) (k : Nat) :
    (adjustEvent s name k).activities = s.activities ∧
    (adjustEvent s name k).timers = s.timers := by
  unfold adjustEvent
  by_cases h : QHash.contains s.events name = true <;> simp [h]

theorem adjustEventMany_lookup_ne (name other : String) (hne : other ≠ name) (ks : List Nat) :
    ∀ s : UsageData,
      QHash.lookup (adjustEventMany s name ks).events other = QHash.lookup s.events other := by
  induction ks with
  | nil => intro s; rfl
  | cons k rest ih =>
    intro s
    show QHash.lookup (adjustEventMany (adjustEvent s name k) name rest).events other = _
    rw [ih, adjustEvent_lookup_ne s k hne]

theorem adjustEventMany_frame (name : String) (ks : List Nat) :
    ∀ s : UsageData,
      (adjustEventMany s name ks).activities = s.activities ∧
      (adjustEventMany s name ks).timers = s.timers := by
  induction ks with
  | nil => intro s; exact ⟨rfl, rfl⟩
  | cons k rest ih =>
    intro s
    show (adjustEventMany (adjustEvent s name k) name rest).activities = _ ∧
      (adjustEventMany (adjustEvent s name k) name rest).timers = _
    rw [(ih _).1, (ih _).2]
    exact adjustEvent_frame s name k

theorem adjustEventMany_value (name : String) (ks : List Nat) :
    ∀ s : UsageData,
      QHash.value (adjustEventMany s name ks).events name
        = (QHash.value s.events name + ks.sum) % 2 ^ 64 ∨
      (ks = [] ∧ adjustEventMany s name ks = s) := by
  induction ks with
  | nil => intro s; right; exact ⟨rfl, rfl⟩
  | cons k rest ih =>
    intro s
    left
    show QHash.value (adjustEventMany (adjustEvent s name k) name rest).events name = _
    have h1 : QHash.value (adjustEvent s name k).events name
        = (QHash.value s.events name + k) % 2 ^ 64 := by
      rw [QHash.value_eq_getD, adjustEvent_lookup_self]; rfl
    rcases ih (adjustEvent s name k) with h | ⟨hnil, heq⟩
    · rw [h, h1, List.sum_cons]; omega
    · rw [heq, h1, hnil]; simp

theorem adjustEventMany_contains (name : String) (ks : List Nat) :
    ∀ s : UsageData, ks ≠ [] → QHash.contains (adjustEventMany s name ks).events name = true := by
  induction ks with
  | nil => intro s h; exact absurd rfl h
  | cons k rest ih =>
    intro s _
    show QHash.contains (adjustEventMany (adjustEvent s name k) name rest).events name = true
    by_cases hr : rest = []
    · subst hr
      show QHash.contains (adjustEvent s name k).events name = true
      rw [QHash.contains_eq_isSome, adjustEvent_lookup_self]; rfl
    · exact ih _ hr

/-! ## C1 -/

/-- C1: for an event name absent from the store and any sequence `ks` of `adjustEvent(name, k)`
calls with 32-bit amounts, the stored 64-bit value of `name` afterwards is the sum of the
amounts modulo `2 ^ 64` (the entry exists as soon as one call was made), the first call creates
the entry at its amount, and every other event, every activity and every timer is unchanged. -/
theorem C1_adjustEvent_accumulates_sum (s : UsageData) (name : String) (ks : List Nat)
    (habsent : QHash.contains s.events name = false) (hks : ∀ k ∈ ks, k < 2 ^ 32) :
    QHash.value (adjustEventMany s name ks).events name = ks.sum % 2 ^ 64 ∧
    (ks ≠ [] → QHash.lookup (adjustEventMany s name ks).events name = some (ks.sum % 2 ^ 64)) ∧
    (∀ k rest, ks = k :: rest → QHash.lookup (adjustEvent s name k).events name = some k) ∧
    (∀ other, other ≠ name →
      QHash.lookup (adjustEventMany s name ks).events other = QHash.lookup s.events other) ∧
    (adjustEventMany s name ks).activities = s.activities ∧
    (adjustEventMany s name ks).timers = s.timers := by
  have hnone : QHash.lookup s.events name = none := by
    rw [QHash.contains_eq_isSome] at habsent
    cases h : QHash.lookup s.events name with
    | none => rfl
    | some v => rw [h] at habsent; cases habsent
  have h0 : QHash.value s.events name = 0 := by
    rw [QHash.value_eq_getD, hnone]; rfl
  have hval : QHash.value (adjustEventMany s name ks).events name = ks.sum % 2 ^ 64 := by
    rcases adjustEventMany_value name ks s with h | ⟨hnil, heq⟩
    · rw [h, h0, Nat.zero_add]
    · rw [heq, h0, hnil]; rfl
  refine ⟨hval, ?_, ?_, ?_, (adjustEventMany_frame name ks s).1,
    (adjustEventMany_frame name ks s).2⟩
  · intro hne
    have hc := adjustEventMany_contains name ks s hne
    rw [QHash.contains_eq_isSome] at hc
    rw [QHash.value_eq_getD] at hval
    cases h : QHash.lookup (adjustEventMany s name ks).events name with
    | none => rw [h] at hc; cases hc
    | some v => rw [h] at hval; simp only [Option.getD_some] at hval; rw [hval]
  · intro k rest hk
    have hlt : k < 2 ^ 32 := hks k (by rw [hk]; exact List.mem_cons_self _ _)
    rw [adjustEvent_lookup_self, h0, Nat.zero_add, Nat.mod_eq_of_lt (by omega)]
  · intro other hne
    exact adjustEventMany_lookup_ne name other hne ks s

/-- Three calls on the newly constructed instance, one of them with the largest 32-bit amount. -/
theorem C1_adjustEvent_accumulates_sum_witness :
    (QHash.contains (configure "u" 7).events "test_event_1" = false ∧
      ∀ k ∈ [1, 2 ^ 32 - 1, 5], k < 2 ^ 32) ∧
    QHash.lookup (adjustEventMany (configure "u" 7) "test_event_1" [1, 2 ^ 32 - 1, 5]).events
      "test_event_1" = some 4294967301 :=
  ⟨⟨by decide, by decide⟩,
   (C1_adjustEvent_accumulates_sum (configure "u" 7) "test_event_1" [1, 2 ^ 32 - 1, 5]
      (by decide) (by decide)).2.1 (by decide)⟩

/-! ## C2 -/

theorem adjustActivity_lookup_self (s : UsageData) (name : String) (delta : Int) :
    QHash.lookup (adjustActivity s name delta).activities name
      = some (toU64 ((QHash.value s.activities name : Nat) + delta)) := by
  unfold adjustActivity
  by_cases h : QHash.contains s.activities name = true
  · simp only [h, if_true, QHash.lookup_insert_self]
    rw [toU64_add_nat]
  · have h0 : QHash.value s.activities name = 0 := by
      simp only [QHash.contains_eq_isSome, Bool.not_eq_true, Option.not_isSome,
        Option.isNone_iff_eq_none] at h
      simp [QHash.value_eq_getD, h]
    simp [h, QHash.lookup_insert_self, h0]

theorem adjustActivity_lookup_ne (s : UsageData) {name other : String} (delta : Int)
    (hne : other ≠ name) :
    QHash.lookup (adjustActivity s name delta).activities other
      = QHash.lookup s.activities other := by
  unfold adjustActivity
  by_cases h : QHash.contains s.activities name = true <;>
    simp [h, QHash.lookup_insert_ne _ _ hne]

theorem adjustActivity_frame (s : UsageData) (name : String) (delta : Int) :
    (adjustActivity s name delta).events = s.events ∧
    (adjustActivity s name delta).timers = s.timers ∧
    (adjustActivity s name delta).eventsAdjustment = s.eventsAdjustment ∧
    (adjustActivity s name delta).activitiesAdjustment = s.activitiesAdjustment ∧
    (adjustActivity s name delta).currentlyIsReporting = s.currentlyIsReporting ∧
    (adjustActivity s name delta).enabled = s.enabled := by
  unfold adjustActivity
  by_cases h : QHash.contains s.activities name = true <;> simp [h]

/-- C2: `adjustActivity(name, delta)` stores under `name` the value `old + delta` when `name`
is present with value `old`, and `delta` when `name` is absent, in both cases taken modulo
`2 ^ 64`; the entry exists afterwards whatever the sign of `delta`, and every other activity,
every event and every timer is unchanged. -/
theorem C2_adjustActivity_adds_delta (s : UsageData) (name : String) (delta : Int) :
    QHash.lookup (adjustActivity s name delta).activities name
      = some (match QHash.lookup s.activities name with
              | some old => (((old : Int) + delta) % 2 ^ 64).toNat
              | none => (delta % 2 ^ 64).toNat) ∧
    QHash.contains (adjustActivity s name delta).activities name = true ∧
    (∀ other, other ≠ name →
      QHash.lookup (adjustActivity s name delta).activities other
        = QHash.lookup s.activities other) ∧
    (adjustActivity s name delta).events = s.events ∧
    (adjustActivity s name delta).timers = s.timers := by
  have hself := adjustActivity_lookup_self s name delta
  refine ⟨?_, ?_, ?_, (adjustActivity_frame s name delta).1,
    (adjustActivity_frame s name delta).2.1⟩
  · rw [hself, QHash.value_eq_getD]
    cases QHash.lookup s.activities name with
    | none =>
      have h0 : (((none : Option Nat).getD default : Nat) : Int) + delta = delta := by
        show ((0 : Nat) : Int) + delta = delta
        omega
      rw [h0]
      rfl
    | some old => rfl
  · rw [QHash.contains_eq_isSome, hself]; rfl
  · intro other hne
    exact adjustActivity_lookup_ne s delta hne

/-! ## Timers: C3, C4, C5, C6 -/

theorem secsTo_utc_of_le (t0 t1 : Int) (hle : t0 ≤ t1) :
    QDateTime.secsTo (QDateTime.utc t0) (QDateTime.utc t1)
      = (((t1 - t0).toNat / 1000 : Nat) : Int) := by
  show Int.tdiv (t1 - t0) 1000 = _
  rw [Int.tdiv_eq_ediv (by omega) (by omega)]
  omega

theorem toU64_add_elapsed (old : Nat) (t0 t1 : Int) (hle : t0 ≤ t1) :
    toU64 ((old : Int) + QDateTime.secsTo (QDateTime.utc t0) (QDateTime.utc t1))
      = (old + (t1 - t0).toNat / 1000) % 2 ^ 64 := by
  rw [secsTo_utc_of_le t0 t1 hle, ← Int.ofNat_add, toU64_natCast]

theorem QHash.lookup_of_contains_false {V : Type} (h : QHash V) (key : String)
    (hc : QHash.contains h key = false) : QHash.lookup h key = none := by
  rw [QHash.contains_eq_isSome] at hc
  cases hl : QHash.lookup h key with
  | none => rfl
  | some v => rw [hl] at hc; cases hc

theorem QHash.contains_of_lookup_some {V : Type} (h : QHash V) (key : String) (v : V)
    (hl : QHash.lookup h key = some v) : QHash.contains h key = true := by
  rw [QHash.contains_eq_isSome, hl]; rfl

theorem QHash.value_of_lookup_some {V : Type} [Inhabited V] (h : QHash V) (key : String) (v : V)
    (hl : QHash.lookup h key = some v) : QHash.value h key = v := by
  rw [QHash.value_eq_getD, hl]; rfl

theorem stopTimer_of_running (s : UsageData) (name : String) (doStop : Bool) (now : Int)
    (start : QDateTime) (hl : QHash.lookup s.timers name = some start) :
    stopTimer s name doStop now
      = .ok (adjustActivity
          { s with timers := if doStop then QHash.remove s.timers name
                             else QHash.insert s.timers name (QDateTime.utc now) }
          name (start.secsTo (QDateTime.utc now))) := by
  have hc := QHash.contains_of_lookup_some _ _ _ hl
  have hv := QHash.value_of_lookup_some _ _ _ hl
  unfold stopTimer
  cases doStop <;> simp [hc, hv, QHash.take]

/-- C3: timer round trip.  When `name` is not an active timer and `t0 ≤ t1`, `startTimer(name)`
at `t0` succeeds and records start `t0` without touching any other timer, any activity or any
event; and in every later state `s1` in which the timer and the activity of `name` are as that
call left them (no other operation on `name` in between), `stopTimer(name, true)` at `t1`
succeeds, leaves the accumulator of `name` (created if absent, 0 counted for an absent one) at
its old value plus the whole seconds from `t0` to `t1` in 64-bit arithmetic, leaves `name`
inactive and leaves every other timer untouched. -/
theorem C3_timer_round_trip (s : UsageData) (name : String) (t0 t1 : Int)
    (hinactive : isTimerActive s name = false) (hle : t0 ≤ t1) :
    ∃ s0, startTimer s name t0 = .ok s0 ∧
      QHash.lookup s0.timers name = some (QDateTime.utc t0) ∧
      (∀ other, other ≠ name → QHash.lookup s0.timers other = QHash.lookup s.timers other) ∧
      s0.activities = s.activities ∧ s0.events = s.events ∧
      ∀ s1 : UsageData,
        QHash.lookup s1.timers name = QHash.lookup s0.timers name →
        QHash.lookup s1.activities name = QHash.lookup s0.activities name →
        ∃ s2, stopTimer s1 name true t1 = .ok s2 ∧
          QHash.lookup s2.activities name
            = some ((QHash.value s.activities name + (t1 - t0).toNat / 1000) % 2 ^ 64) ∧
          isTimerActive s2 name = false ∧
          (∀ other, other ≠ name →
            QHash.lookup s2.timers other = QHash.lookup s1.timers other) ∧
          (∀ other, other ≠ name →
            QHash.lookup s2.activities other = QHash.lookup s1.activities other) ∧
          s2.events = s1.events := by
  have hstart : startTimer s name t0
      = .ok { s with timers := QHash.insert s.timers name (QDateTime.utc t0) } := by
    unfold startTimer
    unfold isTimerActive at hinactive
    simp [hinactive]
  refine ⟨_, hstart, QHash.lookup_insert_self _ _ _,
    fun other hne => QHash.lookup_insert_ne _ _ hne, rfl, rfl, ?_⟩
  intro s1 htimer hact
  have hl : QHash.lookup s1.timers name = some (QDateTime.utc t0) := by
    rw [htimer]; exact QHash.lookup_insert_self _ _ _
  have hval : QHash.value s1.activities name = QHash.value s.activities name := by
    rw [QHash.value_eq_getD, QHash.value_eq_getD, hact]
  refine ⟨_, stopTimer_of_running s1 name true t1 _ hl, ?_, ?_, ?_, ?_, ?_⟩
  · rw [adjustActivity_lookup_self]
    show some (toU64 ((QHash.value s1.activities name : Nat) + _)) = _
    rw [hval, toU64_add_elapsed _ _ _ hle]
  · unfold isTimerActive
    rw [QHash.contains_eq_isSome, (adjustActivity_frame _ _ _).2.1]
    show (QHash.lookup (QHash.remove s1.timers name) name).isSome = false
    rw [QHash.lookup_remove_self]; rfl
  · intro other hne
    rw [(adjustActivity_frame _ _ _).2.1]
    exact QHash.lookup_remove_ne _ hne
  · intro other hne
    exact adjustActivity_lookup_ne _ _ hne
  · exact (adjustActivity_frame _ _ _).1

/-- A timer started at 1000 ms and stopped at 5999 ms credits 4 seconds. -/
theorem C3_timer_round_trip_witness :
    isTimerActive (configure "u" 7) "activity_1" = false ∧ (1000 : Int) ≤ 5999 ∧
    ∃ s0 s2, startTimer (configure "u" 7) "activity_1" 1000 = .ok s0 ∧
      stopTimer s0 "activity_1" true 5999 = .ok s2 ∧
      QHash.lookup s2.activities "activity_1" = some 4 ∧
      isTimerActive s2 "activity_1" = false := by
  refine ⟨by decide, by decide, ?_⟩
  obtain ⟨s0, h0, _, _, _, _, hgen⟩ :=
    C3_timer_round_trip (configure "u" 7) "activity_1" 1000 5999 (by decide) (by decide)
  obtain ⟨s2, h2, hact, hin, _⟩ := hgen s0 rfl rfl
  refine ⟨s0, s2, h0, h2, ?_, hin⟩
  rw [hact]
  decide

/-- C4: checkpoint without stopping.  When `name` is an active timer started at `t0` and
`t0 ≤ now`, `stopTimer(name, false)` at `now` succeeds, adds the whole seconds from `t0` to
`now` to the accumulator of `name` (64-bit arithmetic, an absent accumulator counting as 0),
keeps `name` active with start timestamp `now`, and leaves the set of active timer names, the
start of every other timer, every other activity and all events unchanged. -/
theorem C4_checkpoint_keeps_timer (s : UsageData) (name : String) (t0 now : Int)
    (hstart : QHash.lookup s.timers name = some (QDateTime.utc t0)) (hle : t0 ≤ now) :
    ∃ s2, stopTimer s name false now = .ok s2 ∧
      QHash.lookup s2.activities name
        = some ((QHash.value s.activities name + (now - t0).toNat / 1000) % 2 ^ 64) ∧
      isTimerActive s2 name = true ∧
      QHash.lookup s2.timers name = some (QDateTime.utc now) ∧
      (∀ k, isTimerActive s2 k = isTimerActive s k) ∧
      (∀ other, other ≠ name → QHash.lookup s2.timers other = QHash.lookup s.timers other) ∧
      (∀ other, other ≠ name →
        QHash.lookup s2.activities other = QHash.lookup s.activities other) ∧
      s2.events = s.events := by
  have htimers : (adjustActivity
      { s with timers := QHash.insert s.timers name (QDateTime.utc now) } name
      ((QDateTime.utc t0).secsTo (QDateTime.utc now))).timers
        = QHash.insert s.timers name (QDateTime.utc now) := (adjustActivity_frame _ _ _).2.1
  refine ⟨_, stopTimer_of_running s name false now _ hstart, ?_, ?_, ?_, ?_, ?_, ?_, ?_⟩
  · rw [adjustActivity_lookup_self]
    show some (toU64 ((QHash.value s.activities name : Nat) + _)) = _
    rw [toU64_add_elapsed _ _ _ hle]
  · unfold isTimerActive
    simp only [Bool.false_eq_true, if_false]
    rw [htimers, QHash.contains_eq_isSome, QHash.lookup_insert_self]; rfl
  · simp only [Bool.false_eq_true, if_false]
    rw [htimers, QHash.lookup_insert_self]
  · intro k
    unfold isTimerActive
    simp only [Bool.false_eq_true, if_false]
    rw [htimers, QHash.contains_eq_isSome, QHash.contains_eq_isSome]
    by_cases hk : k = name
    · subst hk
      rw [QHash.lookup_insert_self, hstart]; rfl
    · rw [QHash.lookup_insert_ne _ _ hk]
  · intro other hne
    simp only [Bool.false_eq_true, if_false]
    rw [htimers, QHash.lookup_insert_ne _ _ hne]
  · intro other hne
    exact adjustActivity_lookup_ne _ _ hne
  · exact (adjustActivity_frame _ _ _).1

/-- Checkpoint of `activity_1` of the test store at 3999 ms: 2 seconds credited, start reset. -/
theorem C4_checkpoint_keeps_timer_witness :
    QHash.lookup testStore.timers "activity_1" = some (QDateTime.utc 1000) ∧
    (1000 : Int) ≤ 3999 ∧
    ∃ s2, stopTimer testStore "activity_1" false 3999 = .ok s2 ∧
      QHash.lookup s2.activities "activity_1" = some 2 ∧
      QHash.lookup s2.timers "activity_1" = some (QDateTime.utc 3999) := by
  refine ⟨by decide, by decide, ?_⟩
  obtain ⟨s2, h2, hact, _, htimer, _⟩ :=
    C4_checkpoint_keeps_timer testStore "activity_1" 1000 3999 (by decide) (by decide)
  refine ⟨s2, h2, ?_, htimer⟩
  rw [hact]
  decide

/-- C5: `startTimer(name)` on a store in which `name` is an active timer fails on its
assertion (timer already running) at a point where the store, the recorded start of `name`
included, is exactly as before the call; and the call succeeds if and only if `name` is not
an active timer. -/
theorem C5_startTimer_already_running (s : UsageData) (name : String) (now : Int) :
    (isTimerActive s name = true →
      startTimer s name now = .error (AssertionFailure.timerAlreadyRunning, s)) ∧
    ((∃ s2, startTimer s name now = .ok s2) ↔ isTimerActive s name = false) := by
  unfold startTimer isTimerActive
  cases h : QHash.contains s.timers name <;> simp

/-- Starting `activity_1` of the test store a second time fails and keeps its start of 1000 ms. -/
theorem C5_startTimer_already_running_witness :
    isTimerActive testStore "activity_1" = true ∧
    startTimer testStore "activity_1" 2000
      = .error (AssertionFailure.timerAlreadyRunning, testStore) ∧
    QHash.lookup testStore.timers "activity_1" = some (QDateTime.utc 1000) :=
  ⟨by decide,
   (C5_startTimer_already_running testStore "activity_1" 2000).1 (by decide),
   by decide⟩

/-- C6: `stopTimer(name, doStop)` on a store in which `name` is not an active timer fails, for
both values of `doStop`, on its assertion (timer not running) at a point where the store is
exactly as before the call: no timer entry and no activity entry has been created or
modified. -/
theorem C6_stopTimer_not_running (s : UsageData) (name : String) (doStop : Bool) (now : Int)
    (hinactive : isTimerActive s name = false) :
    stopTimer s name doStop now = .error (AssertionFailure.timerNotRunning, s) := by
  unfold stopTimer
  unfold isTimerActive at hinactive
  simp [hinactive]

/-- Stopping the timer `activity_3`, which the test store does not have, fails. -/
theorem C6_stopTimer_not_running_witness :
    isTimerActive testStore "activity_3" = false ∧
    stopTimer testStore "activity_3" true 2000
      = .error (AssertionFailure.timerNotRunning, testStore) :=
  ⟨by decide, C6_stopTimer_not_running testStore "activity_3" true 2000 (by decide)⟩

/-! ## C7: stopTimers -/

theorem adjustActivity_set_timers (s : UsageData) (T : QHash QDateTime) (name : String)
    (delta : Int) :
    adjustActivity { s with timers := T } name delta
      = { adjustActivity s name delta with timers := T } := by
  unfold adjustActivity
  by_cases h : QHash.contains s.activities name = true <;> simp [h]

theorem foldl_adjustActivity_set_timers (endTime : QDateTime) (T : QHash QDateTime) :
    ∀ (L : List ((_ : String) × QDateTime)) (st : UsageData),
      L.foldl (fun st it => adjustActivity st it.1 (QDateTime.secsTo it.2 endTime))
          { st with timers := T }
        = { L.foldl (fun st it => adjustActivity st it.1 (QDateTime.secsTo it.2 endTime)) st
            with timers := T } := by
  intro L
  induction L with
  | nil => intro st; rfl
  | cons it rest ih =>
    intro st
    simp only [List.foldl_cons]
    rw [adjustActivity_set_timers, ih]

theorem foldl_adjustActivity_events (endTime : QDateTime) :
    ∀ (L : List ((_ : String) × QDateTime)) (st : UsageData),
      (L.foldl (fun st it => adjustActivity st it.1 (QDateTime.secsTo it.2 endTime)) st).events
        = st.events := by
  intro L
  induction L with
  | nil => intro st; rfl
  | cons it rest ih =>
    intro st
    simp only [List.foldl_cons]
    rw [ih, (adjustActivity_frame _ _ _).1]

theorem foldl_adjustActivity_lookup (endTime : QDateTime) :
    ∀ (L : List ((_ : String) × QDateTime)), L.NodupKeys → ∀ (st : UsageData) (name : String),
      QHash.lookup
          (L.foldl (fun st it => adjustActivity st it.1 (QDateTime.secsTo it.2 endTime))
            st).activities name
        = match L.dlookup name with
          | some start =>
              some (toU64 ((QHash.value st.activities name : Nat) + start.secsTo endTime))
          | none => QHash.lookup st.activities name := by
  intro L
  induction L with
  | nil => intro _ st name; rfl
  | cons it rest ih =>
    intro hnd st name
    obtain ⟨k, start⟩ := it
    have hnd2 := List.nodupKeys_cons.mp hnd
    simp only [List.foldl_cons]
    rw [ih hnd2.2]
    by_cases hk : name = k
    · subst hk
      have hnone : rest.dlookup name = none := List.dlookup_eq_none.mpr hnd2.1
      rw [hnone, List.dlookup_cons_eq]
      exact adjustActivity_lookup_self st name _
    · have hk2 : k ≠ name := fun h => hk h.symm
      rw [List.dlookup_cons_ne _ _ hk]
      have hl := adjustActivity_lookup_ne st (QDateTime.secsTo start endTime) hk
      have hv : QHash.value (adjustActivity st k (QDateTime.secsTo start endTime)).activities name
          = QHash.value st.activities name := by
        rw [QHash.value_eq_getD, QHash.value_eq_getD, hl]
      rw [hv, hl]

theorem foldlM_stopTimer_eq (now : Int) :
    ∀ (L : List ((_ : String) × QDateTime)) (hnd : L.NodupKeys) (st : UsageData),
      st.timers = ⟨L, hnd⟩ →
      L.keys.foldlM (fun st name => stopTimer st name true now) st
        = (.ok { L.foldl (fun st it => adjustActivity st it.1
                    (QDateTime.secsTo it.2 (QDateTime.utc now))) st
                 with timers := ∅ } : Result) := by
  intro L
  induction L with
  | nil =>
    intro hnd st hst
    show (.ok st : Result) = .ok { st with timers := ∅ }
    have : st.timers = ∅ := hst
    rw [← this]
  | cons it rest ih =>
    intro hnd st hst
    obtain ⟨k, start⟩ := it
    have hnd2 := List.nodupKeys_cons.mp hnd
    have hl : QHash.lookup st.timers k = some start := by
      rw [hst]
      show List.dlookup k (⟨k, start⟩ :: rest) = some start
      exact List.dlookup_cons_eq _ _ _
    have hrem : QHash.remove st.timers k = ⟨rest, hnd2.2⟩ := by
      rw [hst]
      apply AList.ext
      show List.kerase k (⟨k, start⟩ :: rest) = rest
      exact List.kerase_cons_eq rfl
    simp only [List.keys_cons, List.foldlM_cons, List.foldl_cons]
    rw [stopTimer_of_running st k true now start hl]
    simp only [if_true, hrem]
    show List.foldlM (fun st name => stopTimer st name true now) _ rest.keys = _
    rw [ih hnd2.2 _ (adjustActivity_frame _ _ _).2.1, adjustActivity_set_timers,
      foldl_adjustActivity_set_timers]

/-- C7: `stopTimers()` at `now` yields exactly the state obtained by applying
`stopTimer(name, true)` at `now` to every active timer (which never fails); afterwards no
timer is active, every formerly active name has had the whole seconds from its start to `now`
added to its accumulator (64-bit arithmetic, an absent accumulator counting as 0), the
activities of names without a timer are unchanged, and all events are unchanged. -/
theorem C7_stopTimers_stops_every_timer (s : UsageData) (now : Int) :
    stopAllTimersSpec s now = .ok (stopTimers s now) ∧
    (∀ name, isTimerActive (stopTimers s now) name = false) ∧
    (∀ name start, QHash.lookup s.timers name = some start →
      QHash.lookup (stopTimers s now).activities name
        = some (toU64 ((QHash.value s.activities name : Nat)
            + start.secsTo (QDateTime.utc now)))) ∧
    (∀ name (t0 : Int), QHash.lookup s.timers name = some (QDateTime.utc t0) → t0 ≤ now →
      QHash.lookup (stopTimers s now).activities name
        = some ((QHash.value s.activities name + (now - t0).toNat / 1000) % 2 ^ 64)) ∧
    (∀ name, isTimerActive s name = false →
      QHash.lookup (stopTimers s now).activities name = QHash.lookup s.activities name) ∧
    (stopTimers s now).events = s.events := by
  have hlook := foldl_adjustActivity_lookup (QDateTime.utc now) s.timers.entries
    s.timers.nodupKeys s
  have hcase : ∀ name start, QHash.lookup s.timers name = some start →
      QHash.lookup (stopTimers s now).activities name
        = some (toU64 ((QHash.value s.activities name : Nat)
            + start.secsTo (QDateTime.utc now))) := by
    intro name start hl
    have hd : s.timers.entries.dlookup name = some start := hl
    have := hlook name
    rw [hd] at this
    exact this
  refine ⟨?_, ?_, hcase, ?_, ?_, ?_⟩
  · exact foldlM_stopTimer_eq now s.timers.entries s.timers.nodupKeys s rfl
  · intro name
    rfl
  · intro name t0 hl hle
    rw [hcase name _ hl, toU64_add_elapsed _ _ _ hle]
  · intro name hin
    have hd : s.timers.entries.dlookup name = none :=
      QHash.lookup_of_contains_false _ _ hin
    have := hlook name
    rw [hd] at this
    exact this
  · exact foldl_adjustActivity_events (QDateTime.utc now) s.timers.entries s

/-- Stopping all timers of the test store at 5000 ms credits 4 and 3 seconds. -/
theorem C7_stopTimers_stops_every_timer_witness :
    QHash.lookup testStore.timers "activity_2" = some (QDateTime.utc 1500) ∧
    (1500 : Int) ≤ 5000 ∧
    QHash.lookup (stopTimers testStore 5000).activities "activity_2" = some 3 ∧
    QHash.lookup (stopTimers testStore 5000).activities "activity_1" = some 4 := by
  have h := C7_stopTimers_stops_every_timer testStore 5000
  refine ⟨by decide, by decide, ?_, ?_⟩
  · rw [h.2.2.2.1 "activity_2" 1500 (by decide) (by decide)]; decide
  · rw [h.2.2.2.1 "activity_1" 1000 (by decide) (by decide)]; decide

/-! ## C8: building the snapshot -/

theorem QHash.mem_keys_iff {V : Type} (h : QHash V) (key : String) :
    key ∈ QHash.keys h ↔ ∃ v, QHash.lookup h key = some v := by
  show key ∈ AList.keys h ↔ ∃ v, AList.lookup key h = some v
  rw [← AList.mem_keys, ← AList.lookup_isSome, Option.isSome_iff_exists]

theorem foldl_snapshotStep_lookup (live : QHash Nat) :
    ∀ (keys : List String) (acc : QHash Nat × QHash Nat) (key : String),
      QHash.lookup (keys.foldl (snapshotStep live) acc).2 key
          = (if key ∈ keys then some (QHash.value live key) else QHash.lookup acc.2 key) ∧
      QHash.lookup (keys.foldl (snapshotStep live) acc).1 key
          = (if key ∈ keys then some (toDouble (QHash.value live key))
             else QHash.lookup acc.1 key) := by
  intro keys
  induction keys with
  | nil => intro acc key; simp
  | cons k rest ih =>
    intro acc key
    simp only [List.foldl_cons, List.mem_cons]
    rw [(ih _ key).1, (ih _ key).2]
    by_cases hr : key ∈ rest
    · simp [hr]
    · by_cases hk : key = k
      · subst hk
        simp [hr, snapshotStep, QHash.lookup_insert_self]
      · simp [hr, hk, snapshotStep, QHash.lookup_insert_ne _ _ hk]

theorem snapshotLoop_lookup (live : QHash Nat) (key : String) :
    QHash.lookup (snapshotLoop live).2 key = QHash.lookup live key ∧
    QHash.lookup (snapshotLoop live).1 key = (QHash.lookup live key).map toDouble := by
  unfold snapshotLoop
  rw [(foldl_snapshotStep_lookup live _ _ key).1, (foldl_snapshotStep_lookup live _ _ key).2]
  cases hl : QHash.lookup live key with
  | none =>
    have hnot : key ∉ QHash.keys live := by
      rw [QHash.mem_keys_iff]; rintro ⟨v, hv⟩; rw [hl] at hv; cases hv
    simp only [hnot, if_false, Option.map_none']
    exact ⟨rfl, rfl⟩
  | some v =>
    have hmem : key ∈ QHash.keys live := (QHash.mem_keys_iff _ _).mpr ⟨v, hl⟩
    simp [hmem, QHash.value_of_lookup_some _ _ _ hl]

theorem droppedBits_of_lt (v : Nat) (hv : v < 2 ^ 53) : droppedBits v = 0 := by
  unfold droppedBits
  rw [List.length_eq_zero, List.filter_eq_nil_iff]
  intro e _
  have : 2 ^ 53 ≤ 2 ^ (53 + e) := Nat.pow_le_pow_right (by decide) (by omega)
  simp only [decide_eq_true_eq]
  omega

theorem toDouble_of_lt (v : Nat) (hv : v < 2 ^ 53) : toDouble v = v := by
  unfold toDouble
  rw [droppedBits_of_lt v hv]
  simp [Nat.mod_one]

theorem adjustActivity_eq_with (s : UsageData) (name : String) (delta : Int) :
    adjustActivity s name delta
      = { s with activities := (adjustActivity s name delta).activities } := by
  unfold adjustActivity
  by_cases h : QHash.contains s.activities name = true <;> simp [h]

theorem QHash.lookup_of_contains {V : Type} [Inhabited V] (h : QHash V) (key : String)
    (hc : QHash.contains h key = true) : QHash.lookup h key = some (QHash.value h key) := by
  rw [QHash.contains_eq_isSome] at hc
  rw [QHash.value_eq_getD]
  cases hl : QHash.lookup h key with
  | none => rw [hl] at hc; cases hc
  | some v => rfl

theorem checkpointTimers_spec (clock : String → Int) :
    ∀ (keys : List String), keys.Nodup → ∀ st : UsageData,
      (∀ k ∈ keys, QHash.contains st.timers k = true) →
      ∃ st2, checkpointTimers st keys clock = .ok st2 ∧
        (∀ name, QHash.lookup st2.timers name
          = if name ∈ keys then some (QDateTime.utc (clock name))
            else QHash.lookup st.timers name) ∧
        (∀ name, QHash.lookup st2.activities name
          = if name ∈ keys then
              some (toU64 ((QHash.value st.activities name : Nat)
                + (QHash.value st.timers name).secsTo (QDateTime.utc (clock name))))
            else QHash.lookup st.activities name) ∧
        ∃ T A, st2 = { st with timers := T, activities := A } := by
  intro keys
  induction keys with
  | nil =>
    intro _ st _
    exact ⟨st, rfl, fun _ => by simp, fun _ => by simp, st.timers, st.activities, rfl⟩
  | cons k rest ih =>
    intro hnd st hall
    have hnd2 := List.nodup_cons.mp hnd
    have hk := QHash.lookup_of_contains _ _ (hall k (List.mem_cons_self _ _))
    have hstop := stopTimer_of_running st k false (clock k) _ hk
    simp only [Bool.false_eq_true, if_false] at hstop
    generalize hst1 : adjustActivity
      { st with timers := QHash.insert st.timers k (QDateTime.utc (clock k)) } k
      ((QHash.value st.timers k).secsTo (QDateTime.utc (clock k))) = st1 at hstop
    have ht1 : st1.timers = QHash.insert st.timers k (QDateTime.utc (clock k)) := by
      rw [← hst1]; exact (adjustActivity_frame _ _ _).2.1
    have ha1self : QHash.lookup st1.activities k
        = some (toU64 ((QHash.value st.activities k : Nat)
            + (QHash.value st.timers k).secsTo (QDateTime.utc (clock k)))) := by
      rw [← hst1]; exact adjustActivity_lookup_self _ _ _
    have ha1ne : ∀ name, name ≠ k →
        QHash.lookup st1.activities name = QHash.lookup st.activities name := by
      intro name hne
      rw [← hst1]; exact adjustActivity_lookup_ne _ _ hne
    have hall1 : ∀ k2 ∈ rest, QHash.contains st1.timers k2 = true := by
      intro k2 hk2
      have hne : k2 ≠ k := fun h => hnd2.1 (h ▸ hk2)
      rw [QHash.contains_eq_isSome, ht1, QHash.lookup_insert_ne _ _ hne,
        ← QHash.contains_eq_isSome]
      exact hall k2 (List.mem_cons_of_mem _ hk2)
    obtain ⟨st2, hrun, htim, hact, T, A, hframe⟩ := ih hnd2.2 st1 hall1
    refine ⟨st2, ?_, ?_, ?_, T, A, ?_⟩
    · show (stopTimer st k false (clock k) >>= fun st1 => checkpointTimers st1 rest clock) = _
      rw [hstop]
      exact hrun
    · intro name
      rw [htim name]
      by_cases hr : name ∈ rest
      · simp [hr]
      · by_cases hkn : name = k
        · subst hkn
          simp [hr, ht1, QHash.lookup_insert_self]
        · simp [hr, hkn, ht1, QHash.lookup_insert_ne _ _ hkn]
    · intro name
      rw [hact name]
      by_cases hr : name ∈ rest
      · have hkn : name ≠ k := fun h => hnd2.1 (h ▸ hr)
        have hv1 : QHash.value st1.activities name = QHash.value st.activities name := by
          rw [QHash.value_eq_getD, QHash.value_eq_getD, ha1ne name hkn]
        have hv2 : QHash.value st1.timers name = QHash.value st.timers name := by
          rw [QHash.value_eq_getD, QHash.value_eq_getD, ht1, QHash.lookup_insert_ne _ _ hkn]
        simp [hr, hv1, hv2]
      · by_cases hkn : name = k
        · subst hkn
          simp [hr, ha1self]
        · simp [hr, hkn, ha1ne name hkn]
    · rw [hframe, ← hst1, adjustActivity_eq_with]

theorem reportUsageData_of_checkpoint (s s3 : UsageData) (info : SystemInfo)
    (clock : String → Int) (henabled : s.enabled = true) (hnot : isReporting s = false)
    (hcheck : checkpointTimers
        { s with currentlyIsReporting := true
                 emitted := s.emitted ++ [Signal.reportingStarted]
                 eventsAdjustment := (snapshotLoop s.events).2 }
        (QHash.keys s.timers) clock = .ok s3) :
    ∃ top : Payload,
      reportUsageData s info clock
        = .ok { s3 with activitiesAdjustment := (snapshotLoop s3.activities).2
                        sent := s3.sent ++ [(s3.currentDestinationUrl, top)] } ∧
      top.events = (snapshotLoop s.events).1 ∧
      top.activities = (snapshotLoop s3.activities).1 ∧
      top.secret_id_low = toDouble (s3.secret % 2 ^ 32) ∧
      top.secret_id_high = toDouble ((s3.secret / 2 ^ 32) % 2 ^ 32) ∧
      top.elapsed_time = s.lastOperation.secsTo s.nextOperation := by
  have hnot2 : isNotReporting s = true := by
    unfold isReporting at hnot
    unfold isNotReporting
    rw [hnot]; rfl
  unfold reportUsageData
  rw [if_neg (by simp [henabled]), if_neg (by simp [hnot2])]
  refine ⟨?top, ?heq, ?hrest⟩
  case heq =>
    dsimp only
    show (checkpointTimers _ _ clock >>= _) = _
    rw [hcheck]
    exact rfl
  case hrest => exact ⟨rfl, rfl, rfl, rfl, rfl⟩

theorem foldlM_adjustEventsStep_spec :
    ∀ (L : List ((_ : String) × Nat)), L.NodupKeys → ∀ st : UsageData,
      (∀ it ∈ L, it.2 ≤ QHash.value st.events it.1) →
      ∃ st2, L.foldlM adjustEventsStep st = .ok st2 ∧
        (∀ key, QHash.lookup st2.events key
          = match L.dlookup key with
            | some adj =>
                if QHash.value st.events key = adj then none
                else some (QHash.value st.events key - adj)
            | none => QHash.lookup st.events key) ∧
        ∃ E, st2 = { st with events := E } := by
  intro L
  induction L with
  | nil =>
    intro _ st _
    exact ⟨st, rfl, fun _ => rfl, st.events, rfl⟩
  | cons it rest ih =>
    intro hnd st hle
    obtain ⟨k, adj⟩ := it
    have hnd2 := List.nodupKeys_cons.mp hnd
    have hk : adj ≤ QHash.value st.events k := hle ⟨k, adj⟩ (List.mem_cons_self _ _)
    have hstep : ∃ st1, adjustEventsStep st ⟨k, adj⟩ = .ok st1 ∧
        QHash.lookup st1.events k
          = (if QHash.value st.events k = adj then none
             else some (QHash.value st.events k - adj)) ∧
        (∀ key, key ≠ k → QHash.lookup st1.events key = QHash.lookup st.events key) ∧
        ∃ E, st1 = { st with events := E } := by
      unfold adjustEventsStep
      by_cases heq : QHash.value st.events k = adj
      · refine ⟨{ st with events := QHash.remove st.events k }, by simp [heq], ?_, ?_, _, rfl⟩
        · simp [heq, QHash.lookup_remove_self]
        · intro key hne
          exact QHash.lookup_remove_ne _ hne
      · have hlt : adj < QHash.value st.events k := by omega
        refine ⟨{ st with events := QHash.insert st.events k (QHash.value st.events k - adj) },
          by simp [heq, hlt], ?_, ?_, _, rfl⟩
        · simp [heq, QHash.lookup_insert_self]
        · intro key hne
          exact QHash.lookup_insert_ne _ _ hne
    obtain ⟨st1, hrun1, hself, hother, E1, hE1⟩ := hstep
    have hle1 : ∀ it ∈ rest, it.2 ≤ QHash.value st1.events it.1 := by
      intro it hit
      obtain ⟨k2, a2⟩ := it
      have hmem : k2 ∈ rest.keys := List.mem_keys_of_mem hit
      have hne : k2 ≠ k := fun h => hnd2.1 (h ▸ hmem)
      show a2 ≤ QHash.value st1.events k2
      rw [QHash.value_eq_getD, hother _ hne, ← QHash.value_eq_getD]
      exact hle ⟨k2, a2⟩ (List.mem_cons_of_mem _ hit)
    obtain ⟨st2, hrun2, hlook, E2, hE2⟩ := ih hnd2.2 st1 hle1
    refine ⟨st2, ?_, ?_, E2, ?_⟩
    · rw [List.foldlM_cons]
      show (adjustEventsStep st ⟨k, adj⟩ >>= fun st1 => rest.foldlM adjustEventsStep st1) = _
      rw [hrun1]
      exact hrun2
    · intro key
      rw [hlook key]
      by_cases hkey : key = k
      · subst hkey
        have hnone : rest.dlookup key = none := List.dlookup_eq_none.mpr hnd2.1
        rw [hnone, List.dlookup_cons_eq]
        exact hself
      · rw [List.dlookup_cons_ne _ _ hkey]
        have hv : QHash.value st1.events key = QHash.value st.events key := by
          rw [QHash.value_eq_getD, QHash.value_eq_getD, hother key hkey]
        rw [hv, hother key hkey]
    · rw [hE2, hE1]

theorem foldlM_adjustActivitiesStep_spec :
    ∀ (L : List ((_ : String) × Nat)), L.NodupKeys → ∀ st : UsageData,
      (∀ it ∈ L, it.2 ≤ QHash.value st.activities it.1) →
      ∃ st2, L.foldlM adjustActivitiesStep st = .ok st2 ∧
        (∀ key, QHash.lookup st2.activities key
          = match L.dlookup key with
            | some adj =>
                if QHash.value st.activities key = adj then none
                else some (QHash.value st.activities key - adj)
            | none => QHash.lookup st.activities key) ∧
        ∃ E, st2 = { st with activities := E } := by
  intro L
  induction L with
  | nil =>
    intro _ st _
    exact ⟨st, rfl, fun _ => rfl, st.activities, rfl⟩
  | cons it rest ih =>
    intro hnd st hle
    obtain ⟨k, adj⟩ := it
    have hnd2 := List.nodupKeys_cons.mp hnd
    have hk : adj ≤ QHash.value st.activities k := hle ⟨k, adj⟩ (List.mem_cons_self _ _)
    have hstep : ∃ st1, adjustActivitiesStep st ⟨k, adj⟩ = .ok st1 ∧
        QHash.lookup st1.activities k
          = (if QHash.value st.activities k = adj then none
             else some (QHash.value st.activities k - adj)) ∧
        (∀ key, key ≠ k → QHash.lookup st1.activities key = QHash.lookup st.activities key) ∧
        ∃ E, st1 = { st with activities := E } := by
      unfold adjustActivitiesStep
      by_cases heq : QHash.value st.activities k = adj
      · refine ⟨{ st with activities := QHash.remove st.activities k }, by simp [heq], ?_, ?_, _, rfl⟩
        · simp [heq, QHash.lookup_remove_self]
        · intro key hne
          exact QHash.lookup_remove_ne _ hne
      · have hlt : adj < QHash.value st.activities k := by omega
        refine ⟨{ st with activities := QHash.insert st.activities k (QHash.value st.activities k - adj) },
          by simp [heq, hlt], ?_, ?_, _, rfl⟩
        · simp [heq, QHash.lookup_insert_self]
        · intro key hne
          exact QHash.lookup_insert_ne _ _ hne
    obtain ⟨st1, hrun1, hself, hother, E1, hE1⟩ := hstep
    have hle1 : ∀ it ∈ rest, it.2 ≤ QHash.value st1.activities it.1 := by
      intro it hit
      obtain ⟨k2, a2⟩ := it
      have hmem : k2 ∈ rest.keys := List.mem_keys_of_mem hit
      have hne : k2 ≠ k := fun h => hnd2.1 (h ▸ hmem)
      show a2 ≤ QHash.value st1.activities k2
      rw [QHash.value_eq_getD, hother _ hne, ← QHash.value_eq_getD]
      exact hle ⟨k2, a2⟩ (List.mem_cons_of_mem _ hit)
    obtain ⟨st2, hrun2, hlook, E2, hE2⟩ := ih hnd2.2 st1 hle1
    refine ⟨st2, ?_, ?_, E2, ?_⟩
    · rw [List.foldlM_cons]
      show (adjustActivitiesStep st ⟨k, adj⟩ >>= fun st1 => rest.foldlM adjustActivitiesStep st1) = _
      rw [hrun1]
      exact hrun2
    · intro key
      rw [hlook key]
      by_cases hkey : key = k
      · subst hkey
        have hnone : rest.dlookup key = none := List.dlookup_eq_none.mpr hnd2.1
        rw [hnone, List.dlookup_cons_eq]
        exact hself
      · rw [List.dlookup_cons_ne _ _ hkey]
        have hv : QHash.value st1.activities key = QHash.value st.activities key := by
          rw [QHash.value_eq_getD, QHash.value_eq_getD, hother key hkey]
        rw [hv, hother key hkey]
    · rw [hE2, hE1]

theorem adjustEventsAndActivities_spec (s : UsageData)
    (hev : ∀ key adj, QHash.lookup s.eventsAdjustment key = some adj →
      adj ≤ QHash.value s.events key)
    (hact : ∀ key adj, QHash.lookup s.activitiesAdjustment key = some adj →
      adj ≤ QHash.value s.activities key) :
    ∃ s2 E A, adjustEventsAndActivities s = .ok s2 ∧
      s2 = { s with events := E, activities := A, eventsAdjustment := ∅,
                    activitiesAdjustment := ∅ } ∧
      (∀ key, QHash.lookup E key
        = match QHash.lookup s.eventsAdjustment key with
          | some adj =>
              if QHash.value s.events key = adj then none
              else some (QHash.value s.events key - adj)
          | none => QHash.lookup s.events key) ∧
      (∀ key, QHash.lookup A key
        = match QHash.lookup s.activitiesAdjustment key with
          | some adj =>
              if QHash.value s.activities key = adj then none
              else some (QHash.value s.activities key - adj)
          | none => QHash.lookup s.activities key) := by
  have hev2 : ∀ it ∈ s.eventsAdjustment.entries, it.2 ≤ QHash.value s.events it.1 := by
    intro it hit
    obtain ⟨k, adj⟩ := it
    exact hev k adj ((List.mem_dlookup_iff s.eventsAdjustment.nodupKeys).mpr hit)
  obtain ⟨s1, hrun1, hlook1, E, hE⟩ :=
    foldlM_adjustEventsStep_spec s.eventsAdjustment.entries s.eventsAdjustment.nodupKeys s hev2
  have hact2 : ∀ it ∈ s1.activitiesAdjustment.entries,
      it.2 ≤ QHash.value s1.activities it.1 := by
    intro it hit
    obtain ⟨k, adj⟩ := it
    rw [hE] at hit ⊢
    exact hact k adj ((List.mem_dlookup_iff s.activitiesAdjustment.nodupKeys).mpr hit)
  obtain ⟨s2, hrun2, hlook2, A, hA⟩ :=
    foldlM_adjustActivitiesStep_spec s1.activitiesAdjustment.entries
      s1.activitiesAdjustment.nodupKeys s1 hact2
  refine ⟨{ s2 with eventsAdjustment := ∅, activitiesAdjustment := ∅ }, E, A, ?_, ?_, ?_, ?_⟩
  · unfold adjustEventsAndActivities
    show (s.eventsAdjustment.entries.foldlM adjustEventsStep s >>= _) = _
    rw [hrun1]
    show (s1.activitiesAdjustment.entries.foldlM adjustActivitiesStep s1 >>= _) = _
    rw [hrun2]
    rfl
  · rw [hA, hE]
  · intro key
    have h := hlook1 key
    rw [hE] at h
    exact h
  · intro key
    have h := hlook2 key
    rw [hA, hE] at h
    exact h

theorem QHash.forall_lookup_of_forall_entries (snapshot live : QHash Nat)
    (h : ∀ it ∈ snapshot.entries, it.2 ≤ QHash.value live it.1) :
    ∀ key adj, QHash.lookup snapshot key = some adj → adj ≤ QHash.value live key := by
  intro key adj hl
  exact h ⟨key, adj⟩ ((List.mem_dlookup_iff snapshot.nodupKeys).mp hl)

/-- C9: reconciliation on success.  When every snapshotted key has a live value (0 for an
absent key) not below its snapshotted amount, in the events snapshot and in the activities
snapshot, `adjustEventsAndActivities` succeeds; each snapshotted key is removed when its live
value equals the snapshotted amount and is otherwise left with the difference; keys outside
the snapshot keep their live entry; both snapshots are empty afterwards; timers are untouched.
This holds for events and for activities alike. -/
theorem C9_reconciliation_on_success (s : UsageData)
    (hev : ∀ key adj, QHash.lookup s.eventsAdjustment key = some adj →
      adj ≤ QHash.value s.events key)
    (hact : ∀ key adj, QHash.lookup s.activitiesAdjustment key = some adj →
      adj ≤ QHash.value s.activities key) :
    ∃ s2, adjustEventsAndActivities s = .ok s2 ∧
      (∀ key adj, QHash.lookup s.eventsAdjustment key = some adj →
        QHash.lookup s2.events key
          = if QHash.value s.events key = adj then none
            else some (QHash.value s.events key - adj)) ∧
      (∀ key, QHash.lookup s.eventsAdjustment key = none →
        QHash.lookup s2.events key = QHash.lookup s.events key) ∧
      (∀ key adj, QHash.lookup s.activitiesAdjustment key = some adj →
        QHash.lookup s2.activities key
          = if QHash.value s.activities key = adj then none
            else some (QHash.value s.activities key - adj)) ∧
      (∀ key, QHash.lookup s.activitiesAdjustment key = none →
        QHash.lookup s2.activities key = QHash.lookup s.activities key) ∧
      s2.eventsAdjustment = ∅ ∧ s2.activitiesAdjustment = ∅ ∧
      s2.timers = s.timers := by
  obtain ⟨s2, E, A, hrun, hs2, hE, hA⟩ := adjustEventsAndActivities_spec s hev hact
  refine ⟨s2, hrun, ?_, ?_, ?_, ?_, ?_, ?_, ?_⟩
  · intro key adj hl
    have h := hE key
    rw [hl] at h
    rw [hs2]
    exact h
  · intro key hl
    have h := hE key
    rw [hl] at h
    rw [hs2]
    exact h
  · intro key adj hl
    have h := hA key
    rw [hl] at h
    rw [hs2]
    exact h
  · intro key hl
    have h := hA key
    rw [hl] at h
    rw [hs2]
    exact h
  · rw [hs2]
  · rw [hs2]
  · rw [hs2]

/-- Reconciliation of the store with a report in flight. -/
theorem C9_reconciliation_on_success_witness :
    (∀ it ∈ inFlightStore.eventsAdjustment.entries,
      it.2 ≤ QHash.value inFlightStore.events it.1) ∧
    (∀ it ∈ inFlightStore.activitiesAdjustment.entries,
      it.2 ≤ QHash.value inFlightStore.activities it.1) ∧
    ∃ s2, adjustEventsAndActivities inFlightStore = .ok s2 ∧
      QHash.lookup s2.events "test_event_1" = some 1 ∧
      QHash.lookup s2.events "test_event_2" = none ∧
      QHash.lookup s2.activities "activity_1" = none := by
  refine ⟨by decide, by decide, ?_⟩
  obtain ⟨s2, hrun, hev, _, hact, _⟩ :=
    C9_reconciliation_on_success inFlightStore
      (QHash.forall_lookup_of_forall_entries _ _ (by decide))
      (QHash.forall_lookup_of_forall_entries _ _ (by decide))
  refine ⟨s2, hrun, ?_, ?_, ?_⟩
  · rw [hev "test_event_1" 2 (by decide)]; decide
  · rw [hev "test_event_2" 1 (by decide)]; decide
  · rw [hact "activity_1" 4 (by decide)]; decide

/-! ## C10: increments made while a report is in flight -/

theorem adjustEvent_eq_with (s : UsageData) (name : String) (k : Nat) :
    adjustEvent s name k = { s with events := (adjustEvent s name k).events } := by
  unfold adjustEvent
  by_cases h : QHash.contains s.events name = true <;> simp [h]

theorem adjustEventCalls_eq_with (calls : List (String × Nat)) :
    ∀ st : UsageData, ∃ E, adjustEventCalls st calls = { st with events := E } := by
  induction calls with
  | nil => intro st; exact ⟨st.events, rfl⟩
  | cons c rest ih =>
    intro st
    obtain ⟨E, hE⟩ := ih (adjustEvent st c.1 c.2)
    refine ⟨E, ?_⟩
    show adjustEventCalls (adjustEvent st c.1 c.2) rest = _
    rw [hE, adjustEvent_eq_with]

theorem adjustEventCalls_value (name : String) (calls : List (String × Nat)) :
    ∀ st : UsageData, QHash.value st.events name + amountAdded name calls < 2 ^ 64 →
      QHash.value (adjustEventCalls st calls).events name
        = QHash.value st.events name + amountAdded name calls := by
  induction calls with
  | nil => intro st _; rfl
  | cons c rest ih =>
    intro st hlt
    show QHash.value (adjustEventCalls (adjustEvent st c.1 c.2) rest).events name = _
    have hsum : amountAdded name (c :: rest)
        = (if c.1 = name then c.2 else 0) + amountAdded name rest := rfl
    rw [hsum] at hlt ⊢
    by_cases hc : c.1 = name
    · simp only [hc, if_true] at hlt ⊢
      have h1 : QHash.value (adjustEvent st name c.2).events name
          = QHash.value st.events name + c.2 := by
        rw [QHash.value_eq_getD, adjustEvent_lookup_self]
        show (QHash.value st.events name + c.2) % 2 ^ 64 = _
        exact Nat.mod_eq_of_lt (by omega)
      rw [ih _ (by rw [h1]; omega), h1]
      omega
    · simp only [hc, if_false, Nat.zero_add] at hlt ⊢
      have hne : name ≠ c.1 := fun h => hc h.symm
      have h1 : QHash.value (adjustEvent st c.1 c.2).events name
          = QHash.value st.events name := by
        rw [QHash.value_eq_getD, QHash.value_eq_getD, adjustEvent_lookup_ne st c.2 hne]
      rw [ih _ (by rw [h1]; exact hlt), h1]

theorem reportUsageData_snapshot_spec (s : UsageData) (info : SystemInfo)
    (clock : String → Int) (henabled : s.enabled = true) (hnot : isReporting s = false) :
    ∃ s1, reportUsageData s info clock = .ok s1 ∧
      s1.events = s.events ∧
      s1.enabled = s.enabled ∧
      s1.currentlyIsReporting = true ∧
      (∀ key, QHash.lookup s1.eventsAdjustment key = QHash.lookup s.events key) ∧
      (∀ key, QHash.lookup s1.activitiesAdjustment key = QHash.lookup s1.activities key) := by
  have hkeys : ∀ k ∈ QHash.keys s.timers, QHash.contains s.timers k = true := by
    intro k hk
    obtain ⟨v, hv⟩ := (QHash.mem_keys_iff _ _).mp hk
    exact QHash.contains_of_lookup_some _ _ _ hv
  obtain ⟨s3, hcheck, _, _, T, A, hframe⟩ :=
    checkpointTimers_spec clock (QHash.keys s.timers) (AList.keys_nodup _)
      { s with currentlyIsReporting := true
               emitted := s.emitted ++ [Signal.reportingStarted]
               eventsAdjustment := (snapshotLoop s.events).2 } hkeys
  obtain ⟨top, hrun, _⟩ := reportUsageData_of_checkpoint s s3 info clock henabled hnot hcheck
  refine ⟨_, hrun, ?_, ?_, ?_, ?_, ?_⟩
  · rw [hframe]
  · rw [hframe]
  · rw [hframe]
  · intro key
    rw [hframe]
    exact (snapshotLoop_lookup s.events key).1
  · intro key
    exact (snapshotLoop_lookup s3.activities key).1

theorem jsonResponseWasReceived_of_adjust (s s1 : UsageData) (now nowSchedule : Int)
    (hrun : adjustEventsAndActivities s = .ok s1) :
    ∃ s3, jsonResponseWasReceived s now nowSchedule = .ok s3 ∧
      s3.events = s1.events ∧ s3.activities = s1.activities ∧ s3.timers = s1.timers ∧
      s3.eventsAdjustment = s1.eventsAdjustment ∧
      s3.activitiesAdjustment = s1.activitiesAdjustment ∧
      s3.lastReportSuccessful = true ∧ s3.currentlyIsReporting = false ∧
      s3.enabled = s1.enabled := by
  unfold jsonResponseWasReceived
  show ∃ s3, (adjustEventsAndActivities s >>= _) = .ok s3 ∧ _
  rw [hrun]
  by_cases he : s1.enabled = true
  · refine ⟨_, rfl, ?_⟩
    simp [he, scheduleReport]
  · refine ⟨_, rfl, ?_⟩
    simp [he]

/-- C10: increments made while a report is in flight survive its success.  For every enabled,
not-reporting store, build the snapshot with `reportUsageData`, apply any sequence of
`adjustEvent` calls such that no counter wraps past `2 ^ 64`, then deliver the success outcome:
building succeeds, `jsonResponseWasReceived` succeeds (no assertion of the reconciliation
fails), and for every event name the resulting value (0 for an absent key) is the sum of the
amounts added to that name after the snapshot was built. -/
theorem C10_in_transit_increments_survive (s : UsageData) (info : SystemInfo)
    (clock : String → Int) (calls : List (String × Nat)) (now nowSchedule : Int)
    (henabled : s.enabled = true) (hnot : isReporting s = false)
    (hnowrap : ∀ name, QHash.value s.events name + amountAdded name calls < 2 ^ 64) :
    ∃ s1 s3, reportUsageData s info clock = .ok s1 ∧
      jsonResponseWasReceived (adjustEventCalls s1 calls) now nowSchedule = .ok s3 ∧
      ∀ name, QHash.value s3.events name = amountAdded name calls := by
  obtain ⟨s1, hbuild, hev1, _, _, hsnapE, hsnapA⟩ :=
    reportUsageData_snapshot_spec s info clock henabled hnot
  obtain ⟨E, hE⟩ := adjustEventCalls_eq_with calls s1
  have hval : ∀ name, QHash.value (adjustEventCalls s1 calls).events name
      = QHash.value s.events name + amountAdded name calls := by
    intro name
    rw [adjustEventCalls_value name calls s1 (by rw [hev1]; exact hnowrap name), hev1]
  have hadjE : (adjustEventCalls s1 calls).eventsAdjustment = s1.eventsAdjustment := by
    rw [hE]
  have hadjA : (adjustEventCalls s1 calls).activitiesAdjustment = s1.activitiesAdjustment := by
    rw [hE]
  have hactS : (adjustEventCalls s1 calls).activities = s1.activities := by
    rw [hE]
  have hev : ∀ key adj, QHash.lookup (adjustEventCalls s1 calls).eventsAdjustment key = some adj →
      adj ≤ QHash.value (adjustEventCalls s1 calls).events key := by
    intro key adj hl
    rw [hadjE, hsnapE key] at hl
    rw [hval key, QHash.value_of_lookup_some _ _ _ hl]
    omega
  have hact : ∀ key adj,
      QHash.lookup (adjustEventCalls s1 calls).activitiesAdjustment key = some adj →
      adj ≤ QHash.value (adjustEventCalls s1 calls).activities key := by
    intro key adj hl
    rw [hadjA, hsnapA key] at hl
    rw [hactS, QHash.value_of_lookup_some _ _ _ hl]
  obtain ⟨s2, E2, A2, hrun, hs2, hlookE, _⟩ :=
    adjustEventsAndActivities_spec (adjustEventCalls s1 calls) hev hact
  obtain ⟨s3, hjson, hev3, _⟩ :=
    jsonResponseWasReceived_of_adjust (adjustEventCalls s1 calls) s2 now nowSchedule hrun
  refine ⟨s1, s3, hbuild, hjson, ?_⟩
  intro name
  have hE2 : s3.events = E2 := by rw [hev3, hs2]
  rw [hE2, QHash.value_eq_getD, hlookE name, hadjE, hsnapE name, hval name]
  cases hl : QHash.lookup s.events name with
  | none =>
    have h0 : QHash.value s.events name = 0 := by rw [QHash.value_eq_getD, hl]; rfl
    show (QHash.lookup (adjustEventCalls s1 calls).events name).getD default = _
    rw [← QHash.value_eq_getD, hval name, h0, Nat.zero_add]
  | some adj =>
    have hv : QHash.value s.events name = adj := QHash.value_of_lookup_some _ _ _ hl
    rw [hv]
    show (if adj + amountAdded name calls = adj then none
      else some (adj + amountAdded name calls - adj)).getD default = _
    by_cases h0 : amountAdded name calls = 0
    · rw [h0]; simp
    · rw [if_neg (by omega)]
      show adj + amountAdded name calls - adj = _
      omega

/-- Three increments made between the build and the success outcome on the test store. -/
theorem C10_in_transit_increments_survive_witness :
    testStore.enabled = true ∧ isReporting testStore = false ∧
    (∀ name, QHash.value testStore.events name
      + amountAdded name [("test_event_1", 3), ("test_event_3", 1), ("test_event_1", 4)]
        < 2 ^ 64) ∧
    ∃ s1 s3, reportUsageData testStore testSystemInfo (fun _ => 5000) = .ok s1 ∧
      jsonResponseWasReceived
        (adjustEventCalls s1 [("test_event_1", 3), ("test_event_3", 1), ("test_event_1", 4)])
        9000 9000 = .ok s3 ∧
      QHash.value s3.events "test_event_1" = 7 ∧
      QHash.value s3.events "test_event_2" = 0 ∧
      QHash.value s3.events "test_event_3" = 1 := by
  have hnowrap : ∀ name, QHash.value testStore.events name
      + amountAdded name [("test_event_1", 3), ("test_event_3", 1), ("test_event_1", 4)]
        < 2 ^ 64 := by
    intro name
    have h1 : QHash.value testStore.events name ≤ 2 := by
      show (AList.lookup name testStore.events).getD 0 ≤ 2
      by_cases ha : name = "test_event_1"
      · subst ha; decide
      · by_cases hb : name = "test_event_2"
        · subst hb; decide
        · have : AList.lookup name testStore.events = none := by
            rw [AList.lookup_eq_none, AList.mem_keys]
            show name ∉ ["test_event_1", "test_event_2"]
            simp [ha, hb]
          rw [this]; decide
    have h2 : amountAdded name [("test_event_1", 3), ("test_event_3", 1), ("test_event_1", 4)]
        ≤ 8 := by
      simp only [amountAdded]
      split_ifs <;> omega
    omega
  refine ⟨by decide, by decide, hnowrap, ?_⟩
  obtain ⟨s1, s3, h1, h3, hsum⟩ :=
    C10_in_transit_increments_survive testStore testSystemInfo (fun _ => 5000)
      [("test_event_1", 3), ("test_event_3", 1), ("test_event_1", 4)] 9000 9000
      (by decide) (by decide) hnowrap
  refine ⟨s1, s3, h1, h3, ?_, ?_, ?_⟩
  · rw [hsum]; decide
  · rw [hsum]; decide
  · rw [hsum]; decide

/-! ## The failure outcome: C13, C18 -/

theorem scheduleReport_eq (s : UsageData) (reportTime : QDateTime) (now : Int) :
    scheduleReport s reportTime now = { s with timer := some (timerInterval reportTime now) } :=
  rfl

theorem fitsInt64_iff (z : Int) : fitsInt64 z = true ↔ -(2 ^ 63) ≤ z ∧ z < 2 ^ 63 := by
  unfold fitsInt64
  exact decide_eq_true_iff

theorem QDateTime.addSecs_utc_of_fits (a s : Int) (h : fitsInt64 (1000 * s) = true) :
    (QDateTime.utc a).addSecs s = QDateTime.utc (a + 1000 * s) := by
  show (if fitsInt64 (1000 * s) = true then QDateTime.utc (a + 1000 * s) else QDateTime.null) = _
  rw [if_pos h]

theorem QDateTime.addSecs_utc_of_not_fits (a s : Int) (h : fitsInt64 (1000 * s) = false) :
    (QDateTime.utc a).addSecs s = QDateTime.null := by
  show (if fitsInt64 (1000 * s) = true then QDateTime.utc (a + 1000 * s) else QDateTime.null) = _
  rw [if_neg (by rw [h]; decide)]

theorem QDateTime.addSecs_null (s : Int) : QDateTime.null.addSecs s = QDateTime.null := rfl

/-- An interval whose number of milliseconds fits a `qint64` is passed to `addSecs` unchanged. -/
theorem toInt64_of_fits (n : Nat) (h : fitsInt64 (1000 * (n : Int)) = true) :
    toInt64 n = (n : Int) := by
  rw [fitsInt64_iff] at h
  unfold toInt64
  have hmod : n % 2 ^ 64 = n := Nat.mod_eq_of_lt (by omega)
  rw [hmod, if_pos (by omega)]

/-- The delay handed to the timer is the exact number of milliseconds of the whole seconds to
the report time when those are not negative and the milliseconds fit an `int`. -/
theorem timerInterval_of_fit (reportTime : QDateTime) (now : Int)
    (h0 : 0 ≤ (QDateTime.utc now).secsTo reportTime)
    (hfit : 1000 * (QDateTime.utc now).secsTo reportTime ≤ 2 ^ 31 - 1) :
    timerInterval reportTime now = 1000 * (QDateTime.utc now).secsTo reportTime := by
  unfold timerInterval toInt32 toU64
  generalize (QDateTime.utc now).secsTo reportTime = d at h0 hfit
  have h1 : (d % 2 ^ 64).toNat = d.toNat := by omega
  rw [h1]
  have h2 : 1000 * d.toNat % 2 ^ 64 % 2 ^ 32 = 1000 * d.toNat := by omega
  rw [h2]
  split_ifs with h
  · omega
  · omega

theorem failed_eq (s : UsageData) (code now nowSchedule : Int) :
    failed s code now nowSchedule
      = { s with
          nextOperation := QDateTime.utc (now + 1000 * 1800)
          lastReportSuccessful := false
          timer := if s.enabled then
                     some (timerInterval (QDateTime.utc (now + 1000 * 1800)) nowSchedule)
                   else s.timer
          emitted := s.emitted ++ [Signal.reportingFinished false]
          currentlyIsReporting := false } := by
  unfold failed
  cases h : s.enabled <;>
    simp [h, scheduleReport_eq, QDateTime.addSecs, reportRetrialPeriod, fitsInt64]

/-- C13: the failure outcome does not touch the store.  For every state and every error code,
`failed(code)` leaves the events, the activities, the running timers, both snapshots,
`lastOperation`, the interval, the enabled flag and the user secret exactly as they were, and
afterwards `reportingSuccessful()` and `isReporting()` are false. -/
theorem C13_failed_leaves_store (s : UsageData) (code now nowSchedule : Int) :
    (failed s code now nowSchedule).events = s.events ∧
    (failed s code now nowSchedule).activities = s.activities ∧
    (failed s code now nowSchedule).timers = s.timers ∧
    (failed s code now nowSchedule).eventsAdjustment = s.eventsAdjustment ∧
    (failed s code now nowSchedule).activitiesAdjustment = s.activitiesAdjustment ∧
    lastReportTime (failed s code now nowSchedule) = lastReportTime s ∧
    interval (failed s code now nowSchedule) = interval s ∧
    reportingEnabled (failed s code now nowSchedule) = reportingEnabled s ∧
    userSecret (failed s code now nowSchedule) = userSecret s ∧
    reportingSuccessful (failed s code now nowSchedule) = false ∧
    isReporting (failed s code now nowSchedule) = false := by
  rw [failed_eq]
  exact ⟨rfl, rfl, rfl, rfl, rfl, rfl, rfl, rfl, rfl, rfl, rfl⟩

theorem QDateTime.max_utc (a b : Int) :
    QDateTime.max (QDateTime.utc a) (QDateTime.utc b) = QDateTime.utc (Max.max a b) := by
  unfold QDateTime.max QDateTime.lt
  by_cases h : a < b
  · simp [h, max_eq_right (le_of_lt h)]
  · simp [h, max_eq_left (not_lt.mp h)]

theorem setReportingEnabled_enable_eq (s : UsageData) (now nowSchedule : Int)
    (hdis : s.enabled = false) :
    setReportingEnabled s true now nowSchedule
      = { s with
          nextOperation := QDateTime.max s.nextOperation (QDateTime.utc (now + 1000 * 60))
          timer := some (timerInterval
            (QDateTime.max s.nextOperation (QDateTime.utc (now + 1000 * 60))) nowSchedule)
          enabled := true } := by
  have hadd : (QDateTime.utc now).addSecs enableReportDelay
      = QDateTime.utc (now + 1000 * 60) := rfl
  unfold setReportingEnabled QDateTime.max
  simp only [hdis, hadd, Bool.not_false, Bool.and_self, if_true]
  by_cases hlt : QDateTime.lt s.nextOperation (QDateTime.utc (now + 1000 * 60)) = true
  · simp only [hlt, if_true]
    rfl
  · simp only [hlt, if_false]
    rfl

theorem setReportingEnabled_disable_eq (s : UsageData) (now nowSchedule : Int)
    (hen : s.enabled = true) :
    setReportingEnabled s false now nowSchedule = { s with timer := none, enabled := false } := by
  unfold setReportingEnabled
  simp [hen]

theorem setInterval_idle_eq (s : UsageData) (n : Nat) (now nowSchedule : Int)
    (hen : s.enabled = true) (hnot : s.currentlyIsReporting = false) :
    setInterval s n now nowSchedule
      = { s with
          reportInterval := n
          nextOperation := QDateTime.max (s.lastOperation.addSecs (toInt64 n))
            (QDateTime.utc (now + 1000 * 60))
          timer := some (timerInterval
            (QDateTime.max (s.lastOperation.addSecs (toInt64 n))
              (QDateTime.utc (now + 1000 * 60))) nowSchedule) } := by
  have hadd : (QDateTime.utc now).addSecs enableReportDelay
      = QDateTime.utc (now + 1000 * 60) := rfl
  unfold setInterval QDateTime.max isNotReporting
  simp only [hen, hnot, hadd, Bool.not_false, Bool.and_self, if_true]
  by_cases hlt : QDateTime.lt (s.lastOperation.addSecs (toInt64 n))
      (QDateTime.utc (now + 1000 * 60)) = true
  · simp only [hlt, if_true]
    rfl
  · simp only [hlt, if_false]
    rfl

theorem setInterval_other_eq (s : UsageData) (n : Nat) (now nowSchedule : Int)
    (h : s.enabled = false ∨ s.currentlyIsReporting = true) :
    setInterval s n now nowSchedule = { s with reportInterval := n } := by
  unfold setInterval isNotReporting
  rcases h with h | h
  · simp [h]
  · simp [h]

/-- C20 (as stated) fails for intervals whose seconds or milliseconds are out of range.  On the
enabled, idle test store (`lastOperation` at 0 ms): `setInterval(2 ^ 64 - 1)` at 5000 ms makes
`interval()` return `2 ^ 64 - 1`, but `addSecs` receives -1, so `nextOperation` becomes the
floor `now` + 60 s = 65 000 ms; `setInterval(2 ^ 62)` hands `addSecs` a number of seconds whose
milliseconds do not fit a `qint64`, the result is not a valid time (as Qt 6 defines it) and
`nextOperation` is again 65 000 ms; and `setInterval` with 30 days at 0 ms sets `nextOperation` to 2 592 000 000 ms but
hands the timer a negative number, the product wrapped to 32 bits. -/
theorem C20_interval_out_of_range :
    reportingEnabled testStore = true ∧ isReporting testStore = false ∧
    lastReportTime testStore = QDateTime.utc 0 ∧
    interval (setInterval testStore (2 ^ 64 - 1) 5000 5000) = 2 ^ 64 - 1 ∧
    (lastReportTime testStore).addSecs (toInt64 (2 ^ 64 - 1)) = QDateTime.utc (-1000) ∧
    nextReportTime (setInterval testStore (2 ^ 64 - 1) 5000 5000) = QDateTime.utc 65000 ∧
    nextReportTime (setInterval testStore (2 ^ 64 - 1) 5000 5000)
      ≠ QDateTime.max (QDateTime.utc (0 + 1000 * ((2 ^ 64 - 1 : Nat) : Int)))
          (QDateTime.utc (5000 + 1000 * 60)) ∧
    interval (setInterval testStore (2 ^ 62) 5000 5000) = 2 ^ 62 ∧
    fitsInt64 (1000 * toInt64 (2 ^ 62)) = false ∧
    (lastReportTime testStore).addSecs (toInt64 (2 ^ 62)) = QDateTime.null ∧
    nextReportTime (setInterval testStore (2 ^ 62) 5000 5000) = QDateTime.utc 65000 ∧
    nextReportTime (setInterval testStore (2 ^ 62) 5000 5000)
      ≠ QDateTime.max (QDateTime.utc (0 + 1000 * ((2 ^ 62 : Nat) : Int)))
          (QDateTime.utc (5000 + 1000 * 60)) ∧
    nextReportTime (setInterval testStore 2592000 0 0) = QDateTime.utc 2592000000 ∧
    (setInterval testStore 2592000 0 0).timer = some (-1702967296) := by
  refine ⟨?_, ?_, ?_, ?_, ?_, ?_, ?_, ?_, ?_, ?_, ?_, ?_, ?_, ?_⟩ <;> decide

/-- C20 (amended): changing the interval.  For every state and every `n`, `setInterval(n)` makes
`interval()` return `n`.  If reporting is enabled and no report is in flight it sets
`nextOperation` to the later of `lastOperation.addSecs(n)` and `now` + `enableReportDelay` =
60 s and starts the timer through `scheduleReport` for that time; that is the later of
`lastOperation` + `n` seconds and `now` + 60 s when `1000 * n` and `lastOperation` + `1000 * n`
milliseconds fit a `qint64` (a null `lastOperation` giving `now` + 60 s), and the timer is armed
with exactly `1000 * d` milliseconds when the whole seconds `d` from the time read by
`scheduleReport` to the new `nextOperation` satisfy `0 ≤ d` and `1000 * d ≤ 2 ^ 31 - 1`.  If
reporting is disabled or a report is in flight, `nextOperation` and the timer are unchanged.
`lastOperation`, the enabled flag, the events, the activities, the timers and both snapshots
never change. -/
theorem C20_setInterval (s : UsageData) (n : Nat) (now nowSchedule : Int) :
    interval (setInterval s n now nowSchedule) = n ∧
    (reportingEnabled s = true ∧ isReporting s = false →
      nextReportTime (setInterval s n now nowSchedule)
        = QDateTime.max ((lastReportTime s).addSecs (toInt64 n))
            ((QDateTime.utc now).addSecs enableReportDelay) ∧
      (setInterval s n now nowSchedule).timer
        = some (timerInterval (nextReportTime (setInterval s n now nowSchedule))
            nowSchedule) ∧
      (∀ d, d = (QDateTime.utc nowSchedule).secsTo
            (nextReportTime (setInterval s n now nowSchedule)) →
        0 ≤ d → 1000 * d ≤ 2 ^ 31 - 1 →
        (setInterval s n now nowSchedule).timer = some (1000 * d))) ∧
    (reportingEnabled s = true ∧ isReporting s = false →
      ∀ l, lastReportTime s = QDateTime.utc l →
        fitsInt64 (1000 * (n : Int)) = true → fitsInt64 (l + 1000 * (n : Int)) = true →
        nextReportTime (setInterval s n now nowSchedule)
          = QDateTime.utc (Max.max (l + 1000 * (n : Int)) (now + 1000 * 60))) ∧
    (reportingEnabled s = true ∧ isReporting s = false → lastReportTime s = QDateTime.null →
      nextReportTime (setInterval s n now nowSchedule) = QDateTime.utc (now + 1000 * 60)) ∧
    (reportingEnabled s = false ∨ isReporting s = true →
      nextReportTime (setInterval s n now nowSchedule) = nextReportTime s ∧
      (setInterval s n now nowSchedule).timer = s.timer) ∧
    lastReportTime (setInterval s n now nowSchedule) = lastReportTime s ∧
    reportingEnabled (setInterval s n now nowSchedule) = reportingEnabled s ∧
    (setInterval s n now nowSchedule).events = s.events ∧
    (setInterval s n now nowSchedule).activities = s.activities ∧
    (setInterval s n now nowSchedule).timers = s.timers ∧
    (setInterval s n now nowSchedule).eventsAdjustment = s.eventsAdjustment ∧
    (setInterval s n now nowSchedule).activitiesAdjustment = s.activitiesAdjustment := by
  by_cases hidle : s.enabled = true ∧ s.currentlyIsReporting = false
  · have heq := setInterval_idle_eq s n now nowSchedule hidle.1 hidle.2
    rw [heq]
    refine ⟨rfl, fun _ => ⟨rfl, rfl, ?_⟩, ?_, ?_, ?_, rfl, rfl, rfl, rfl, rfl, rfl, rfl⟩
    · intro d hd h0 hfit
      have hd2 : d = (QDateTime.utc nowSchedule).secsTo
          (QDateTime.max (s.lastOperation.addSecs (toInt64 n))
            (QDateTime.utc (now + 1000 * 60))) := hd
      show some (timerInterval (QDateTime.max (s.lastOperation.addSecs (toInt64 n)) _)
        nowSchedule) = _
      rw [hd2] at h0 hfit
      rw [timerInterval_of_fit _ nowSchedule h0 hfit, hd2]
    · intro _ l hl hn _
      unfold lastReportTime at hl
      show QDateTime.max (s.lastOperation.addSecs (toInt64 n)) _ = _
      rw [hl, toInt64_of_fits n hn, QDateTime.addSecs_utc_of_fits l _ hn]
      exact QDateTime.max_utc _ _
    · intro _ hl
      unfold lastReportTime at hl
      show QDateTime.max (s.lastOperation.addSecs (toInt64 n)) _ = _
      rw [hl, QDateTime.addSecs_null]
      rfl
    · intro h
      unfold reportingEnabled isReporting at h
      rcases h with h | h
      · rw [hidle.1] at h; cases h
      · rw [hidle.2] at h; cases h
  · have hother : s.enabled = false ∨ s.currentlyIsReporting = true := by
      cases he : s.enabled <;> cases hr : s.currentlyIsReporting <;> simp_all
    have heq := setInterval_other_eq s n now nowSchedule hother
    rw [heq]
    have hno : ¬ (reportingEnabled s = true ∧ isReporting s = false) := hidle
    exact ⟨rfl, fun h => absurd h hno, fun h => absurd h hno, fun h => absurd h hno,
      fun _ => ⟨rfl, rfl⟩, rfl, rfl, rfl, rfl, rfl, rfl, rfl⟩

/-- The steps of the test: `setInterval(1)` on the enabled, idle test store at 5000 ms moves
`nextOperation` to 65 000 ms (the 60 s floor) and arms the timer with 60 000 ms; with an
interval of one day it moves `nextOperation` to 86 400 000 ms, one day after `lastOperation`. -/
theorem C20_setInterval_witness :
    (reportingEnabled testStore = true ∧ isReporting testStore = false) ∧
    lastReportTime testStore = QDateTime.utc 0 ∧
    fitsInt64 (1000 * ((86400 : Nat) : Int)) = true ∧
    fitsInt64 (0 + 1000 * ((86400 : Nat) : Int)) = true ∧
    interval (setInterval testStore 1 5000 5000) = 1 ∧
    nextReportTime (setInterval testStore 1 5000 5000) = QDateTime.utc 65000 ∧
    (60 : Int) = (QDateTime.utc 5000).secsTo
      (nextReportTime (setInterval testStore 1 5000 5000)) ∧
    (setInterval testStore 1 5000 5000).timer = some (1000 * 60) ∧
    nextReportTime (setInterval testStore 86400 5000 5000) = QDateTime.utc 86400000 := by
  have h := C20_setInterval testStore 1 5000 5000
  have hnext : nextReportTime (setInterval testStore 1 5000 5000) = QDateTime.utc 65000 :=
    h.2.2.1 ⟨by decide, by decide⟩ 0 rfl (by decide) (by decide)
  refine ⟨⟨by decide, by decide⟩, rfl, by decide, by decide, h.1, hnext, by decide, ?_, ?_⟩
  · exact (h.2.1 ⟨by decide, by decide⟩).2.2 60 (by decide) (by decide) (by decide)
  · exact (C20_setInterval testStore 86400 5000 5000).2.2.1 ⟨by decide, by decide⟩ 0 rfl
      (by decide) (by decide)

/-! ## C15: reconciliation underflow -/

theorem foldlM_adjustEventsStep_total :
    ∀ (L : List ((_ : String) × Nat)), L.NodupKeys → ∀ st : UsageData,
      ∃ E,
        (∀ key, QHash.lookup E key = QHash.lookup st.events key ∨
          ∃ adj, L.dlookup key = some adj ∧ adj ≤ QHash.value st.events key ∧
            QHash.lookup E key
              = if QHash.value st.events key = adj then none
                else some (QHash.value st.events key - adj)) ∧
        (((∀ it ∈ L, it.2 ≤ QHash.value st.events it.1) ∧
            L.foldlM adjustEventsStep st = .ok { st with events := E }) ∨
         ((∃ it ∈ L, QHash.value st.events it.1 < it.2) ∧
            L.foldlM adjustEventsStep st
              = .error (AssertionFailure.reconciliationUnderflow, { st with events := E }))) := by
  intro L
  induction L with
  | nil =>
    intro _ st
    exact ⟨st.events, fun _ => Or.inl rfl, Or.inl ⟨fun _ h => absurd h (List.not_mem_nil _), rfl⟩⟩
  | cons it rest ih =>
    intro hnd st
    obtain ⟨k, adj⟩ := it
    have hnd2 := List.nodupKeys_cons.mp hnd
    by_cases hk : adj ≤ QHash.value st.events k
    · have hstep : ∃ E1, adjustEventsStep st ⟨k, adj⟩ = .ok { st with events := E1 } ∧
          QHash.lookup E1 k
            = (if QHash.value st.events k = adj then none
               else some (QHash.value st.events k - adj)) ∧
          (∀ key, key ≠ k → QHash.lookup E1 key = QHash.lookup st.events key) := by
        unfold adjustEventsStep
        by_cases heq : QHash.value st.events k = adj
        · refine ⟨QHash.remove st.events k, by simp [heq], ?_, ?_⟩
          · simp [heq, QHash.lookup_remove_self]
          · intro key hne
            exact QHash.lookup_remove_ne _ hne
        · have hlt : adj < QHash.value st.events k := by omega
          refine ⟨QHash.insert st.events k (QHash.value st.events k - adj),
            by simp [heq, hlt], ?_, ?_⟩
          · simp [heq, QHash.lookup_insert_self]
          · intro key hne
            exact QHash.lookup_insert_ne _ _ hne
      obtain ⟨E1, hrun1, hself, hother⟩ := hstep
      have hval : ∀ key, key ≠ k → QHash.value E1 key = QHash.value st.events key := by
        intro key hne
        rw [QHash.value_eq_getD, QHash.value_eq_getD, hother key hne]
      have hrest : ∀ it ∈ rest, it.1 ≠ k := by
        intro it hit
        obtain ⟨k2, a2⟩ := it
        have hmem : k2 ∈ rest.keys := List.mem_keys_of_mem hit
        exact fun h => hnd2.1 (h ▸ hmem)
      obtain ⟨E2, hinv, hout⟩ := ih hnd2.2 { st with events := E1 }
      refine ⟨E2, ?_, ?_⟩
      · intro key
        by_cases hkey : key = k
        · subst hkey
          have hnone : rest.dlookup key = none := List.dlookup_eq_none.mpr hnd2.1
          rcases hinv key with h | ⟨a, ha, _⟩
          · right
            exact ⟨adj, List.dlookup_cons_eq _ _ _, hk, h.trans hself⟩
          · rw [hnone] at ha; cases ha
        · rcases hinv key with h | ⟨a, ha, hle, hl⟩
          · left
            exact h.trans (hother key hkey)
          · right
            refine ⟨a, ?_, ?_, ?_⟩
            · rw [List.dlookup_cons_ne _ _ hkey]; exact ha
            · rw [← hval key hkey]; exact hle
            · rw [← hval key hkey]; exact hl
      · have hcons : (⟨k, adj⟩ :: rest).foldlM adjustEventsStep st
            = rest.foldlM adjustEventsStep { st with events := E1 } := by
          rw [List.foldlM_cons]
          show (adjustEventsStep st ⟨k, adj⟩ >>= fun st1 => rest.foldlM adjustEventsStep st1) = _
          rw [hrun1]
          rfl
        rw [hcons]
        rcases hout with ⟨hall, hok⟩ | ⟨hex, herr⟩
        · left
          refine ⟨?_, hok⟩
          intro it hit
          rcases List.mem_cons.mp hit with h | h
          · rw [h]; exact hk
          · have := hall it h
            rw [← hval it.1 (hrest it h)]
            exact this
        · right
          refine ⟨?_, herr⟩
          obtain ⟨it, hit, hlt⟩ := hex
          refine ⟨it, List.mem_cons_of_mem _ hit, ?_⟩
          rw [← hval it.1 (hrest it hit)]
          exact hlt
    · have hlt : QHash.value st.events k < adj := by omega
      refine ⟨st.events, fun _ => Or.inl rfl, Or.inr ⟨⟨⟨k, adj⟩, List.mem_cons_self _ _, hlt⟩, ?_⟩⟩
      rw [List.foldlM_cons]
      have hstep : adjustEventsStep st ⟨k, adj⟩
          = .error (AssertionFailure.reconciliationUnderflow, st) := by
        unfold adjustEventsStep
        have hne : ¬ QHash.value st.events k = adj := by omega
        have hnl : ¬ adj < QHash.value st.events k := by omega
        simp [hne, hnl]
      show (adjustEventsStep st ⟨k, adj⟩ >>= fun st1 => rest.foldlM adjustEventsStep st1) = _
      rw [hstep]
      rfl

theorem foldlM_adjustActivitiesStep_total :
    ∀ (L : List ((_ : String) × Nat)), L.NodupKeys → ∀ st : UsageData,
      ∃ E,
        (∀ key, QHash.lookup E key = QHash.lookup st.activities key ∨
          ∃ adj, L.dlookup key = some adj ∧ adj ≤ QHash.value st.activities key ∧
            QHash.lookup E key
              = if QHash.value st.activities key = adj then none
                else some (QHash.value st.activities key - adj)) ∧
        (((∀ it ∈ L, it.2 ≤ QHash.value st.activities it.1) ∧
            L.foldlM adjustActivitiesStep st = .ok { st with activities := E }) ∨
         ((∃ it ∈ L, QHash.value st.activities it.1 < it.2) ∧
            L.foldlM adjustActivitiesStep st
              = .error (AssertionFailure.reconciliationUnderflow, { st with activities := E }))) := by
  intro L
  induction L with
  | nil =>
    intro _ st
    exact ⟨st.activities, fun _ => Or.inl rfl, Or.inl ⟨fun _ h => absurd h (List.not_mem_nil _), rfl⟩⟩
  | cons it rest ih =>
    intro hnd st
    obtain ⟨k, adj⟩ := it
    have hnd2 := List.nodupKeys_cons.mp hnd
    by_cases hk : adj ≤ QHash.value st.activities k
    · have hstep : ∃ E1, adjustActivitiesStep st ⟨k, adj⟩ = .ok { st with activities := E1 } ∧
          QHash.lookup E1 k
            = (if QHash.value st.activities k = adj then none
               else some (QHash.value st.activities k - adj)) ∧
          (∀ key, key ≠ k → QHash.lookup E1 key = QHash.lookup st.activities key) := by
        unfold adjustActivitiesStep
        by_cases heq : QHash.value st.activities k = adj
        · refine ⟨QHash.remove st.activities k, by simp [heq], ?_, ?_⟩
          · simp [heq, QHash.lookup_remove_self]
          · intro key hne
            exact QHash.lookup_remove_ne _ hne
        · have hlt : adj < QHash.value st.activities k := by omega
          refine ⟨QHash.insert st.activities k (QHash.value st.activities k - adj),
            by simp [heq, hlt], ?_, ?_⟩
          · simp [heq, QHash.lookup_insert_self]
          · intro key hne
            exact QHash.lookup_insert_ne _ _ hne
      obtain ⟨E1, hrun1, hself, hother⟩ := hstep
      have hval : ∀ key, key ≠ k → QHash.value E1 key = QHash.value st.activities key := by
        intro key hne
        rw [QHash.value_eq_getD, QHash.value_eq_getD, hother key hne]
      have hrest : ∀ it ∈ rest, it.1 ≠ k := by
        intro it hit
        obtain ⟨k2, a2⟩ := it
        have hmem : k2 ∈ rest.keys := List.mem_keys_of_mem hit
        exact fun h => hnd2.1 (h ▸ hmem)
      obtain ⟨E2, hinv, hout⟩ := ih hnd2.2 { st with activities := E1 }
      refine ⟨E2, ?_, ?_⟩
      · intro key
        by_cases hkey : key = k
        · subst hkey
          have hnone : rest.dlookup key = none := List.dlookup_eq_none.mpr hnd2.1
          rcases hinv key with h | ⟨a, ha, _⟩
          · right
            exact ⟨adj, List.dlookup_cons_eq _ _ _, hk, h.trans hself⟩
          · rw [hnone] at ha; cases ha
        · rcases hinv key with h | ⟨a, ha, hle, hl⟩
          · left
            exact h.trans (hother key hkey)
          · right
            refine ⟨a, ?_, ?_, ?_⟩
            · rw [List.dlookup_cons_ne _ _ hkey]; exact ha
            · rw [← hval key hkey]; exact hle
            · rw [← hval key hkey]; exact hl
      · have hcons : (⟨k, adj⟩ :: rest).foldlM adjustActivitiesStep st
            = rest.foldlM adjustActivitiesStep { st with activities := E1 } := by
          rw [List.foldlM_cons]
          show (adjustActivitiesStep st ⟨k, adj⟩ >>= fun st1 => rest.foldlM adjustActivitiesStep st1) = _
          rw [hrun1]
          rfl
        rw [hcons]
        rcases hout with ⟨hall, hok⟩ | ⟨hex, herr⟩
        · left
          refine ⟨?_, hok⟩
          intro it hit
          rcases List.mem_cons.mp hit with h | h
          · rw [h]; exact hk
          · have := hall it h
            rw [← hval it.1 (hrest it h)]
            exact this
        · right
          refine ⟨?_, herr⟩
          obtain ⟨it, hit, hlt⟩ := hex
          refine ⟨it, List.mem_cons_of_mem _ hit, ?_⟩
          rw [← hval it.1 (hrest it hit)]
          exact hlt
    · have hlt : QHash.value st.activities k < adj := by omega
      refine ⟨st.activities, fun _ => Or.inl rfl, Or.inr ⟨⟨⟨k, adj⟩, List.mem_cons_self _ _, hlt⟩, ?_⟩⟩
      rw [List.foldlM_cons]
      have hstep : adjustActivitiesStep st ⟨k, adj⟩
          = .error (AssertionFailure.reconciliationUnderflow, st) := by
        unfold adjustActivitiesStep
        have hne : ¬ QHash.value st.activities k = adj := by omega
        have hnl : ¬ adj < QHash.value st.activities k := by omega
        simp [hne, hnl]
      show (adjustActivitiesStep st ⟨k, adj⟩ >>= fun st1 => rest.foldlM adjustActivitiesStep st1) = _
      rw [hstep]
      rfl

theorem adjustEventsAndActivities_total (s : UsageData) :
    ∃ E A,
      (∀ key, QHash.lookup E key = QHash.lookup s.events key ∨
        ∃ adj, QHash.lookup s.eventsAdjustment key = some adj ∧
          adj ≤ QHash.value s.events key ∧
          QHash.lookup E key
            = if QHash.value s.events key = adj then none
              else some (QHash.value s.events key - adj)) ∧
      (∀ key, QHash.lookup A key = QHash.lookup s.activities key ∨
        ∃ adj, QHash.lookup s.activitiesAdjustment key = some adj ∧
          adj ≤ QHash.value s.activities key ∧
          QHash.lookup A key
            = if QHash.value s.activities key = adj then none
              else some (QHash.value s.activities key - adj)) ∧
      (((∀ it ∈ s.eventsAdjustment.entries, it.2 ≤ QHash.value s.events it.1) ∧
        (∀ it ∈ s.activitiesAdjustment.entries, it.2 ≤ QHash.value s.activities it.1) ∧
        adjustEventsAndActivities s
          = .ok { s with events := E, activities := A, eventsAdjustment := ∅,
                         activitiesAdjustment := ∅ }) ∨
       (((∃ it ∈ s.eventsAdjustment.entries, QHash.value s.events it.1 < it.2) ∨
         (∃ it ∈ s.activitiesAdjustment.entries, QHash.value s.activities it.1 < it.2)) ∧
        adjustEventsAndActivities s
          = .error (AssertionFailure.reconciliationUnderflow,
              { s with events := E, activities := A }))) := by
  obtain ⟨E, hinvE, houtE⟩ :=
    foldlM_adjustEventsStep_total s.eventsAdjustment.entries s.eventsAdjustment.nodupKeys s
  rcases houtE with ⟨hallE, hokE⟩ | ⟨hexE, herrE⟩
  · obtain ⟨A, hinvA, houtA⟩ :=
      foldlM_adjustActivitiesStep_total s.activitiesAdjustment.entries
        s.activitiesAdjustment.nodupKeys { s with events := E }
    refine ⟨E, A, hinvE, hinvA, ?_⟩
    rcases houtA with ⟨hallA, hokA⟩ | ⟨hexA, herrA⟩
    · left
      refine ⟨hallE, hallA, ?_⟩
      unfold adjustEventsAndActivities
      show (s.eventsAdjustment.entries.foldlM adjustEventsStep s >>= _) = _
      rw [hokE]
      show (s.activitiesAdjustment.entries.foldlM adjustActivitiesStep { s with events := E }
        >>= _) = _
      rw [hokA]
      rfl
    · right
      refine ⟨Or.inr hexA, ?_⟩
      unfold adjustEventsAndActivities
      show (s.eventsAdjustment.entries.foldlM adjustEventsStep s >>= _) = _
      rw [hokE]
      show (s.activitiesAdjustment.entries.foldlM adjustActivitiesStep { s with events := E }
        >>= _) = _
      rw [herrA]
      rfl
  · refine ⟨E, s.activities, hinvE, fun _ => Or.inl rfl, Or.inr ⟨Or.inl hexE, ?_⟩⟩
    unfold adjustEventsAndActivities
    show (s.eventsAdjustment.entries.foldlM adjustEventsStep s >>= _) = _
    rw [herrE]
    rfl

theorem QHash.exists_entry_iff (snapshot live : QHash Nat) :
    (∃ it ∈ snapshot.entries, QHash.value live it.1 < it.2)
      ↔ ∃ key adj, QHash.lookup snapshot key = some adj ∧ QHash.value live key < adj := by
  constructor
  · rintro ⟨⟨k, a⟩, hit, hlt⟩
    exact ⟨k, a, (List.mem_dlookup_iff snapshot.nodupKeys).mpr hit, hlt⟩
  · rintro ⟨k, a, hl, hlt⟩
    exact ⟨⟨k, a⟩, (List.mem_dlookup_iff snapshot.nodupKeys).mp hl, hlt⟩

/-- C15: reconciliation underflow is reported, never masked.  `adjustEventsAndActivities` stops
at its assertion `adjustment < value` if and only if some snapshotted key, of the events or of
the activities, has a snapshotted amount strictly greater than its live value (0 for an absent
key), and no other assertion can fail.  Whether it completes or stops, every live entry of the
state it ends in is either untouched or is the exact difference `value - amount` of a
snapshotted amount not greater than the live value (the key being removed when the difference
is 0): no value is clamped and none is a wrapped-around difference. -/
theorem C15_underflow_is_reported (s : UsageData) :
    ((∃ e st, adjustEventsAndActivities s = .error (e, st)) ↔
      ((∃ key adj, QHash.lookup s.eventsAdjustment key = some adj ∧
          QHash.value s.events key < adj) ∨
       (∃ key adj, QHash.lookup s.activitiesAdjustment key = some adj ∧
          QHash.value s.activities key < adj))) ∧
    (∀ e st, adjustEventsAndActivities s = .error (e, st) →
      e = AssertionFailure.reconciliationUnderflow) ∧
    (∀ key,
      QHash.lookup (Result.state (adjustEventsAndActivities s)).events key
        = QHash.lookup s.events key ∨
      ∃ adj, QHash.lookup s.eventsAdjustment key = some adj ∧
        adj ≤ QHash.value s.events key ∧
        QHash.lookup (Result.state (adjustEventsAndActivities s)).events key
          = if QHash.value s.events key = adj then none
            else some (QHash.value s.events key - adj)) ∧
    (∀ key,
      QHash.lookup (Result.state (adjustEventsAndActivities s)).activities key
        = QHash.lookup s.activities key ∨
      ∃ adj, QHash.lookup s.activitiesAdjustment key = some adj ∧
        adj ≤ QHash.value s.activities key ∧
        QHash.lookup (Result.state (adjustEventsAndActivities s)).activities key
          = if QHash.value s.activities key = adj then none
            else some (QHash.value s.activities key - adj)) := by
  obtain ⟨E, A, hinvE, hinvA, hout⟩ := adjustEventsAndActivities_total s
  rcases hout with ⟨hallE, hallA, hok⟩ | ⟨hex, herr⟩
  · rw [hok]
    refine ⟨⟨?_, ?_⟩, ?_, hinvE, hinvA⟩
    · rintro ⟨e, st, h⟩
      cases h
    · intro h
      exfalso
      rcases h with h | h
      · obtain ⟨it, hit, hlt⟩ := (QHash.exists_entry_iff _ _).mpr h
        have := hallE it hit
        omega
      · obtain ⟨it, hit, hlt⟩ := (QHash.exists_entry_iff _ _).mpr h
        have := hallA it hit
        omega
    · intro e st h
      cases h
  · rw [herr]
    refine ⟨⟨?_, ?_⟩, ?_, hinvE, hinvA⟩
    · intro _
      rcases hex with h | h
      · exact Or.inl ((QHash.exists_entry_iff _ _).mp h)
      · exact Or.inr ((QHash.exists_entry_iff _ _).mp h)
    · intro _
      exact ⟨_, _, rfl⟩
    · intro e st h
      cases h
      rfl

/-- On the store whose `activity_1` is below its snapshot the reconciliation stops at the
assertion; `activity_1` keeps its live value 3 and `test_event_1` holds the difference 1. -/
theorem C15_underflow_is_reported_witness :
    (∃ e st, adjustEventsAndActivities underflowStore = .error (e, st)) ∧
    QHash.lookup (Result.state (adjustEventsAndActivities underflowStore)).activities
      "activity_1" = some 3 ∧
    QHash.lookup (Result.state (adjustEventsAndActivities underflowStore)).events
      "test_event_1" = some 1 :=
  ⟨(C15_underflow_is_reported underflowStore).1.mpr
      (Or.inr ⟨"activity_1", 4, by decide, by decide⟩),
   by decide, by decide⟩

/-! ## The success outcome: C12, C17, C19 -/

theorem jsonResponseWasReceived_eq (s : UsageData) (now nowSchedule : Int) :
    jsonResponseWasReceived s now nowSchedule
      = match adjustEventsAndActivities s with
        | .ok s1 =>
            .ok { s1 with
                  lastOperation := s1.nextOperation
                  nextOperation := (QDateTime.utc now).addSecs (toInt64 s1.reportInterval)
                  lastReportSuccessful := true
                  timer := if s1.enabled then
                             some (timerInterval
                               ((QDateTime.utc now).addSecs (toInt64 s1.reportInterval))
                               nowSchedule)
                           else s1.timer
                  emitted := s1.emitted ++ [Signal.reportingFinished true]
                  currentlyIsReporting := false }
        | .error e => .error e := by
  unfold jsonResponseWasReceived
  cases h : adjustEventsAndActivities s with
  | error e => rfl
  | ok s1 =>
    show (Except.ok s1 >>= _) = _
    cases he : s1.enabled <;> simp [he, scheduleReport_eq]

theorem QHash.eq_empty_of_lookup_none {V : Type} (h : QHash V)
    (hnone : ∀ key, QHash.lookup h key = none) : h = ∅ := by
  apply AList.ext
  rcases h with ⟨entries, nd⟩
  cases entries with
  | nil => rfl
  | cons it rest =>
    exfalso
    obtain ⟨k, v⟩ := it
    have h1 := hnone k
    have h2 : QHash.lookup (⟨⟨k, v⟩ :: rest, nd⟩ : QHash V) k = some v :=
      List.dlookup_cons_eq _ _ _
    rw [h2] at h1
    cases h1

/-- C12: a report with nothing recorded while it is in flight empties the store.  For every
enabled, not-reporting store (any events, any activities, any running timers), building the
snapshot succeeds, the success outcome that follows directly succeeds, and afterwards the
events mapping and the activities mapping are empty, `reportingSuccessful()` is true and
`isReporting()` is false; the snapshot that was built holds the events of the store. -/
theorem C12_report_without_in_transit_activity (s : UsageData) (info : SystemInfo)
    (clock : String → Int) (now nowSchedule : Int)
    (henabled : s.enabled = true) (hnot : isReporting s = false) :
    ∃ s1 s3, reportUsageData s info clock = .ok s1 ∧
      jsonResponseWasReceived s1 now nowSchedule = .ok s3 ∧
      (∀ key, QHash.lookup s1.eventsAdjustment key = QHash.lookup s.events key) ∧
      s3.events = ∅ ∧ s3.activities = ∅ ∧
      reportingSuccessful s3 = true ∧ isReporting s3 = false := by
  obtain ⟨s1, hbuild, hev1, _, _, hsnapE, hsnapA⟩ :=
    reportUsageData_snapshot_spec s info clock henabled hnot
  have hev : ∀ key adj, QHash.lookup s1.eventsAdjustment key = some adj →
      adj ≤ QHash.value s1.events key := by
    intro key adj hl
    rw [hsnapE key, ← hev1] at hl
    rw [QHash.value_of_lookup_some _ _ _ hl]
  have hact : ∀ key adj, QHash.lookup s1.activitiesAdjustment key = some adj →
      adj ≤ QHash.value s1.activities key := by
    intro key adj hl
    rw [hsnapA key] at hl
    rw [QHash.value_of_lookup_some _ _ _ hl]
  obtain ⟨s2, E, A, hrun, hs2, hE, hA⟩ := adjustEventsAndActivities_spec s1 hev hact
  obtain ⟨s3, hjson, hev3, hact3, _, _, _, hsucc, hrep, _⟩ :=
    jsonResponseWasReceived_of_adjust s1 s2 now nowSchedule hrun
  have hEnone : ∀ key, QHash.lookup E key = none := by
    intro key
    rw [hE key, hsnapE key, ← hev1]
    cases hl : QHash.lookup s1.events key with
    | none => rfl
    | some v =>
      show (if QHash.value s1.events key = v then none
        else some (QHash.value s1.events key - v)) = none
      rw [QHash.value_of_lookup_some _ _ _ hl, if_pos rfl]
  have hAnone : ∀ key, QHash.lookup A key = none := by
    intro key
    rw [hA key, hsnapA key]
    cases hl : QHash.lookup s1.activities key with
    | none => rfl
    | some v =>
      show (if QHash.value s1.activities key = v then none
        else some (QHash.value s1.activities key - v)) = none
      rw [QHash.value_of_lookup_some _ _ _ hl, if_pos rfl]
  refine ⟨s1, s3, hbuild, hjson, hsnapE, ?_, ?_, hsucc, hrep⟩
  · rw [hev3, hs2]
    exact QHash.eq_empty_of_lookup_none E hEnone
  · rw [hact3, hs2]
    exact QHash.eq_empty_of_lookup_none A hAnone

/-- The scenario of the spec: the snapshot is `e1 ↦ 2`, `e2 ↦ 1`, and after the success outcome
the store is empty and the success flag is set. -/
theorem C12_report_without_in_transit_activity_witness :
    scenarioStore.enabled = true ∧ isReporting scenarioStore = false ∧
    ∃ s1 s3, reportUsageData scenarioStore testSystemInfo (fun _ => 1000) = .ok s1 ∧
      jsonResponseWasReceived s1 2000 2000 = .ok s3 ∧
      QHash.lookup s1.eventsAdjustment "e1" = some 2 ∧
      QHash.lookup s1.eventsAdjustment "e2" = some 1 ∧
      s3.events = ∅ ∧ s3.activities = ∅ ∧ reportingSuccessful s3 = true := by
  refine ⟨by decide, by decide, ?_⟩
  obtain ⟨s1, s3, h1, h3, hsnap, he, ha, hs, _⟩ :=
    C12_report_without_in_transit_activity scenarioStore testSystemInfo (fun _ => 1000)
      2000 2000 (by decide) (by decide)
  refine ⟨s1, s3, h1, h3, ?_, ?_, he, ha, hs⟩
  · rw [hsnap]; decide
  · rw [hsnap]; decide

/-- C17 (as stated) fails in several ways.  On a reporting state whose snapshot exceeds the live
store (after the snapshot of the test store is built, `adjustActivity("activity_2", -2)` leaves
`activity_2` at 1 below its snapshotted 3) the success outcome stops at the reconciliation
assertion with `reportingSuccessful()` still false, `isReporting()` still true and
`lastOperation` not advanced.  With the interval `2 ^ 64 - 1`, which `addSecs` receives as -1,
the success outcome at 9000 ms sets `nextOperation` to 8000 ms, not to `now` plus the interval.
With the interval `2 ^ 62`, whose milliseconds do not fit a `qint64`, `addSecs` yields no valid
time (as Qt 6 defines it) and `nextOperation` is left null.  With an interval of 30 days `nextOperation` is `now`
plus the interval, but the timer receives a negative number, the product wrapped to 32 bits. -/
theorem C17_success_outcome_off_the_path :
    (∃ s1 st, reportUsageData testStore testSystemInfo (fun _ => 5000) = .ok s1 ∧
      isReporting (adjustActivity s1 "activity_2" (-2)) = true ∧
      jsonResponseWasReceived (adjustActivity s1 "activity_2" (-2)) 9000 9000
        = .error (AssertionFailure.reconciliationUnderflow, st) ∧
      reportingSuccessful st = false ∧ isReporting st = true ∧
      lastReportTime st = QDateTime.utc 0 ∧ nextReportTime st = QDateTime.utc 1000) ∧
    (∃ s3, isReporting maxIntervalStore = true ∧ interval maxIntervalStore = 2 ^ 64 - 1 ∧
      jsonResponseWasReceived maxIntervalStore 9000 9000 = .ok s3 ∧
      nextReportTime s3 = QDateTime.utc 8000 ∧
      nextReportTime s3 ≠ QDateTime.utc (9000 + 1000 * ((2 ^ 64 - 1 : Nat) : Int))) ∧
    (∃ s3, isReporting (setInterval inFlightStore (2 ^ 62) 6000 6000) = true ∧
      interval (setInterval inFlightStore (2 ^ 62) 6000 6000) = 2 ^ 62 ∧
      jsonResponseWasReceived (setInterval inFlightStore (2 ^ 62) 6000 6000) 9000 9000
        = .ok s3 ∧
      nextReportTime s3 = QDateTime.null) ∧
    (∃ s3, isReporting (setInterval inFlightStore 2592000 6000 6000) = true ∧
      reportingEnabled (setInterval inFlightStore 2592000 6000 6000) = true ∧
      jsonResponseWasReceived (setInterval inFlightStore 2592000 6000 6000) 9000 9000
        = .ok s3 ∧
      nextReportTime s3 = QDateTime.utc (9000 + 1000 * 2592000) ∧
      s3.timer = some (-1702967296)) := by
  refine ⟨⟨_, _, rfl, ?_, rfl, ?_, ?_, ?_, ?_⟩, ⟨_, ?_, ?_, rfl, ?_, ?_⟩,
    ⟨_, ?_, ?_, rfl, ?_⟩, ⟨_, ?_, ?_, rfl, ?_, ?_⟩⟩ <;> decide

/-- C17 (amended): success path of the scheduler.  For every state in which no snapshotted
amount exceeds its live value (so that the reconciliation does not stop at its assertion) and
for every `now`, the success outcome completes, sets `lastOperation` to the previous
`nextOperation`, sets `nextOperation` to `now.addSecs(interval)`, sets `reportingSuccessful()`
to true and `isReporting()` to false, starts the timer through `scheduleReport` for the new
`nextOperation` when reporting is enabled and leaves the timer as it was when it is not.  The
new `nextOperation` is `now` plus the interval when `1000 * interval` and `now` +
`1000 * interval` milliseconds fit a `qint64`, and the timer is armed with exactly `1000 * d`
milliseconds when the whole seconds `d` from the time read by `scheduleReport` to the new
`nextOperation` satisfy `0 ≤ d` and `1000 * d ≤ 2 ^ 31 - 1`. -/
theorem C17_success_path (s : UsageData) (now nowSchedule : Int)
    (hev : ∀ key adj, QHash.lookup s.eventsAdjustment key = some adj →
      adj ≤ QHash.value s.events key)
    (hact : ∀ key adj, QHash.lookup s.activitiesAdjustment key = some adj →
      adj ≤ QHash.value s.activities key) :
    ∃ s3, jsonResponseWasReceived s now nowSchedule = .ok s3 ∧
      lastReportTime s3 = nextReportTime s ∧
      nextReportTime s3 = (QDateTime.utc now).addSecs (toInt64 (interval s)) ∧
      (fitsInt64 (1000 * (interval s : Int)) = true →
        fitsInt64 (now + 1000 * (interval s : Int)) = true →
        nextReportTime s3 = QDateTime.utc (now + 1000 * (interval s : Int))) ∧
      reportingSuccessful s3 = true ∧
      isReporting s3 = false ∧
      (reportingEnabled s = true →
        s3.timer = some (timerInterval (nextReportTime s3) nowSchedule)) ∧
      (reportingEnabled s = true →
        ∀ d, d = (QDateTime.utc nowSchedule).secsTo (nextReportTime s3) →
          0 ≤ d → 1000 * d ≤ 2 ^ 31 - 1 → s3.timer = some (1000 * d)) ∧
      (reportingEnabled s = false → s3.timer = s.timer) ∧
      reportingEnabled s3 = reportingEnabled s ∧
      interval s3 = interval s := by
  obtain ⟨s2, E, A, hrun, hs2, _, _⟩ := adjustEventsAndActivities_spec s hev hact
  subst hs2
  have hjson := jsonResponseWasReceived_eq s now nowSchedule
  rw [hrun] at hjson
  dsimp only at hjson
  refine ⟨_, hjson, rfl, rfl, ?_, rfl, rfl, ?_, ?_, ?_, rfl, rfl⟩
  · intro hint _
    show (QDateTime.utc now).addSecs (toInt64 s.reportInterval) = _
    unfold interval at hint
    rw [toInt64_of_fits _ hint, QDateTime.addSecs_utc_of_fits now _ hint]
    rfl
  · intro he
    unfold reportingEnabled at he
    simp [he, nextReportTime]
  · intro he d hd h0 hfit
    unfold reportingEnabled at he
    simp only [he, if_true]
    have hd2 : d = (QDateTime.utc nowSchedule).secsTo
        ((QDateTime.utc now).addSecs (toInt64 s.reportInterval)) := hd
    rw [hd2] at h0 hfit
    rw [timerInterval_of_fit _ nowSchedule h0 hfit, hd2]
  · intro he
    unfold reportingEnabled at he
    simp [he]

/-- Success outcome at 9000 ms on the store with a report in flight (interval 1 s): the new
window runs from 1000 ms to 10 000 ms and the timer is armed with 1000 ms. -/
theorem C17_success_path_witness :
    (∀ it ∈ inFlightStore.eventsAdjustment.entries,
      it.2 ≤ QHash.value inFlightStore.events it.1) ∧
    (∀ it ∈ inFlightStore.activitiesAdjustment.entries,
      it.2 ≤ QHash.value inFlightStore.activities it.1) ∧
    fitsInt64 (1000 * (interval inFlightStore : Int)) = true ∧
    fitsInt64 (9000 + 1000 * (interval inFlightStore : Int)) = true ∧
    reportingEnabled inFlightStore = true ∧
    (1 : Int) = (QDateTime.utc 9000).secsTo (QDateTime.utc 10000) ∧
    ∃ s3, jsonResponseWasReceived inFlightStore 9000 9000 = .ok s3 ∧
      lastReportTime s3 = QDateTime.utc 1000 ∧
      nextReportTime s3 = QDateTime.utc 10000 ∧
      s3.timer = some (1000 * 1) ∧
      reportingSuccessful s3 = true ∧ isReporting s3 = false := by
  refine ⟨by decide, by decide, by decide, by decide, by decide, by decide, ?_⟩
  obtain ⟨s3, hrun, hlast, _, hnext, hsucc, hrep, _, htimer, _⟩ :=
    C17_success_path inFlightStore 9000 9000
      (QHash.forall_lookup_of_forall_entries _ _ (by decide))
      (QHash.forall_lookup_of_forall_entries _ _ (by decide))
  have hnext2 : nextReportTime s3 = QDateTime.utc 10000 := hnext (by decide) (by decide)
  refine ⟨s3, hrun, hlast, hnext2, ?_, hsucc, hrep⟩
  exact htimer (by decide) 1 (by rw [hnext2]; decide) (by decide) (by decide)

theorem jsonResponseWasReceived_timer_of_disabled (d : UsageData) (now nowSchedule : Int)
    (hdis : d.enabled = false) :
    (Result.state (jsonResponseWasReceived d now nowSchedule)).timer = d.timer ∧
    (Result.state (jsonResponseWasReceived d now nowSchedule)).enabled = false := by
  obtain ⟨E, A, _, _, hout⟩ := adjustEventsAndActivities_total d
  rw [jsonResponseWasReceived_eq]
  rcases hout with ⟨_, _, hok⟩ | ⟨_, herr⟩
  · rw [hok]
    simp [Result.state, hdis]
  · rw [herr]
    simp [Result.state, hdis]

/-- C19: disabling reporting.  For every enabled state, idle or reporting,
`setReportingEnabled(false)`, which is what `setReportingDisabled(true)` calls, stops the timer
and makes `reportingEnabled()` false without changing the events, the activities, the timers,
the snapshots, `lastOperation`, `nextOperation` or the reporting flag.  A later success outcome
still reconciles the store against the snapshot (when no snapshotted amount exceeds its live
value it completes with every snapshotted key reduced by its amount or removed, and both
snapshots cleared), and after the success outcome, completed or stopped at the reconciliation
assertion, as after the failure outcome, the timer is not armed and reporting is still
disabled. -/
theorem C19_disable_reporting (s : UsageData) (now nowSchedule : Int)
    (hen : reportingEnabled s = true) :
    setReportingDisabled s true now nowSchedule = setReportingEnabled s false now nowSchedule ∧
    (setReportingEnabled s false now nowSchedule).timer = none ∧
    reportingEnabled (setReportingEnabled s false now nowSchedule) = false ∧
    (setReportingEnabled s false now nowSchedule).events = s.events ∧
    (setReportingEnabled s false now nowSchedule).activities = s.activities ∧
    (setReportingEnabled s false now nowSchedule).timers = s.timers ∧
    (setReportingEnabled s false now nowSchedule).eventsAdjustment = s.eventsAdjustment ∧
    (setReportingEnabled s false now nowSchedule).activitiesAdjustment
      = s.activitiesAdjustment ∧
    lastReportTime (setReportingEnabled s false now nowSchedule) = lastReportTime s ∧
    nextReportTime (setReportingEnabled s false now nowSchedule) = nextReportTime s ∧
    isReporting (setReportingEnabled s false now nowSchedule) = isReporting s ∧
    (∀ now2 nowSchedule2 : Int,
      (∀ key adj, QHash.lookup s.eventsAdjustment key = some adj →
        adj ≤ QHash.value s.events key) →
      (∀ key adj, QHash.lookup s.activitiesAdjustment key = some adj →
        adj ≤ QHash.value s.activities key) →
      ∃ s3, jsonResponseWasReceived (setReportingEnabled s false now nowSchedule)
              now2 nowSchedule2 = .ok s3 ∧
        (∀ key, QHash.lookup s3.events key
          = match QHash.lookup s.eventsAdjustment key with
            | some adj =>
                if QHash.value s.events key = adj then none
                else some (QHash.value s.events key - adj)
            | none => QHash.lookup s.events key) ∧
        (∀ key, QHash.lookup s3.activities key
          = match QHash.lookup s.activitiesAdjustment key with
            | some adj =>
                if QHash.value s.activities key = adj then none
                else some (QHash.value s.activities key - adj)
            | none => QHash.lookup s.activities key) ∧
        s3.eventsAdjustment = ∅ ∧ s3.activitiesAdjustment = ∅) ∧
    (∀ now2 nowSchedule2 : Int,
      (Result.state (jsonResponseWasReceived (setReportingEnabled s false now nowSchedule)
        now2 nowSchedule2)).timer = none ∧
      reportingEnabled (Result.state (jsonResponseWasReceived
        (setReportingEnabled s false now nowSchedule) now2 nowSchedule2)) = false) ∧
    (∀ code now2 nowSchedule2 : Int,
      (failed (setReportingEnabled s false now nowSchedule) code now2 nowSchedule2).timer
        = none ∧
      reportingEnabled (failed (setReportingEnabled s false now nowSchedule) code now2
        nowSchedule2) = false) := by
  unfold reportingEnabled at hen
  have hd := setReportingEnabled_disable_eq s now nowSchedule hen
  refine ⟨rfl, ?_, ?_, ?_, ?_, ?_, ?_, ?_, ?_, ?_, ?_, ?_, ?_, ?_⟩
  · rw [hd]
  · rw [hd]; rfl
  · rw [hd]
  · rw [hd]
  · rw [hd]
  · rw [hd]
  · rw [hd]
  · rw [hd]; rfl
  · rw [hd]; rfl
  · rw [hd]; rfl
  · intro now2 nowSchedule2 hev hact
    rw [hd]
    obtain ⟨s2, E, A, hrun, hs2, hE, hA⟩ :=
      adjustEventsAndActivities_spec { s with timer := none, enabled := false } hev hact
    obtain ⟨s3, hjson, hev3, hact3, _, hadjE, hadjA, _⟩ :=
      jsonResponseWasReceived_of_adjust _ s2 now2 nowSchedule2 hrun
    refine ⟨s3, hjson, ?_, ?_, ?_, ?_⟩
    · intro key
      rw [hev3, hs2]
      exact hE key
    · intro key
      rw [hact3, hs2]
      exact hA key
    · rw [hadjE, hs2]
    · rw [hadjA, hs2]
  · intro now2 nowSchedule2
    rw [hd]
    exact jsonResponseWasReceived_timer_of_disabled _ now2 nowSchedule2 rfl
  · intro code now2 nowSchedule2
    rw [hd, failed_eq]
    exact ⟨rfl, rfl⟩

/-- Disabling the store with a report in flight whose timer is armed: the timer is stopped, and
the success outcome at 9000 ms reconciles `test_event_1` to 1 and leaves the timer unarmed. -/
theorem C19_disable_reporting_witness :
    reportingEnabled { inFlightStore with timer := some 60000 } = true ∧
    (setReportingEnabled { inFlightStore with timer := some 60000 } false 8000 8000).timer
      = none ∧
    ∃ s3, jsonResponseWasReceived
        (setReportingEnabled { inFlightStore with timer := some 60000 } false 8000 8000)
        9000 9000 = .ok s3 ∧
      QHash.lookup s3.events "test_event_1" = some 1 ∧
      QHash.lookup s3.events "test_event_2" = none := by
  have h := C19_disable_reporting { inFlightStore with timer := some 60000 } 8000 8000
    (by decide)
  refine ⟨by decide, h.2.1, ?_⟩
  obtain ⟨s3, hrun, hev, _⟩ := h.2.2.2.2.2.2.2.2.2.2.2.1 9000 9000
    (QHash.forall_lookup_of_forall_entries _ _ (by decide))
    (QHash.forall_lookup_of_forall_entries _ _ (by decide))
  refine ⟨s3, hrun, ?_, ?_⟩
  · rw [hev]; decide
  · rw [hev]; decide

/-! ## C11: activity adjustments made while a report is in flight -/

theorem toU64_toU64_add (x d : Int) :
    toU64 (((toU64 x : Nat) : Int) + d) = toU64 (x + d) := by
  unfold toU64
  omega

theorem adjustActivityCalls_eq_with (calls : List (String × Int)) :
    ∀ st : UsageData, ∃ A, adjustActivityCalls st calls = { st with activities := A } := by
  induction calls with
  | nil => intro st; exact ⟨st.activities, rfl⟩
  | cons c rest ih =>
    intro st
    obtain ⟨A, hA⟩ := ih (adjustActivity st c.1 c.2)
    refine ⟨A, ?_⟩
    show adjustActivityCalls (adjustActivity st c.1 c.2) rest = _
    rw [hA, adjustActivity_eq_with]

theorem netDelta_of_untouched (name : String) (calls : List (String × Int))
    (h : ∀ c ∈ calls, c.1 ≠ name) : netDelta name calls = 0 := by
  induction calls with
  | nil => rfl
  | cons c rest ih =>
    have hc : c.1 ≠ name := h c (List.mem_cons_self _ _)
    have hr := ih (fun c2 hc2 => h c2 (List.mem_cons_of_mem _ hc2))
    show (if c.1 = name then c.2 else 0) + netDelta name rest = 0
    rw [if_neg hc, hr]
    rfl

theorem adjustActivityCalls_lookup (name : String) (calls : List (String × Int)) :
    ∀ st : UsageData,
      ((∃ c ∈ calls, c.1 = name) →
        QHash.lookup (adjustActivityCalls st calls).activities name
          = some (toU64 ((QHash.value st.activities name : Nat) + netDelta name calls))) ∧
      ((∀ c ∈ calls, c.1 ≠ name) →
        QHash.lookup (adjustActivityCalls st calls).activities name
          = QHash.lookup st.activities name) := by
  induction calls with
  | nil =>
    intro st
    exact ⟨fun ⟨c, hc, _⟩ => absurd hc (List.not_mem_nil _), fun _ => rfl⟩
  | cons c rest ih =>
    intro st
    have hunfold : adjustActivityCalls st (c :: rest)
        = adjustActivityCalls (adjustActivity st c.1 c.2) rest := rfl
    have hnet : netDelta name (c :: rest)
        = (if c.1 = name then c.2 else 0) + netDelta name rest := rfl
    rw [hunfold, hnet]
    by_cases hc : c.1 = name
    · refine ⟨fun _ => ?_, fun h => absurd hc (h c (List.mem_cons_self _ _))⟩
      rw [if_pos hc]
      have hself : QHash.lookup (adjustActivity st c.1 c.2).activities name
          = some (toU64 ((QHash.value st.activities name : Nat) + c.2)) := by
        rw [hc]; exact adjustActivity_lookup_self st name c.2
      have hval : QHash.value (adjustActivity st c.1 c.2).activities name
          = toU64 ((QHash.value st.activities name : Nat) + c.2) :=
        QHash.value_of_lookup_some _ _ _ hself
      by_cases hr : ∃ c2 ∈ rest, c2.1 = name
      · rw [(ih _).1 hr, hval, toU64_toU64_add, Int.add_assoc]
      · have hr2 : ∀ c2 ∈ rest, c2.1 ≠ name := fun c2 hc2 h => hr ⟨c2, hc2, h⟩
        rw [(ih _).2 hr2, hself, netDelta_of_untouched name rest hr2, Int.add_zero]
    · have hne : name ≠ c.1 := fun h => hc h.symm
      have hl : QHash.lookup (adjustActivity st c.1 c.2).activities name
          = QHash.lookup st.activities name := adjustActivity_lookup_ne st c.2 hne
      have hval : QHash.value (adjustActivity st c.1 c.2).activities name
          = QHash.value st.activities name := by
        rw [QHash.value_eq_getD, QHash.value_eq_getD, hl]
      rw [if_neg hc, Int.zero_add]
      constructor
      · rintro ⟨c2, hc2, hname⟩
        rcases List.mem_cons.mp hc2 with h | h
        · rw [h] at hname; exact absurd hname hc
        · rw [(ih _).1 ⟨c2, h, hname⟩, hval]
      · intro h
        rw [(ih _).2 (fun c2 hc2 => h c2 (List.mem_cons_of_mem _ hc2)), hl]

/-- C11 (as stated) fails for a negative net delta on a snapshotted activity: after the
snapshot of the test store is built (`activity_1` at 4), `adjustActivity("activity_1", -1)`
leaves the live value 3 below the snapshotted 4 and the success outcome stops at the
reconciliation assertion instead of completing. -/
theorem C11_negative_delta_stops_reconciliation :
    ∃ s1 st, reportUsageData testStore testSystemInfo (fun _ => 5000) = .ok s1 ∧
      QHash.lookup s1.activitiesAdjustment "activity_1" = some 4 ∧
      QHash.lookup (adjustActivityCalls s1 [("activity_1", -1)]).activities "activity_1"
        = some 3 ∧
      jsonResponseWasReceived (adjustActivityCalls s1 [("activity_1", -1)]) 9000 9000
        = .error (AssertionFailure.reconciliationUnderflow, st) ∧
      QHash.lookup st.activities "activity_1" = some 3 := by
  refine ⟨_, _, rfl, ?_, ?_, rfl, ?_⟩ <;> decide

theorem toU64_of_nonneg_lt (z : Int) (h0 : 0 ≤ z) (hlt : z < 2 ^ 64) : toU64 z = z.toNat := by
  unfold toU64
  omega

/-- C11 (amended): activity adjustments made while a report is in flight survive its success
as long as no snapshotted accumulator ends below its snapshotted value.  For every enabled,
not-reporting store the snapshot is built; then, for any sequence of `adjustActivity` calls
with signed deltas whose net sum for every snapshotted activity is non-negative and does not
carry the accumulator past `2 ^ 64`, the success outcome completes without a failed assertion,
the resulting value of every activity name (0 for an absent key) is the net sum of the deltas
applied to it after the snapshot (taken modulo `2 ^ 64` for names outside the snapshot), and a
snapshotted key is removed exactly when its net sum is zero. -/
theorem C11_in_transit_activity_adjustments (s : UsageData) (info : SystemInfo)
    (clock : String → Int) (calls : List (String × Int)) (now nowSchedule : Int)
    (henabled : s.enabled = true) (hnot : isReporting s = false) :
    ∃ s1, reportUsageData s info clock = .ok s1 ∧
      ((∀ name v, QHash.lookup s1.activitiesAdjustment name = some v →
          0 ≤ netDelta name calls ∧ (v : Int) + netDelta name calls < 2 ^ 64) →
        ∃ s3, jsonResponseWasReceived (adjustActivityCalls s1 calls) now nowSchedule = .ok s3 ∧
          (∀ name, QHash.value s3.activities name = toU64 (netDelta name calls)) ∧
          (∀ name v, QHash.lookup s1.activitiesAdjustment name = some v →
            ((QHash.value s3.activities name : Nat) : Int) = netDelta name calls ∧
            (QHash.lookup s3.activities name = none ↔ netDelta name calls = 0))) := by
  obtain ⟨s1, hbuild, hev1, _, _, hsnapE, hsnapA⟩ :=
    reportUsageData_snapshot_spec s info clock henabled hnot
  refine ⟨s1, hbuild, ?_⟩
  intro hyp
  obtain ⟨A, hA⟩ := adjustActivityCalls_eq_with calls s1
  have hlook := adjustActivityCalls_lookup
  have hliveS : ∀ name v, QHash.lookup s1.activities name = some v →
      QHash.lookup (adjustActivityCalls s1 calls).activities name
        = some (v + (netDelta name calls).toNat) := by
    intro name v hl
    have hb := hyp name v (by rw [hsnapA name]; exact hl)
    by_cases ht : ∃ c ∈ calls, c.1 = name
    · rw [(hlook name calls s1).1 ht, QHash.value_of_lookup_some _ _ _ hl,
        toU64_of_nonneg_lt _ (by omega) hb.2]
      congr 1
      omega
    · have ht2 : ∀ c ∈ calls, c.1 ≠ name := fun c hc h => ht ⟨c, hc, h⟩
      rw [(hlook name calls s1).2 ht2, hl, netDelta_of_untouched name calls ht2]
      rfl
  have hliveN : ∀ name, QHash.lookup s1.activities name = none →
      QHash.value (adjustActivityCalls s1 calls).activities name
        = toU64 (netDelta name calls) := by
    intro name hl
    have h0 : QHash.value s1.activities name = 0 := by rw [QHash.value_eq_getD, hl]; rfl
    by_cases ht : ∃ c ∈ calls, c.1 = name
    · rw [QHash.value_of_lookup_some _ _ _ ((hlook name calls s1).1 ht), h0]
      congr 1
      omega
    · have ht2 : ∀ c ∈ calls, c.1 ≠ name := fun c hc h => ht ⟨c, hc, h⟩
      rw [QHash.value_eq_getD, (hlook name calls s1).2 ht2, hl,
        netDelta_of_untouched name calls ht2]
      rfl
  have hev : ∀ key adj, QHash.lookup (adjustActivityCalls s1 calls).eventsAdjustment key
      = some adj → adj ≤ QHash.value (adjustActivityCalls s1 calls).events key := by
    intro key adj hl
    rw [hA] at hl ⊢
    have hl2 : QHash.lookup s1.events key = some adj := by
      rw [hev1, ← hsnapE key]; exact hl
    show adj ≤ QHash.value s1.events key
    rw [QHash.value_of_lookup_some _ _ _ hl2]
  have hsnapA2 : ∀ key, QHash.lookup (adjustActivityCalls s1 calls).activitiesAdjustment key
      = QHash.lookup s1.activities key := by
    intro key
    rw [hA]
    exact hsnapA key
  have hact : ∀ key adj, QHash.lookup (adjustActivityCalls s1 calls).activitiesAdjustment key
      = some adj → adj ≤ QHash.value (adjustActivityCalls s1 calls).activities key := by
    intro key adj hl
    rw [hsnapA2 key] at hl
    rw [QHash.value_of_lookup_some _ _ _ (hliveS key adj hl)]
    omega
  obtain ⟨s2, E2, A2, hrun, hs2, _, hlookA⟩ :=
    adjustEventsAndActivities_spec (adjustActivityCalls s1 calls) hev hact
  obtain ⟨s3, hjson, _, hact3, _⟩ :=
    jsonResponseWasReceived_of_adjust (adjustActivityCalls s1 calls) s2 now nowSchedule hrun
  have hA3 : s3.activities = A2 := by rw [hact3, hs2]
  have hsnapped : ∀ name v, QHash.lookup s1.activities name = some v →
      QHash.lookup s3.activities name
        = if (netDelta name calls).toNat = 0 then none
          else some (netDelta name calls).toNat := by
    intro name v hl
    rw [hA3, hlookA name, hsnapA2 name, hl]
    show (if QHash.value (adjustActivityCalls s1 calls).activities name = v then none
      else some (QHash.value (adjustActivityCalls s1 calls).activities name - v)) = _
    rw [QHash.value_of_lookup_some _ _ _ (hliveS name v hl)]
    by_cases h0 : (netDelta name calls).toNat = 0
    · rw [if_pos (by omega), if_pos h0]
    · rw [if_neg (by omega), if_neg h0]
      congr 1
      omega
  refine ⟨s3, hjson, ?_, ?_⟩
  · intro name
    cases hl : QHash.lookup s1.activities name with
    | none =>
      rw [QHash.value_eq_getD, hA3, hlookA name, hsnapA2 name, hl]
      show (QHash.lookup (adjustActivityCalls s1 calls).activities name).getD default = _
      rw [← QHash.value_eq_getD]
      exact hliveN name hl
    | some v =>
      have hb := hyp name v (by rw [hsnapA name]; exact hl)
      rw [QHash.value_eq_getD, hsnapped name v hl, toU64_of_nonneg_lt _ hb.1 (by omega)]
      by_cases h0 : (netDelta name calls).toNat = 0
      · rw [if_pos h0, h0]; rfl
      · rw [if_neg h0]; rfl
  · intro name v hl
    have hb := hyp name v hl
    rw [hsnapA name] at hl
    rw [QHash.value_eq_getD, hsnapped name v hl]
    by_cases h0 : (netDelta name calls).toNat = 0
    · rw [if_pos h0]
      refine ⟨?_, ?_⟩
      · show ((0 : Nat) : Int) = _
        omega
      · constructor
        · intro _; omega
        · intro _; rfl
    · rw [if_neg h0]
      refine ⟨?_, ?_⟩
      · show (((netDelta name calls).toNat : Nat) : Int) = _
        omega
      · constructor
        · intro h; cases h
        · intro h; omega

theorem QHash.forall_lookup_of_forall_mem (snapshot : QHash Nat) (P : String → Nat → Prop)
    (h : ∀ it ∈ snapshot.entries, P it.1 it.2) :
    ∀ key v, QHash.lookup snapshot key = some v → P key v := by
  intro key v hl
  exact h ⟨key, v⟩ ((List.mem_dlookup_iff snapshot.nodupKeys).mp hl)

/-- On the test store: after the snapshot (`activity_1` at 4) the calls add 5 and then -2 to
`activity_1` and -1 to the new name `idle`; after the success outcome `activity_1` holds 3,
`activity_2` is removed, and `idle` holds -1 modulo `2 ^ 64`. -/
theorem C11_in_transit_activity_adjustments_witness :
    testStore.enabled = true ∧ isReporting testStore = false ∧
    ∃ s1 s3, reportUsageData testStore testSystemInfo (fun _ => 5000) = .ok s1 ∧
      jsonResponseWasReceived
        (adjustActivityCalls s1 [("activity_1", 5), ("activity_1", -2), ("idle", -1)])
        9000 9000 = .ok s3 ∧
      QHash.value s3.activities "activity_1" = 3 ∧
      QHash.lookup s3.activities "activity_2" = none ∧
      QHash.value s3.activities "idle" = 2 ^ 64 - 1 := by
  refine ⟨by decide, by decide, ?_⟩
  obtain ⟨s1, hb, hgen⟩ :=
    C11_in_transit_activity_adjustments testStore testSystemInfo (fun _ => 5000)
      [("activity_1", 5), ("activity_1", -2), ("idle", -1)] 9000 9000 (by decide) (by decide)
  have hs1 : s1 = Result.state (reportUsageData testStore testSystemInfo (fun _ => 5000)) := by
    rw [hb]; rfl
  have hyp : ∀ name v, QHash.lookup s1.activitiesAdjustment name = some v →
      0 ≤ netDelta name [("activity_1", 5), ("activity_1", -2), ("idle", -1)] ∧
      (v : Int) + netDelta name [("activity_1", 5), ("activity_1", -2), ("idle", -1)]
        < 2 ^ 64 := by
    rw [hs1]
    exact QHash.forall_lookup_of_forall_mem _
      (fun name v => 0 ≤ netDelta name [("activity_1", 5), ("activity_1", -2), ("idle", -1)] ∧
        (v : Int) + netDelta name [("activity_1", 5), ("activity_1", -2), ("idle", -1)]
          < 2 ^ 64) (by decide)
  obtain ⟨s3, hjson, hval, hsnap⟩ := hgen hyp
  refine ⟨s1, s3, hb, hjson, ?_, ?_, ?_⟩
  · rw [hval]; decide
  · have h2 : QHash.lookup s1.activitiesAdjustment "activity_2" = some 3 := by
      rw [hs1]; decide
    exact (hsnap "activity_2" 3 h2).2.mpr (by decide)
  · rw [hval]; decide

/-! ## C14: a failed delivery -/

theorem reportUsageData_activities_spec (s : UsageData) (info : SystemInfo)
    (clock : String → Int) (henabled : s.enabled = true) (hnot : isReporting s = false) :
    ∃ s1, reportUsageData s info clock = .ok s1 ∧
      s1.events = s.events ∧
      (∀ name start, QHash.lookup s.timers name = some start →
        QHash.lookup s1.activities name
          = some (toU64 ((QHash.value s.activities name : Nat)
              + start.secsTo (QDateTime.utc (clock name))))) ∧
      (∀ name, isTimerActive s name = false →
        QHash.lookup s1.activities name = QHash.lookup s.activities name) ∧
      (QHash.keys s.timers = [] → s1.activities = s.activities) := by
  have hkeys : ∀ k ∈ QHash.keys s.timers, QHash.contains s.timers k = true := by
    intro k hk
    obtain ⟨v, hv⟩ := (QHash.mem_keys_iff _ _).mp hk
    exact QHash.contains_of_lookup_some _ _ _ hv
  obtain ⟨s3, hcheck, _, hact, T, A, hframe⟩ :=
    checkpointTimers_spec clock (QHash.keys s.timers) (AList.keys_nodup _)
      { s with currentlyIsReporting := true
               emitted := s.emitted ++ [Signal.reportingStarted]
               eventsAdjustment := (snapshotLoop s.events).2 } hkeys
  obtain ⟨top, hrun, _⟩ := reportUsageData_of_checkpoint s s3 info clock henabled hnot hcheck
  refine ⟨_, hrun, ?_, ?_, ?_, ?_⟩
  · rw [hframe]
  · intro name start hl
    have hmem : name ∈ QHash.keys s.timers := (QHash.mem_keys_iff _ _).mpr ⟨start, hl⟩
    have h2 := hact name
    simp only [hmem, if_true] at h2
    rw [QHash.value_of_lookup_some _ _ _ hl] at h2
    exact h2
  · intro name hin
    have hnone : QHash.lookup s.timers name = none := QHash.lookup_of_contains_false _ _ hin
    have hmem : name ∉ QHash.keys s.timers := by
      rw [QHash.mem_keys_iff]; rintro ⟨v, hv⟩; rw [hnone] at hv; cases hv
    have h2 := hact name
    simp only [hmem, if_false] at h2
    exact h2
  · intro hempty
    rw [hempty] at hcheck
    have hs3 : s3 = { s with currentlyIsReporting := true
                             emitted := s.emitted ++ [Signal.reportingStarted]
                             eventsAdjustment := (snapshotLoop s.events).2 } := by
      have h : (Except.ok _ : Result) = Except.ok s3 := hcheck
      cases h
      rfl
    rw [hs3]

theorem adjustEvent_events_congr (st st2 : UsageData) (name : String) (k : Nat)
    (h : st.events = st2.events) :
    (adjustEvent st name k).events = (adjustEvent st2 name k).events := by
  unfold adjustEvent
  rw [h]
  by_cases hc : QHash.contains st2.events name = true <;> simp [hc]

theorem adjustActivity_activities_congr (st st2 : UsageData) (name : String) (delta : Int)
    (h : st.activities = st2.activities) :
    (adjustActivity st name delta).activities = (adjustActivity st2 name delta).activities := by
  unfold adjustActivity
  rw [h]
  by_cases hc : QHash.contains st2.activities name = true <;> simp [hc]

theorem applyAdjustments_congr (ops : List Adjustment) :
    ∀ st st2 : UsageData,
      (st.events = st2.events →
        (applyAdjustments st ops).events = (applyAdjustments st2 ops).events) ∧
      (st.activities = st2.activities →
        (applyAdjustments st ops).activities = (applyAdjustments st2 ops).activities) := by
  induction ops with
  | nil => intro st st2; exact ⟨fun h => h, fun h => h⟩
  | cons op rest ih =>
    intro st st2
    cases op with
    | event name amount =>
      have hunf : ∀ x : UsageData, applyAdjustments x (Adjustment.event name amount :: rest)
          = applyAdjustments (adjustEvent x name amount) rest := fun _ => rfl
      rw [hunf, hunf]
      refine ⟨fun h => (ih _ _).1 (adjustEvent_events_congr st st2 name amount h), fun h => ?_⟩
      apply (ih _ _).2
      rw [(adjustEvent_frame st name amount).1, (adjustEvent_frame st2 name amount).1, h]
    | activity name delta =>
      have hunf : ∀ x : UsageData, applyAdjustments x (Adjustment.activity name delta :: rest)
          = applyAdjustments (adjustActivity x name delta) rest := fun _ => rfl
      rw [hunf, hunf]
      refine ⟨fun h => ?_, fun h =>
        (ih _ _).2 (adjustActivity_activities_congr st st2 name delta h)⟩
      apply (ih _ _).1
      rw [(adjustActivity_frame st name delta).1, (adjustActivity_frame st2 name delta).1, h]

/-- C14 (as stated) fails for a store with running timers: the test store has no activity
`activity_1` before the snapshot is built, and after the build at 5000 ms followed by the
failure outcome, with no caller mutation in between, `activity_1` holds the 4 seconds that the
checkpoint of its running timer folded in. -/
theorem C14_checkpoint_changes_activities :
    ∃ s1, reportUsageData testStore testSystemInfo (fun _ => 5000) = .ok s1 ∧
      isTimerActive testStore "activity_1" = true ∧
      QHash.lookup testStore.activities "activity_1" = none ∧
      QHash.lookup (failed s1 1 9000 9000).activities "activity_1" = some 4 ∧
      QHash.lookup (failed s1 1 9000 9000).activities "activity_1"
        ≠ QHash.lookup testStore.activities "activity_1" := by
  refine ⟨_, rfl, ?_, ?_, ?_, ?_⟩ <;> decide

/-- C14 (amended): a failed delivery loses and duplicates nothing.  For every enabled,
not-reporting store the snapshot is built, leaving the events as they were and the activities
as they were except that the checkpoint of every running timer adds its elapsed seconds to its
activity (so the activities are exactly as before when no timer is running).  The failure
outcome then changes neither mapping: with no caller mutation in between, the events equal the
events before the build and the activities equal the checkpointed activities; with caller
adjustments in between, the events equal the events before the build with exactly those
adjustments applied, and the activities equal the checkpointed activities (the activities
before the build, when no timer is running) with exactly those adjustments applied. -/
theorem C14_failed_delivery_keeps_store (s : UsageData) (info : SystemInfo)
    (clock : String → Int) (henabled : s.enabled = true) (hnot : isReporting s = false) :
    ∃ s1, reportUsageData s info clock = .ok s1 ∧
      s1.events = s.events ∧
      (∀ name start, QHash.lookup s.timers name = some start →
        QHash.lookup s1.activities name
          = some (toU64 ((QHash.value s.activities name : Nat)
              + start.secsTo (QDateTime.utc (clock name))))) ∧
      (∀ name, isTimerActive s name = false →
        QHash.lookup s1.activities name = QHash.lookup s.activities name) ∧
      (QHash.keys s.timers = [] → s1.activities = s.activities) ∧
      (∀ code now nowSchedule : Int,
        (failed s1 code now nowSchedule).events = s.events ∧
        (failed s1 code now nowSchedule).activities = s1.activities) ∧
      (∀ (ops : List Adjustment) (code now nowSchedule : Int),
        (failed (applyAdjustments s1 ops) code now nowSchedule).events
          = (applyAdjustments s ops).events ∧
        (failed (applyAdjustments s1 ops) code now nowSchedule).activities
          = (applyAdjustments s1 ops).activities ∧
        (QHash.keys s.timers = [] →
          (failed (applyAdjustments s1 ops) code now nowSchedule).activities
            = (applyAdjustments s ops).activities)) := by
  obtain ⟨s1, hbuild, hev, hrunning, hidle, hnotimer⟩ :=
    reportUsageData_activities_spec s info clock henabled hnot
  refine ⟨s1, hbuild, hev, hrunning, hidle, hnotimer, ?_, ?_⟩
  · intro code now nowSchedule
    rw [failed_eq]
    exact ⟨hev, rfl⟩
  · intro ops code now nowSchedule
    rw [failed_eq]
    refine ⟨?_, rfl, ?_⟩
    · exact (applyAdjustments_congr ops s1 s).1 hev
    · intro hempty
      exact (applyAdjustments_congr ops s1 s).2 (hnotimer hempty)

/-- On the scenario store, which has no running timer: after the build, two adjustments and the
failure outcome, the store is the store before the build with those two adjustments. -/
theorem C14_failed_delivery_keeps_store_witness :
    scenarioStore.enabled = true ∧ isReporting scenarioStore = false ∧
    ∃ s1, reportUsageData scenarioStore testSystemInfo (fun _ => 1000) = .ok s1 ∧
      (failed s1 1 2000 2000).events = scenarioStore.events ∧
      (failed s1 1 2000 2000).activities = scenarioStore.activities ∧
      QHash.lookup (failed
          (applyAdjustments s1 [Adjustment.event "e1" 1, Adjustment.activity "a" 7])
          1 2000 2000).events "e1" = some 3 ∧
      QHash.lookup (failed
          (applyAdjustments s1 [Adjustment.event "e1" 1, Adjustment.activity "a" 7])
          1 2000 2000).activities "a" = some 7 := by
  refine ⟨by decide, by decide, ?_⟩
  obtain ⟨s1, hb, _, _, _, hnotimer, hplain, hops⟩ :=
    C14_failed_delivery_keeps_store scenarioStore testSystemInfo (fun _ => 1000)
      (by decide) (by decide)
  refine ⟨s1, hb, (hplain 1 2000 2000).1, ?_, ?_, ?_⟩
  · rw [(hplain 1 2000 2000).2]
    exact hnotimer (by decide)
  · rw [(hops _ 1 2000 2000).1]; decide
  · rw [(hops _ 1 2000 2000).2.2 (by decide)]; decide

/-! ## C28: initial state and constants -/

/-- C28: initial state and defaults.  An instance built by either constructor has reporting
disabled, no report in progress, `reportingSuccessful()` false and `interval()` equal to the
default reporting interval; the default interval is 7 days = 604800 s, the enable delay is
60 s and the retry period is 30 minutes = 1800 s, which is strictly shorter than the default
interval. -/
theorem C28_initial_state_and_defaults (settingsGroup destinationUrl : String) (secret : Nat) :
    reportingEnabled (configure destinationUrl secret) = false ∧
    reportingDisabled (configure destinationUrl secret) = true ∧
    isReporting (configure destinationUrl secret) = false ∧
    reportingSuccessful (configure destinationUrl secret) = false ∧
    interval (configure destinationUrl secret) = defaultReportingInterval ∧
    reportingEnabled (configureWithGroup settingsGroup destinationUrl secret) = false ∧
    isReporting (configureWithGroup settingsGroup destinationUrl secret) = false ∧
    reportingSuccessful (configureWithGroup settingsGroup destinationUrl secret) = false ∧
    interval (configureWithGroup settingsGroup destinationUrl secret)
      = defaultReportingInterval ∧
    defaultReportingInterval = 604800 ∧
    defaultReportingInterval = 7 * 86400 ∧
    enableReportDelay = 60 ∧
    reportRetrialPeriod = 1800 ∧
    reportRetrialPeriod = 30 * 60 ∧
    reportRetrialPeriod < defaultReportingInterval :=
  ⟨rfl, rfl, rfl, rfl, rfl, rfl, rfl, rfl, rfl, rfl, rfl, rfl, rfl, rfl, by decide⟩

/-! ## C30: the report that is built -/

theorem reportUsageData_shape (s : UsageData) (info : SystemInfo) (clock : String → Int)
    (henabled : s.enabled = true) (hnot : isReporting s = false) :
    ∃ (T : QHash QDateTime) (A AA : QHash Nat) (top : Payload),
      reportUsageData s info clock
        = .ok { s with
                currentlyIsReporting := true
                emitted := s.emitted ++ [Signal.reportingStarted]
                eventsAdjustment := (snapshotLoop s.events).2
                timers := T
                activities := A
                activitiesAdjustment := AA
                sent := s.sent ++ [(s.currentDestinationUrl, top)] } ∧
      top.secret_id_low = toDouble (s.secret % 2 ^ 32) ∧
      top.secret_id_high = toDouble ((s.secret / 2 ^ 32) % 2 ^ 32) := by
  have hkeys : ∀ k ∈ QHash.keys s.timers, QHash.contains s.timers k = true := by
    intro k hk
    obtain ⟨v, hv⟩ := (QHash.mem_keys_iff _ _).mp hk
    exact QHash.contains_of_lookup_some _ _ _ hv
  obtain ⟨s3, hcheck, _, _, T, A, hframe⟩ :=
    checkpointTimers_spec clock (QHash.keys s.timers) (AList.keys_nodup _)
      { s with currentlyIsReporting := true
               emitted := s.emitted ++ [Signal.reportingStarted]
               eventsAdjustment := (snapshotLoop s.events).2 } hkeys
  obtain ⟨top, hrun, _, _, hlow, hhigh, _⟩ :=
    reportUsageData_of_checkpoint s s3 info clock henabled hnot hcheck
  refine ⟨T, A, (snapshotLoop s3.activities).2, top, ?_, ?_, ?_⟩
  · rw [hrun, hframe]
  · rw [hlow, hframe]
  · rw [hhigh, hframe]

theorem reportUsageData_of_disabled (s : UsageData) (info : SystemInfo) (clock : String → Int)
    (hdis : s.enabled = false) :
    reportUsageData s info clock = .error (AssertionFailure.reportingNotEnabled, s) := by
  unfold reportUsageData
  simp [hdis]

theorem reportUsageData_of_reporting (s : UsageData) (info : SystemInfo)
    (clock : String → Int) (hen : s.enabled = true) (hrep : isReporting s = true) :
    reportUsageData s info clock = .error (AssertionFailure.reportAlreadyInProgress, s) := by
  unfold isReporting at hrep
  unfold reportUsageData isNotReporting
  simp [hen, hrep]

/-- C30: secret split in the payload.  For every enabled, not-reporting state whose user secret
`s` is a 64-bit value, `reportUsageData` sends a payload whose `secret_id_low` is `s mod 2 ^ 32`
and whose `secret_id_high` is `s / 2 ^ 32` (rounded down); both are below `2 ^ 32`, and
`secret_id_high * 2 ^ 32 + secret_id_low = s`. -/
theorem C30_secret_split (s : UsageData) (info : SystemInfo) (clock : String → Int)
    (hsecret : userSecret s < 2 ^ 64) (henabled : reportingEnabled s = true)
    (hnot : isReporting s = false) :
    ∃ s1 top, reportUsageData s info clock = .ok s1 ∧
      s1.sent = s.sent ++ [(s.currentDestinationUrl, top)] ∧
      top.secret_id_low = userSecret s % 2 ^ 32 ∧
      top.secret_id_high = userSecret s / 2 ^ 32 ∧
      top.secret_id_low < 2 ^ 32 ∧
      top.secret_id_high < 2 ^ 32 ∧
      top.secret_id_high * 2 ^ 32 + top.secret_id_low = userSecret s := by
  obtain ⟨T, A, AA, top, hrun, hlow, hhigh⟩ := reportUsageData_shape s info clock henabled hnot
  unfold userSecret at hsecret ⊢
  have h1 : s.secret % 2 ^ 32 < 2 ^ 32 := Nat.mod_lt _ (by norm_num)
  have h2 : s.secret / 2 ^ 32 < 2 ^ 32 := by omega
  have h3 : s.secret / 2 ^ 32 % 2 ^ 32 = s.secret / 2 ^ 32 := Nat.mod_eq_of_lt h2
  have hlow2 : top.secret_id_low = s.secret % 2 ^ 32 := by
    rw [hlow]
    exact toDouble_of_lt _ (by omega)
  have hhigh2 : top.secret_id_high = s.secret / 2 ^ 32 := by
    rw [hhigh, h3]
    exact toDouble_of_lt _ (by omega)
  refine ⟨_, top, hrun, rfl, hlow2, hhigh2, ?_, ?_, ?_⟩
  · rw [hlow2]; exact h1
  · rw [hhigh2]; exact h2
  · rw [hlow2, hhigh2]; omega

/-- Witness of C30 on the test store with the secret `2 ^ 64 - 1`. -/
theorem C30_secret_split_witness :
    ∃ s1 top, reportUsageData { testStore with secret := 2 ^ 64 - 1 } testSystemInfo
        (fun _ => 2000) = .ok s1 ∧
      s1.sent = testStore.sent ++ [(testStore.currentDestinationUrl, top)] ∧
      top.secret_id_low = (2 ^ 64 - 1) % 2 ^ 32 ∧
      top.secret_id_high = (2 ^ 64 - 1) / 2 ^ 32 ∧
      top.secret_id_low < 2 ^ 32 ∧
      top.secret_id_high < 2 ^ 32 ∧
      top.secret_id_high * 2 ^ 32 + top.secret_id_low = 2 ^ 64 - 1 :=
  C30_secret_split { testStore with secret := 2 ^ 64 - 1 } testSystemInfo (fun _ => 2000)
    (by decide) rfl rfl

/-! ## Lemmas on QSettings, loadSettings and saveSettings -/

theorem QSettings.lookup_setValue_self (q : QSettings) (key : String) (v : QVariant) :
    (q.setValue key v).lookup q.group key = some v := by
  unfold QSettings.setValue QSettings.lookup
  exact AList.lookup_insert _

theorem QSettings.value_eq_lookup (q : QSettings) (key : String) (d : QVariant) :
    q.value key d = (q.lookup q.group key).getD d := rfl

theorem QSettings.contains_eq_lookup (q : QSettings) (key : String) :
    q.contains key = (q.lookup q.group key).isSome := rfl

theorem foldl_loadSettingsStep_shape (q : QSettings) :
    ∀ (keys : List String) (st : UsageData),
      ∃ E, keys.foldl (loadSettingsStep q) st = { st with events := E } := by
  intro keys
  induction keys with
  | nil => exact fun st => ⟨st.events, rfl⟩
  | cons k rest ih =>
    intro st
    obtain ⟨E, hE⟩ := ih (loadSettingsStep q st k)
    exact ⟨E, by rw [List.foldl_cons, hE]; rfl⟩

theorem loadSettingsSecret_shape (s : UsageData) (q : QSettings) (random64 : Nat) :
    loadSettingsSecret s q random64
      = ({ s with secret := ((q.lookup q.group "secret").map QVariant.toULongLong).getD
                    (random64 % 2 ^ 64) },
         { values := if (q.lookup q.group "secret").isSome then q.values
                     else AList.insert (q.group, "secret")
                       (QVariant.uLongLong (random64 % 2 ^ 64)) q.values
           group := q.group }) := by
  unfold loadSettingsSecret
  rw [QSettings.contains_eq_lookup, QSettings.value_eq_lookup]
  cases h : q.lookup q.group "secret" with
  | none => rfl
  | some v => rfl

theorem loadSettingsTimestamps_shape (s : UsageData) (q : QSettings) (nowFirst now : Int) :
    loadSettingsTimestamps s q nowFirst now
      = { s with
          lastOperation := ((q.lookup q.group "last_operation").map QVariant.toDateTime).getD
            (QDateTime.utc now)
          nextOperation := ((q.lookup q.group "next_operation").map QVariant.toDateTime).getD
            ((QDateTime.utc now).addSecs (toInt64 s.reportInterval)) } := by
  unfold loadSettingsTimestamps
  simp only [QSettings.value_eq_lookup]
  cases h1 : q.lookup q.group "last_operation" <;>
    cases h2 : q.lookup q.group "next_operation" <;> rfl

theorem loadSettingsMappings_shape (s : UsageData) (q : QSettings) :
    ∃ E : QHash Nat,
      loadSettingsMappings s q = ({ s with events := E, activities := ∅ }, q) := by
  unfold loadSettingsMappings
  dsimp only
  obtain ⟨E1, h1⟩ := foldl_loadSettingsStep_shape (q.beginGroup "events")
    (q.beginGroup "events").allKeys { s with events := QHash.clear s.events }
  rw [h1]
  have hq : (q.beginGroup "events").endGroup = q := by
    unfold QSettings.beginGroup QSettings.endGroup
    simp
  rw [hq]
  obtain ⟨E2, h2⟩ := foldl_loadSettingsStep_shape (q.beginGroup "activities")
    (q.beginGroup "activities").allKeys
    { s with events := E1, activities := QHash.clear s.activities }
  have hq2 : (q.beginGroup "activities").endGroup = q := by
    unfold QSettings.beginGroup QSettings.endGroup
    simp
  rw [hq2]
  refine ⟨E2, ?_⟩
  show (List.foldl _ { s with events := E1, activities := QHash.clear s.activities } _, q) = _
  rw [h2]
  rfl

theorem loadSettingsMappings_eq (s : UsageData) (q : QSettings) :
    loadSettingsMappings s q
      = ({ s with events := (loadSettingsMappings s q).1.events, activities := ∅ }, q) := by
  obtain ⟨E, h⟩ := loadSettingsMappings_shape s q
  rw [h]

theorem loadSettings_shape (s : UsageData) (settings : QSettings) (random64 : Nat)
    (nowFirst now nowSchedule : Int) :
    ∃ E : QHash Nat,
      loadSettings s settings random64 nowFirst now nowSchedule
        = ({ s with
             enabled := persistedEnabled s settings
             secret := (persistedSecret s settings).getD (random64 % 2 ^ 64)
             lastOperation := (persistedTimestamp s settings "last_operation").getD
               (QDateTime.utc now)
             nextOperation := (persistedTimestamp s settings "next_operation").getD
               ((QDateTime.utc now).addSecs (toInt64 s.reportInterval))
             events := E
             activities := ∅
             timer := if persistedEnabled s settings then
                        some (timerInterval
                          ((persistedTimestamp s settings "next_operation").getD
                            ((QDateTime.utc now).addSecs (toInt64 s.reportInterval)))
                          nowSchedule)
                      else none },
           { values := if (persistedSecret s settings).isSome then settings.values
                       else AList.insert (settingsPath s settings, "secret")
                         (QVariant.uLongLong (random64 % 2 ^ 64)) settings.values
             group := settings.group }) := by
  have hlook : ∀ key : String, key ≠ "secret" →
      QSettings.lookup
        { values := if (QSettings.lookup (settings.beginGroup s.currentSettingsGroup)
                        (settings.beginGroup s.currentSettingsGroup).group "secret").isSome
                    then (settings.beginGroup s.currentSettingsGroup).values
                    else AList.insert
                      ((settings.beginGroup s.currentSettingsGroup).group, "secret")
                      (QVariant.uLongLong (random64 % 2 ^ 64))
                      (settings.beginGroup s.currentSettingsGroup).values
          group := (settings.beginGroup s.currentSettingsGroup).group }
        (settings.beginGroup s.currentSettingsGroup).group key
      = settings.lookup (settingsPath s settings) key := by
    intro key hne
    cases h : (QSettings.lookup (settings.beginGroup s.currentSettingsGroup)
        (settings.beginGroup s.currentSettingsGroup).group "secret").isSome
    · simp only [Bool.false_eq_true, if_false]
      unfold QSettings.lookup
      exact AList.lookup_insert_ne (fun h2 => hne (Prod.mk.inj h2).2)
    · rfl
  have hend : ∀ (V : AList (fun _ : List String × String => QVariant)),
      QSettings.endGroup { values := V, group := (settings.beginGroup s.currentSettingsGroup).group }
        = { values := V, group := settings.group } := by
    intro V
    unfold QSettings.endGroup QSettings.beginGroup
    simp
  unfold loadSettings
  dsimp only
  rw [loadSettingsSecret_shape]
  dsimp only
  rw [loadSettingsTimestamps_shape, loadSettingsMappings_eq]
  dsimp only
  rw [hlook "last_operation" (by decide), hlook "next_operation" (by decide), hend]
  have hen : ((settings.beginGroup s.currentSettingsGroup).value "enabled"
      QVariant.invalid).toBool = persistedEnabled s settings := rfl
  have hsome : (persistedSecret s settings).isSome
      = (QSettings.lookup (settings.beginGroup s.currentSettingsGroup)
          (settings.beginGroup s.currentSettingsGroup).group "secret").isSome := by
    unfold persistedSecret
    show (Option.map _ (settings.lookup (settingsPath s settings) "secret")).isSome
      = (settings.lookup (settingsPath s settings) "secret").isSome
    cases settings.lookup (settingsPath s settings) "secret" <;> rfl
  rw [hen, hsome]
  cases he : persistedEnabled s settings
  · simp only [Bool.false_eq_true, if_false]
    exact ⟨_, rfl⟩
  · simp only [if_true]
    exact ⟨_, rfl⟩

/-- C24: evaluation of `loadSettings` on a settings object whose `events` group holds
`test_event_1 ↦ 2` and whose `activities` group holds `activity_1 ↦ 4`.  After the load the
activities mapping is empty, and `activity_1 ↦ 4` is in the events mapping, where the persisted
`events` group has no such key: the second loop of `loadSettings` inserts into `events`. -/
theorem C24_activities_are_loaded_into_events :
    persistedCounter (configure "u" 0) persistedStore "events" "test_event_1" = some 2 ∧
    persistedCounter (configure "u" 0) persistedStore "events" "activity_1" = none ∧
    persistedCounter (configure "u" 0) persistedStore "activities" "activity_1" = some 4 ∧
    QHash.lookup (loadSettings (configure "u" 0) persistedStore 9 10 10 10).1.events
      "test_event_1" = some 2 ∧
    QHash.lookup (loadSettings (configure "u" 0) persistedStore 9 10 10 10).1.events
      "activity_1" = some 4 ∧
    QHash.lookup (loadSettings (configure "u" 0) persistedStore 9 10 10 10).1.activities
      "activity_1" = none := by
  refine ⟨?_, ?_, ?_, ?_, ?_, ?_⟩ <;> decide

/-- C25: evaluation of `saveSettings` after a report.  The test store is saved, its report is
built and succeeds, so that `test_event_1` is no longer in memory; `saveSettings` on the same
settings then leaves `test_event_1 ↦ 2` in the persisted `events` group, and the following
`loadSettings` brings the reported count back into the events mapping. -/
theorem C25_save_keeps_removed_counter :
    persistedCounter testStore savedTestSettings "events" "test_event_1" = some 2 ∧
    QHash.lookup reportedStore.events "test_event_1" = none ∧
    persistedCounter reportedStore (saveSettings reportedStore savedTestSettings) "events"
      "test_event_1" = some 2 ∧
    QHash.lookup
      (loadSettings reportedStore (saveSettings reportedStore savedTestSettings)
        9 3000 3000 3000).1.events "test_event_1" = some 2 := by
  refine ⟨?_, ?_, ?_, ?_⟩ <;> decide

/-- C26: evaluation of `saveSettings` followed by `loadSettings` on the test store, whose report
window runs from 0 ms to 1000 ms.  `saveSettings` writes the timestamps under `lastOperation`
and `nextOperation` and nothing under `last_operation` and `next_operation`, the keys that
`loadSettings` reads; the load at 5000 ms therefore sets the window to its defaults, 5000 ms and
6000 ms. -/
theorem C26_saved_window_is_not_restored :
    lastReportTime testStore = QDateTime.utc 0 ∧
    nextReportTime testStore = QDateTime.utc 1000 ∧
    persistedTimestamp testStore savedTestSettings "lastOperation" = some (QDateTime.utc 0) ∧
    persistedTimestamp testStore savedTestSettings "nextOperation" = some (QDateTime.utc 1000) ∧
    persistedTimestamp testStore savedTestSettings "last_operation" = none ∧
    persistedTimestamp testStore savedTestSettings "next_operation" = none ∧
    lastReportTime (loadSettings testStore savedTestSettings 9 5000 5000 5000).1
      = QDateTime.utc 5000 ∧
    nextReportTime (loadSettings testStore savedTestSettings 9 5000 5000 5000).1
      = QDateTime.utc 6000 := by
  refine ⟨?_, ?_, ?_, ?_, ?_, ?_, ?_, ?_⟩ <;> decide

/-! ## C27: the scheduler state after loadSettings -/

/-- C27 (as stated) fails for the default `nextOperation` and for the timer.  On a new instance
after `setInterval(2 ^ 64 - 1)`, `loadSettings` at 5000 ms from settings without timestamps sets
`lastOperation` to 5000 ms, but `addSecs` receives -1, so `nextOperation` becomes 4000 ms, one
second before `now`; after `setInterval(2 ^ 62)`, whose milliseconds do not fit a `qint64`,
`addSecs` yields no valid time (as Qt 6 defines it) and `nextOperation` is left null.  With reporting persisted as
enabled and an interval of 30 days, `nextOperation` is `now` plus the interval but the timer
receives a negative number, the product wrapped to 32 bits; and with a persisted
`next_operation` of 0 ms loaded at 5000 ms the timer receives -5000. -/
theorem C27_default_and_timer_out_of_range :
    interval maxIntervalInstance = 2 ^ 64 - 1 ∧
    persistedTimestamp maxIntervalInstance emptySettings "next_operation" = none ∧
    lastReportTime (loadSettings maxIntervalInstance emptySettings 9 5000 5000 5000).1
      = QDateTime.utc 5000 ∧
    nextReportTime (loadSettings maxIntervalInstance emptySettings 9 5000 5000 5000).1
      = QDateTime.utc 4000 ∧
    nextReportTime (loadSettings maxIntervalInstance emptySettings 9 5000 5000 5000).1
      ≠ QDateTime.utc (5000 + 1000 * (2 ^ 64 - 1)) ∧
    interval (setInterval (configure "u" 7) (2 ^ 62) 0 0) = 2 ^ 62 ∧
    nextReportTime
        (loadSettings (setInterval (configure "u" 7) (2 ^ 62) 0 0) emptySettings 9
          5000 5000 5000).1
      = QDateTime.null ∧
    reportingEnabled
        (loadSettings (setInterval (configure "u" 7) 2592000 0 0) enabledSettings 9
          5000 5000 5000).1
      = true ∧
    nextReportTime
        (loadSettings (setInterval (configure "u" 7) 2592000 0 0) enabledSettings 9
          5000 5000 5000).1
      = QDateTime.utc (5000 + 1000 * 2592000) ∧
    (loadSettings (setInterval (configure "u" 7) 2592000 0 0) enabledSettings 9
        5000 5000 5000).1.timer
      = some (-1702967296) ∧
    reportingEnabled (loadSettings (configure "u" 7) overdueSettings 9 5000 5000 5000).1
      = true ∧
    nextReportTime (loadSettings (configure "u" 7) overdueSettings 9 5000 5000 5000).1
      = QDateTime.utc 0 ∧
    (loadSettings (configure "u" 7) overdueSettings 9 5000 5000 5000).1.timer
      = some (-5000) := by
  refine ⟨?_, ?_, ?_, ?_, ?_, ?_, ?_, ?_, ?_, ?_, ?_, ?_, ?_⟩ <;> decide

/-- C27 (amended): scheduler state after load.  For every state and every settings object, after
`loadSettings` at `now`: `reportingEnabled()` is the persisted `enabled` value (false when
absent); `lastOperation` and `nextOperation` are the timestamps persisted under `last_operation`
and `next_operation`, and `now` and `now.addSecs(interval)` where the key is absent, the latter
being `now` plus the interval when `1000 * interval` and `now` + `1000 * interval` milliseconds
fit a `qint64`; when reporting is enabled `scheduleReport` is called for `nextOperation`, which
arms the timer with exactly `1000 * d` milliseconds when the whole seconds `d` from the time
read by `scheduleReport` to `nextOperation` satisfy `0 ≤ d` and `1000 * d ≤ 2 ^ 31 - 1`; when
reporting is not enabled the timer is stopped; the interval is unchanged. -/
theorem C27_scheduler_state_after_load (s : UsageData) (settings : QSettings) (random64 : Nat)
    (nowFirst now nowSchedule : Int) :
    reportingEnabled (loadSettings s settings random64 nowFirst now nowSchedule).1
      = persistedEnabled s settings ∧
    (settings.lookup (settingsPath s settings) "enabled" = none →
      reportingEnabled (loadSettings s settings random64 nowFirst now nowSchedule).1 = false) ∧
    lastReportTime (loadSettings s settings random64 nowFirst now nowSchedule).1
      = (persistedTimestamp s settings "last_operation").getD (QDateTime.utc now) ∧
    nextReportTime (loadSettings s settings random64 nowFirst now nowSchedule).1
      = (persistedTimestamp s settings "next_operation").getD
          ((QDateTime.utc now).addSecs (toInt64 (interval s))) ∧
    (fitsInt64 (1000 * (interval s : Int)) = true →
      fitsInt64 (now + 1000 * (interval s : Int)) = true →
      nextReportTime (loadSettings s settings random64 nowFirst now nowSchedule).1
        = (persistedTimestamp s settings "next_operation").getD
            (QDateTime.utc (now + 1000 * (interval s : Int)))) ∧
    (loadSettings s settings random64 nowFirst now nowSchedule).1.timer
      = (if reportingEnabled (loadSettings s settings random64 nowFirst now nowSchedule).1 then
           some (timerInterval
             (nextReportTime (loadSettings s settings random64 nowFirst now nowSchedule).1)
             nowSchedule)
         else none) ∧
    (reportingEnabled (loadSettings s settings random64 nowFirst now nowSchedule).1 = true →
      ∀ d : Int,
        d = (QDateTime.utc nowSchedule).secsTo
          (nextReportTime (loadSettings s settings random64 nowFirst now nowSchedule).1) →
        0 ≤ d → 1000 * d ≤ 2 ^ 31 - 1 →
        (loadSettings s settings random64 nowFirst now nowSchedule).1.timer
          = some (1000 * d)) ∧
    (reportingEnabled (loadSettings s settings random64 nowFirst now nowSchedule).1 = false →
      (loadSettings s settings random64 nowFirst now nowSchedule).1.timer = none) ∧
    interval (loadSettings s settings random64 nowFirst now nowSchedule).1 = interval s := by
  obtain ⟨E, hE⟩ := loadSettings_shape s settings random64 nowFirst now nowSchedule
  rw [hE]
  unfold reportingEnabled lastReportTime nextReportTime
  dsimp only
  refine ⟨rfl, ?_, rfl, rfl, ?_, rfl, ?_, ?_, rfl⟩
  · intro hnone
    unfold persistedEnabled
    rw [hnone]
    rfl
  · intro hint _
    unfold interval at hint ⊢
    rw [toInt64_of_fits _ hint, QDateTime.addSecs_utc_of_fits now _ hint]
  · intro hen d hd h0 hfit
    rw [hen, if_pos rfl]
    rw [hd] at h0 hfit
    rw [timerInterval_of_fit _ nowSchedule h0 hfit, hd]
  · intro hen
    rw [hen]
    rfl

/-- The test store (interval 1 s) with the settings saved from it: the `enabled` flag is
persisted as true, no timestamp is persisted under the keys read, and the load at 5000 ms sets
`nextOperation` to 6000 ms and arms the timer with 1000 ms. -/
theorem C27_scheduler_state_after_load_witness :
    fitsInt64 (1000 * (interval testStore : Int)) = true ∧
    fitsInt64 (5000 + 1000 * (interval testStore : Int)) = true ∧
    reportingEnabled (loadSettings testStore savedTestSettings 9 5000 5000 5000).1 = true ∧
    nextReportTime (loadSettings testStore savedTestSettings 9 5000 5000 5000).1
      = QDateTime.utc 6000 ∧
    (1 : Int) = (QDateTime.utc 5000).secsTo
      (nextReportTime (loadSettings testStore savedTestSettings 9 5000 5000 5000).1) ∧
    (loadSettings testStore savedTestSettings 9 5000 5000 5000).1.timer = some (1000 * 1) :=
  ⟨by decide, by decide,
   (C27_scheduler_state_after_load testStore savedTestSettings 9 5000 5000 5000).1.trans
     (by decide),
   ((C27_scheduler_state_after_load testStore savedTestSettings 9 5000 5000 5000).2.2.2.2.1
     (by decide) (by decide)).trans (by decide),
   by decide,
   (C27_scheduler_state_after_load testStore savedTestSettings 9 5000 5000 5000).2.2.2.2.2.2.1
     (by decide) 1 (by decide) (by decide) (by decide)⟩

/-! ## Lemmas on executions -/

theorem execute_invariant (guard : Operation → System → Bool) (P : System → Prop)
    (hstep : ∀ op sys, P sys → guard op sys = true → P (endState (applyOperation op sys))) :
    ∀ (ops : List Operation) (sys : System), P sys → guarded guard ops sys = true →
      P (endState (execute ops sys)) := by
  intro ops
  induction ops with
  | nil => exact fun sys h _ => h
  | cons op rest ih =>
    intro sys hP hg
    unfold guarded at hg
    rw [Bool.and_eq_true] at hg
    have hnext := hstep op sys hP hg.1
    unfold execute
    cases h : applyOperation op sys with
    | error e =>
      rw [h] at hnext
      exact hnext
    | ok sys2 =>
      rw [h] at hnext
      have hg2 := hg.2
      rw [h] at hg2
      exact ih sys2 hnext hg2

theorem endState_withSettings (q : QSettings) (r : Result) :
    endState (withSettings q r) = { usageData := Result.state r, settings := q } := by
  cases r with
  | ok s => rfl
  | error e => rfl

theorem startTimer_shape (s : UsageData) (name : String) (now : Int) :
    ∃ T, Result.state (startTimer s name now) = { s with timers := T } := by
  unfold startTimer
  cases h : QHash.contains s.timers name
  · exact ⟨_, rfl⟩
  · exact ⟨s.timers, rfl⟩

theorem stopTimer_shape (s : UsageData) (name : String) (doStop : Bool) (now : Int) :
    ∃ T A, Result.state (stopTimer s name doStop now) = { s with timers := T, activities := A } := by
  cases h : QHash.contains s.timers name
  · refine ⟨s.timers, s.activities, ?_⟩
    unfold stopTimer
    simp [h, Result.state]
  · have hl := QHash.lookup_of_contains _ _ h
    rw [stopTimer_of_running s name doStop now _ hl, adjustActivity_eq_with]
    exact ⟨_, _, rfl⟩

theorem foldl_adjustActivity_shape (f : (_ : String) × QDateTime → Int) :
    ∀ (L : List ((_ : String) × QDateTime)) (st : UsageData),
      ∃ A, L.foldl (fun st it => adjustActivity st it.1 (f it)) st
        = { st with activities := A } := by
  intro L
  induction L with
  | nil => exact fun st => ⟨st.activities, rfl⟩
  | cons it rest ih =>
    intro st
    obtain ⟨A, hA⟩ := ih (adjustActivity st it.1 (f it))
    refine ⟨A, ?_⟩
    rw [List.foldl_cons, hA, adjustActivity_eq_with]

theorem stopTimers_shape (s : UsageData) (now : Int) :
    ∃ T A, stopTimers s now = { s with timers := T, activities := A } := by
  unfold stopTimers
  dsimp only
  obtain ⟨A, hA⟩ := foldl_adjustActivity_shape
    (fun it => QDateTime.secsTo it.2 (QDateTime.utc now)) s.timers.entries s
  rw [hA]
  exact ⟨_, _, rfl⟩

theorem reportUsageData_state (s : UsageData) (info : SystemInfo) (clock : String → Int) :
    Result.state (reportUsageData s info clock) = s ∨
    (s.enabled = true ∧ s.currentlyIsReporting = false ∧
      ∃ (T : QHash QDateTime) (A AA : QHash Nat) (top : Payload),
        Result.state (reportUsageData s info clock)
          = { s with
              currentlyIsReporting := true
              emitted := s.emitted ++ [Signal.reportingStarted]
              eventsAdjustment := (snapshotLoop s.events).2
              timers := T
              activities := A
              activitiesAdjustment := AA
              sent := s.sent ++ [(s.currentDestinationUrl, top)] }) := by
  rcases Bool.eq_false_or_eq_true s.enabled with he | he
  · rcases Bool.eq_false_or_eq_true s.currentlyIsReporting with hr | hr
    · left
      rw [reportUsageData_of_reporting s info clock he hr]
      rfl
    · right
      obtain ⟨T, A, AA, top, hshape, _⟩ := reportUsageData_shape s info clock he hr
      refine ⟨he, hr, T, A, AA, top, ?_⟩
      rw [hshape]
      rfl
  · left
    rw [reportUsageData_of_disabled s info clock he]
    rfl

theorem timerExpired_state (s : UsageData) (info : SystemInfo) (clock : String → Int) :
    Result.state (timerExpired s info clock) = { s with timer := none } ∨
    (s.enabled = true ∧ s.currentlyIsReporting = false ∧
      ∃ (T : QHash QDateTime) (A AA : QHash Nat) (top : Payload),
        Result.state (timerExpired s info clock)
          = { s with
              timer := none
              currentlyIsReporting := true
              emitted := s.emitted ++ [Signal.reportingStarted]
              eventsAdjustment := (snapshotLoop s.events).2
              timers := T
              activities := A
              activitiesAdjustment := AA
              sent := s.sent ++ [(s.currentDestinationUrl, top)] }) := by
  unfold timerExpired
  rcases reportUsageData_state { s with timer := none } info clock with h | ⟨he, hr, T, A, AA, top, h⟩
  · exact Or.inl h
  · exact Or.inr ⟨he, hr, T, A, AA, top, h⟩

theorem jsonResponseWasReceived_state (s : UsageData) (now nowSchedule : Int) :
    ∃ E A : QHash Nat,
      Result.state (jsonResponseWasReceived s now nowSchedule)
        = { s with events := E, activities := A } ∨
      Result.state (jsonResponseWasReceived s now nowSchedule)
        = { s with
            events := E
            activities := A
            eventsAdjustment := ∅
            activitiesAdjustment := ∅
            lastOperation := s.nextOperation
            nextOperation := (QDateTime.utc now).addSecs (toInt64 s.reportInterval)
            lastReportSuccessful := true
            timer := if s.enabled then
                       some (timerInterval
                         ((QDateTime.utc now).addSecs (toInt64 s.reportInterval)) nowSchedule)
                     else s.timer
            emitted := s.emitted ++ [Signal.reportingFinished true]
            currentlyIsReporting := false } := by
  obtain ⟨E, A, _, _, hcase⟩ := adjustEventsAndActivities_total s
  refine ⟨E, A, ?_⟩
  rw [jsonResponseWasReceived_eq]
  rcases hcase with ⟨_, _, hok⟩ | ⟨_, herr⟩
  · right
    rw [hok]
    rfl
  · left
    rw [herr]
    rfl

theorem setReportingEnabled_same_eq (s : UsageData) (b : Bool) (now nowSchedule : Int)
    (h : s.enabled = b) : setReportingEnabled s b now nowSchedule = s := by
  unfold setReportingEnabled
  cases b <;> simp [h]
  · rw [← h]
  · rw [← h]

theorem setReportingEnabled_shape (s : UsageData) (b : Bool) (now nowSchedule : Int) :
    ∃ N t, setReportingEnabled s b now nowSchedule
        = { s with nextOperation := N, timer := t, enabled := b } ∧
      (N = s.nextOperation ∨
        N = QDateTime.max s.nextOperation (QDateTime.utc (now + 1000 * 60))) := by
  rcases Bool.eq_false_or_eq_true s.enabled with he | he <;> cases b
  · exact ⟨s.nextOperation, none, setReportingEnabled_disable_eq s now nowSchedule he,
      Or.inl rfl⟩
  · exact ⟨s.nextOperation, s.timer, by
      rw [setReportingEnabled_same_eq s true now nowSchedule he]
      exact congrArg (fun b => { s with enabled := b }) he, Or.inl rfl⟩
  · exact ⟨s.nextOperation, s.timer, by
      rw [setReportingEnabled_same_eq s false now nowSchedule he]
      exact congrArg (fun b => { s with enabled := b }) he, Or.inl rfl⟩
  · exact ⟨_, _, setReportingEnabled_enable_eq s now nowSchedule he, Or.inr rfl⟩

theorem setInterval_shape (s : UsageData) (n : Nat) (now nowSchedule : Int) :
    ∃ N t, setInterval s n now nowSchedule
        = { s with reportInterval := n, nextOperation := N, timer := t } ∧
      (N = s.nextOperation ∨
        N = QDateTime.max (s.lastOperation.addSecs (toInt64 n))
              (QDateTime.utc (now + 1000 * 60))) := by
  rcases Bool.eq_false_or_eq_true s.enabled with he | he
  · rcases Bool.eq_false_or_eq_true s.currentlyIsReporting with hr | hr
    · exact ⟨s.nextOperation, s.timer,
        setInterval_other_eq s n now nowSchedule (Or.inr hr), Or.inl rfl⟩
    · exact ⟨_, _, setInterval_idle_eq s n now nowSchedule he hr, Or.inr rfl⟩
  · exact ⟨s.nextOperation, s.timer,
      setInterval_other_eq s n now nowSchedule (Or.inl he), Or.inl rfl⟩

theorem endState_ok_withUsageData (sys : System) (s2 : UsageData) :
    endState (.ok { sys with usageData := s2 }) = { usageData := s2, settings := sys.settings } :=
  rfl

theorem alternates_facts :
    ∀ (n : Nat) (l : List Signal), l.length = n → alternates l = true →
      (n % 2 = 0 → alternates (l ++ [Signal.reportingStarted]) = true) ∧
      (n % 2 = 1 → ∀ b, alternates (l ++ [Signal.reportingFinished b]) = true) ∧
      (l.filter (fun sig => decide (sig ≠ Signal.reportingStarted))).length = n / 2 := by
  intro n
  induction n using Nat.strong_induction_on with
  | _ n ih =>
    intro l hlen halt
    rcases l with _ | ⟨x, _ | ⟨y, rest⟩⟩
    · subst hlen
      exact ⟨fun _ => rfl, fun h => absurd h (by decide), rfl⟩
    · subst hlen
      cases x with
      | reportingStarted => exact ⟨fun h => absurd h (by decide), fun _ _ => rfl, rfl⟩
      | reportingFinished c => cases halt
    · cases x with
      | reportingFinished c => cases halt
      | reportingStarted =>
        cases y with
        | reportingStarted => cases halt
        | reportingFinished c =>
          have hlen2 : rest.length = n - 2 := by
            simp only [List.length_cons] at hlen
            omega
          have hn : n = (n - 2) + 2 := by
            simp only [List.length_cons] at hlen
            omega
          have halt2 : alternates rest = true := halt
          obtain ⟨h1, h2, h3⟩ := ih (n - 2) (by omega) rest hlen2 halt2
          refine ⟨fun h => ?_, fun h b => ?_, ?_⟩
          · exact h1 (by omega)
          · exact h2 (by omega) b
          · show ((rest.filter _).length + 1) = n / 2
            rw [h3]
            omega

theorem applyOperation_signals (op : Operation) (sys : System) :
    ((endState (applyOperation op sys)).usageData.emitted = sys.usageData.emitted ∧
      (endState (applyOperation op sys)).usageData.currentlyIsReporting
        = sys.usageData.currentlyIsReporting ∧
      (endState (applyOperation op sys)).usageData.sent = sys.usageData.sent ∧
      (signalsOf op = [] ∨ ∃ e, applyOperation op sys = .error e)) ∨
    ((∃ sys2, applyOperation op sys = .ok sys2) ∧
      signalsOf op = [Signal.reportingStarted] ∧
      sys.usageData.currentlyIsReporting = false ∧
      (endState (applyOperation op sys)).usageData.emitted
        = sys.usageData.emitted ++ [Signal.reportingStarted] ∧
      (endState (applyOperation op sys)).usageData.currentlyIsReporting = true ∧
      (endState (applyOperation op sys)).usageData.sent.length
        = sys.usageData.sent.length + 1) ∨
    ((∃ sys2, applyOperation op sys = .ok sys2) ∧
      (∃ b, signalsOf op = [Signal.reportingFinished b]) ∧
      outcomeFollowsReport op sys = awaitingOutcome sys.usageData ∧
      (endState (applyOperation op sys)).usageData.emitted
        = sys.usageData.emitted ++ signalsOf op ∧
      (endState (applyOperation op sys)).usageData.currentlyIsReporting = false ∧
      (endState (applyOperation op sys)).usageData.sent = sys.usageData.sent) := by
  cases op with
  | setUrl u => exact Or.inl ⟨rfl, rfl, rfl, Or.inl rfl⟩
  | setSettingsGroup g => exact Or.inl ⟨rfl, rfl, rfl, Or.inl rfl⟩
  | setInterval n now nowSchedule =>
    obtain ⟨N, t, h, _⟩ := setInterval_shape sys.usageData n now nowSchedule
    left
    unfold applyOperation
    rw [endState_ok_withUsageData, h]
    exact ⟨rfl, rfl, rfl, Or.inl rfl⟩
  | loadSettings r a b c =>
    obtain ⟨E, h⟩ := loadSettings_shape sys.usageData sys.settings r a b c
    left
    show (loadSettings sys.usageData sys.settings r a b c).1.emitted = _ ∧
      (loadSettings sys.usageData sys.settings r a b c).1.currentlyIsReporting = _ ∧
      (loadSettings sys.usageData sys.settings r a b c).1.sent = _ ∧ _
    rw [h]
    exact ⟨rfl, rfl, rfl, Or.inl rfl⟩
  | saveSettings => exact Or.inl ⟨rfl, rfl, rfl, Or.inl rfl⟩
  | setReportingEnabled b now nowSchedule =>
    obtain ⟨N, t, h, _⟩ := setReportingEnabled_shape sys.usageData b now nowSchedule
    left
    unfold applyOperation
    rw [endState_ok_withUsageData, h]
    exact ⟨rfl, rfl, rfl, Or.inl rfl⟩
  | setReportingDisabled b now nowSchedule =>
    obtain ⟨N, t, h, _⟩ := setReportingEnabled_shape sys.usageData (!b) now nowSchedule
    left
    unfold applyOperation setReportingDisabled
    rw [endState_ok_withUsageData, h]
    exact ⟨rfl, rfl, rfl, Or.inl rfl⟩
  | adjustEvent name k =>
    left
    unfold applyOperation
    rw [endState_ok_withUsageData, adjustEvent_eq_with]
    exact ⟨rfl, rfl, rfl, Or.inl rfl⟩
  | adjustActivity name d =>
    left
    unfold applyOperation
    rw [endState_ok_withUsageData, adjustActivity_eq_with]
    exact ⟨rfl, rfl, rfl, Or.inl rfl⟩
  | startTimer name now =>
    obtain ⟨T, h⟩ := startTimer_shape sys.usageData name now
    left
    unfold applyOperation
    rw [endState_withSettings, h]
    exact ⟨rfl, rfl, rfl, Or.inl rfl⟩
  | stopTimer name doStop now =>
    obtain ⟨T, A, h⟩ := stopTimer_shape sys.usageData name doStop now
    left
    unfold applyOperation
    rw [endState_withSettings, h]
    exact ⟨rfl, rfl, rfl, Or.inl rfl⟩
  | stopTimers now =>
    obtain ⟨T, A, h⟩ := stopTimers_shape sys.usageData now
    left
    unfold applyOperation
    rw [endState_ok_withUsageData, h]
    exact ⟨rfl, rfl, rfl, Or.inl rfl⟩
  | timerExpiry info clock =>
    have hdef : applyOperation (Operation.timerExpiry info clock) sys
        = withSettings sys.settings
            (reportUsageData { sys.usageData with timer := none } info clock) := rfl
    cases hrun : reportUsageData { sys.usageData with timer := none } info clock with
    | error e =>
      obtain ⟨f, se⟩ := e
      left
      have hs := reportUsageData_state { sys.usageData with timer := none } info clock
      rw [hrun] at hs
      have happ : applyOperation (Operation.timerExpiry info clock) sys
          = .error (f, { usageData := se, settings := sys.settings }) := by
        rw [hdef, hrun]
        rfl
      rcases hs with h | ⟨he, hr, _⟩
      · rw [happ]
        have h2 : se = { sys.usageData with timer := none } := h
        show se.emitted = _ ∧ se.currentlyIsReporting = _ ∧ se.sent = _ ∧ _
        rw [h2]
        exact ⟨rfl, rfl, rfl, Or.inr ⟨_, rfl⟩⟩
      · obtain ⟨T, A, AA, top, hshape, _⟩ :=
          reportUsageData_shape { sys.usageData with timer := none } info clock he hr
        rw [hshape] at hrun
        cases hrun
    | ok s1 =>
      right; left
      have happ : applyOperation (Operation.timerExpiry info clock) sys
          = .ok { usageData := s1, settings := sys.settings } := by
        rw [hdef, hrun]
        rfl
      rcases Bool.eq_false_or_eq_true sys.usageData.enabled with he | he
      · rcases Bool.eq_false_or_eq_true sys.usageData.currentlyIsReporting with hr | hr
        · rw [reportUsageData_of_reporting { sys.usageData with timer := none } info clock
            he hr] at hrun
          cases hrun
        · obtain ⟨T, A, AA, top, hshape, _⟩ :=
            reportUsageData_shape { sys.usageData with timer := none } info clock he hr
          rw [hshape] at hrun
          cases hrun
          rw [happ]
          refine ⟨⟨_, rfl⟩, rfl, hr, rfl, rfl, ?_⟩
          show (sys.usageData.sent ++ [_]).length = _
          simp
      · rw [reportUsageData_of_disabled { sys.usageData with timer := none } info clock
          he] at hrun
        cases hrun
  | success now nowSchedule =>
    cases hrun : jsonResponseWasReceived sys.usageData now nowSchedule with
    | error e =>
      obtain ⟨f, se⟩ := e
      left
      have happ : applyOperation (Operation.success now nowSchedule) sys
          = .error (f, { usageData := se, settings := sys.settings }) := by
        show withSettings sys.settings
          (jsonResponseWasReceived sys.usageData now nowSchedule) = _
        rw [hrun]
        rfl
      obtain ⟨E, A, h | h⟩ := jsonResponseWasReceived_state sys.usageData now nowSchedule
      · rw [hrun] at h
        have h2 : se = { sys.usageData with events := E, activities := A } := h
        rw [happ]
        show se.emitted = _ ∧ se.currentlyIsReporting = _ ∧ se.sent = _ ∧ _
        rw [h2]
        exact ⟨rfl, rfl, rfl, Or.inr ⟨_, rfl⟩⟩
      · rw [jsonResponseWasReceived_eq] at hrun
        cases hadj : adjustEventsAndActivities sys.usageData with
        | error e2 =>
          rw [hadj] at hrun
          rw [jsonResponseWasReceived_eq, hadj] at h
          have h2 : e2.2 = _ := h
          obtain ⟨E2, A2, _, _, hc⟩ := adjustEventsAndActivities_total sys.usageData
          rcases hc with ⟨_, _, hok⟩ | ⟨_, herr⟩
          · rw [hok] at hadj; cases hadj
          · rw [herr] at hadj
            cases hadj
            have h3 := congrArg UsageData.emitted h2
            have h4 : sys.usageData.emitted
                = sys.usageData.emitted ++ [Signal.reportingFinished true] := h3
            have h5 := congrArg List.length h4
            simp at h5
        | ok s1 =>
          rw [hadj] at hrun
          cases hrun
    | ok s1 =>
      right; right
      have happ : applyOperation (Operation.success now nowSchedule) sys
          = .ok { usageData := s1, settings := sys.settings } := by
        show withSettings sys.settings
          (jsonResponseWasReceived sys.usageData now nowSchedule) = _
        rw [hrun]
        rfl
      rw [jsonResponseWasReceived_eq] at hrun
      cases hadj : adjustEventsAndActivities sys.usageData with
      | error e2 =>
        rw [hadj] at hrun
        cases hrun
      | ok s0 =>
        rw [hadj] at hrun
        obtain ⟨E2, A2, _, _, hc⟩ := adjustEventsAndActivities_total sys.usageData
        rcases hc with ⟨_, _, hok⟩ | ⟨_, herr⟩
        · rw [hok] at hadj
          cases hadj
          cases hrun
          rw [happ]
          exact ⟨⟨_, rfl⟩, ⟨true, rfl⟩, rfl, rfl, rfl, rfl⟩
        · rw [herr] at hadj
          cases hadj
  | failure code now nowSchedule =>
    right; right
    refine ⟨⟨_, rfl⟩, ⟨false, rfl⟩, rfl, ?_⟩
    unfold applyOperation
    rw [endState_ok_withUsageData, failed_eq]
    exact ⟨rfl, rfl, rfl⟩

theorem signals_step (op : Operation) (sys : System)
    (hJ : alternates sys.usageData.emitted = true ∧
      (sys.usageData.currentlyIsReporting = true ↔ sys.usageData.emitted.length % 2 = 1) ∧
      sys.usageData.sent.length = (sys.usageData.emitted.length + 1) / 2)
    (hguard : outcomeFollowsReport op sys = true) :
    alternates (endState (applyOperation op sys)).usageData.emitted = true ∧
    ((endState (applyOperation op sys)).usageData.currentlyIsReporting = true ↔
      (endState (applyOperation op sys)).usageData.emitted.length % 2 = 1) ∧
    (endState (applyOperation op sys)).usageData.sent.length
      = ((endState (applyOperation op sys)).usageData.emitted.length + 1) / 2 := by
  obtain ⟨halt, hrep, hsent⟩ := hJ
  obtain ⟨hs, hf, hcount⟩ := alternates_facts _ sys.usageData.emitted rfl halt
  rcases applyOperation_signals op sys with ⟨h1, h2, h3, _⟩ | ⟨_, _, hidle, h1, h2, h3⟩ |
      ⟨_, ⟨b, hb⟩, hg, h1, h2, h3⟩
  · rw [h1, h2, h3]
    exact ⟨halt, hrep, hsent⟩
  · have heven : sys.usageData.emitted.length % 2 = 0 := by
      rcases Nat.mod_two_eq_zero_or_one sys.usageData.emitted.length with h | h
      · exact h
      · have := hrep.mpr h
        rw [hidle] at this
        cases this
    rw [h1, h2, h3, hsent]
    refine ⟨hs heven, ?_, ?_⟩
    · simp only [List.length_append, List.length_singleton, true_iff]
      omega
    · simp only [List.length_append, List.length_singleton]
      omega
  · rw [hg] at hguard
    have hodd : sys.usageData.emitted.length % 2 = 1 := by
      unfold awaitingOutcome outcomesReceived at hguard
      rw [hcount, hsent] at hguard
      have := of_decide_eq_true hguard
      omega
    rw [h1, h2, h3, hsent, hb]
    refine ⟨hf hodd b, ?_, ?_⟩
    · simp only [List.length_append, List.length_singleton]
      constructor
      · intro h; cases h
      · intro h; omega
    · simp only [List.length_append, List.length_singleton]
      omega

/-- C29: started/finished ordering.  In every execution from a newly constructed instance (any
sequence of public operations, timer expiries and outcomes in which an outcome is delivered
only for a sent report whose outcome is still due; a failed assertion ends the execution), the
signals emitted so far alternate `reportingStarted`, `reportingFinished`, ... beginning with
`reportingStarted`, and a report is in flight exactly when the last signal is a
`reportingStarted`.  A call that returns appends exactly its own signals: `reportingStarted`
for a timer expiry, `reportingFinished(true)` for a success outcome, `reportingFinished(false)`
for a failure outcome, nothing for any other call; a call that stops at an assertion emits
nothing. -/
theorem C29_started_finished_alternate (destinationUrl : String) (secret : Nat)
    (settings : QSettings) (ops : List Operation)
    (houtcome : guarded outcomeFollowsReport ops
      { usageData := configure destinationUrl secret, settings := settings } = true) :
    alternates
        (endState (execute ops
          { usageData := configure destinationUrl secret
            settings := settings })).usageData.emitted = true ∧
    (isReporting
        (endState (execute ops
          { usageData := configure destinationUrl secret
            settings := settings })).usageData = true ↔
      (endState (execute ops
          { usageData := configure destinationUrl secret
            settings := settings })).usageData.emitted.length % 2 = 1) ∧
    (∀ (op : Operation) (sys sys2 : System), applyOperation op sys = .ok sys2 →
      sys2.usageData.emitted = sys.usageData.emitted ++ signalsOf op) ∧
    (∀ (op : Operation) (sys : System) (e : AssertionFailure × System),
      applyOperation op sys = .error e → e.2.usageData.emitted = sys.usageData.emitted) := by
  have hinit : alternates (configure destinationUrl secret).emitted = true ∧
      ((configure destinationUrl secret).currentlyIsReporting = true ↔
        (configure destinationUrl secret).emitted.length % 2 = 1) ∧
      (configure destinationUrl secret).sent.length
        = ((configure destinationUrl secret).emitted.length + 1) / 2 := by
    refine ⟨rfl, ⟨fun h => ?_, fun h => ?_⟩, ?_⟩
    · exact Bool.noConfusion h
    · have h2 : (0 : Nat) % 2 = 1 := h
      omega
    · show (0 : Nat) = (0 + 1) / 2
      omega
  have hfinal := execute_invariant outcomeFollowsReport
    (fun sys => alternates sys.usageData.emitted = true ∧
      (sys.usageData.currentlyIsReporting = true ↔ sys.usageData.emitted.length % 2 = 1) ∧
      sys.usageData.sent.length = (sys.usageData.emitted.length + 1) / 2)
    signals_step ops
    { usageData := configure destinationUrl secret, settings := settings }
    hinit houtcome
  refine ⟨hfinal.1, hfinal.2.1, ?_, ?_⟩
  · intro op sys sys2 hok
    rcases applyOperation_signals op sys with ⟨h1, _, _, h4⟩ | ⟨_, hsig, _, h1, _, _⟩ |
        ⟨_, _, _, h1, _, _⟩
    · rw [hok] at h1
      rcases h4 with h4 | ⟨e, h4⟩
      · rw [h4, List.append_nil]
        exact h1
      · rw [hok] at h4
        cases h4
    · rw [hok] at h1
      rw [hsig]
      exact h1
    · rw [hok] at h1
      exact h1
  · intro op sys e herr
    obtain ⟨f, se⟩ := e
    rcases applyOperation_signals op sys with ⟨h1, _, _, _⟩ | ⟨⟨sys2, h⟩, _⟩ | ⟨⟨sys2, h⟩, _⟩
    · rw [herr] at h1
      exact h1
    · rw [herr] at h
      cases h
    · rw [herr] at h
      cases h

/-- Witness of C29: a new instance is enabled, its timer expires and the delivery fails, the
timer expires again and the delivery succeeds; the signals are `reportingStarted`,
`reportingFinished(false)`, `reportingStarted`, `reportingFinished(true)`. -/
theorem C29_started_finished_alternate_witness :
    guarded outcomeFollowsReport
      [Operation.setReportingEnabled true 0 0, Operation.adjustEvent "test_event_1" 1,
        Operation.timerExpiry testSystemInfo (fun _ => 60000), Operation.failure 3 60100 60100,
        Operation.timerExpiry testSystemInfo (fun _ => 1860100), Operation.success 1860200 1860200]
      { usageData := configure "u" 7, settings := emptySettings } = true ∧
    (endState (execute
      [Operation.setReportingEnabled true 0 0, Operation.adjustEvent "test_event_1" 1,
        Operation.timerExpiry testSystemInfo (fun _ => 60000), Operation.failure 3 60100 60100,
        Operation.timerExpiry testSystemInfo (fun _ => 1860100), Operation.success 1860200 1860200]
      { usageData := configure "u" 7, settings := emptySettings })).usageData.emitted
      = [Signal.reportingStarted, Signal.reportingFinished false, Signal.reportingStarted,
          Signal.reportingFinished true] ∧
    alternates
      (endState (execute
        [Operation.setReportingEnabled true 0 0, Operation.adjustEvent "test_event_1" 1,
          Operation.timerExpiry testSystemInfo (fun _ => 60000), Operation.failure 3 60100 60100,
          Operation.timerExpiry testSystemInfo (fun _ => 1860100),
          Operation.success 1860200 1860200]
        { usageData := configure "u" 7, settings := emptySettings })).usageData.emitted = true :=
  ⟨by decide, by decide,
   (C29_started_finished_alternate "u" 7 emptySettings
      [Operation.setReportingEnabled true 0 0, Operation.adjustEvent "test_event_1" 1,
        Operation.timerExpiry testSystemInfo (fun _ => 60000), Operation.failure 3 60100 60100,
        Operation.timerExpiry testSystemInfo (fun _ => 1860100), Operation.success 1860200 1860200]
      (by decide)).1⟩

/-! ## C21: the report window -/

/-- C21 (as stated) fails in three ways; in each execution every call is one of the five kinds,
the clock never decreases, the timer never expires before the delay it was started with has
elapsed and no assertion fails.  (1) A new instance loads at 0 ms from settings that hold
`enabled` and no timestamps; `setInterval(0)` at 1000 ms sets `nextOperation` to 61000 ms and
arms the timer, from the clock at 1001 ms, with the whole seconds 59000 ms; the timer expires at
60001 ms and the success outcome is received at 60500 ms: afterwards `lastOperation` is
61000 ms and `nextOperation` is 60500 ms.  (2) With the interval 1 s, reporting is disabled and
enabled again while the report is in flight, which moves `nextOperation` to 121 200 ms; the
success outcome at 61 500 ms leaves `lastOperation` at 121 200 ms and `nextOperation` at
62 500 ms.  (3) An instance with the interval 4 294 968 s is loaded, given the interval 1 s and
enabled; the timer receives 704 ms, the delay wrapped to 32 bits, and the success outcome at
1000 ms leaves `lastOperation` at 4 294 968 000 ms and `nextOperation` at 2000 ms. -/
theorem C21_early_outcome_breaks_window :
    persistedTimestamp (configure "u" 7) enabledSettings "last_operation" = none ∧
    persistedTimestamp (configure "u" 7) enabledSettings "next_operation" = none ∧
    earlyOutcomeTrace.all isWindowOperation = true ∧
    clockNonDecreasing 0 earlyOutcomeTrace
      (loadedSystem (configure "u" 7) enabledSettings 9 0 0 0) = true ∧
    (endState (execute [Operation.setInterval 0 1000 1001]
      (loadedSystem (configure "u" 7) enabledSettings 9 0 0 0))).usageData.timer
      = some 59000 ∧
    (∃ sys, execute earlyOutcomeTrace (loadedSystem (configure "u" 7) enabledSettings 9 0 0 0)
        = .ok sys ∧
      lastReportTime sys.usageData = QDateTime.utc 61000 ∧
      nextReportTime sys.usageData = QDateTime.utc 60500 ∧
      QDateTime.lt (nextReportTime sys.usageData) (lastReportTime sys.usageData) = true) ∧
    timelyFrom
      ((loadedSystem (configure "u" 7) enabledSettings 9 0 0 0).usageData.timer.map
        (fun d => 0 + d))
      0 earlyOutcomeTrace (loadedSystem (configure "u" 7) enabledSettings 9 0 0 0) = true ∧
    guarded windowCall earlyOutcomeTrace
      (loadedSystem (configure "u" 7) enabledSettings 9 0 0 0) = false ∧
    reenableInFlightTrace.all isWindowOperation = true ∧
    clockNonDecreasing 0 reenableInFlightTrace
      (loadedSystem (configure "u" 7) enabledSettings 9 0 0 0) = true ∧
    timelyFrom
      ((loadedSystem (configure "u" 7) enabledSettings 9 0 0 0).usageData.timer.map
        (fun d => 0 + d))
      0 reenableInFlightTrace (loadedSystem (configure "u" 7) enabledSettings 9 0 0 0)
      = true ∧
    guarded windowCall reenableInFlightTrace
      (loadedSystem (configure "u" 7) enabledSettings 9 0 0 0) = false ∧
    (∃ sys, execute reenableInFlightTrace
        (loadedSystem (configure "u" 7) enabledSettings 9 0 0 0) = .ok sys ∧
      lastReportTime sys.usageData = QDateTime.utc 121200 ∧
      nextReportTime sys.usageData = QDateTime.utc 62500 ∧
      QDateTime.lt (nextReportTime sys.usageData) (lastReportTime sys.usageData) = true) ∧
    persistedTimestamp (setInterval (configure "u" 7) 4294968 0 0) emptySettings
      "last_operation" = none ∧
    persistedTimestamp (setInterval (configure "u" 7) 4294968 0 0) emptySettings
      "next_operation" = none ∧
    wrappedDelayTrace.all isWindowOperation = true ∧
    clockNonDecreasing 0 wrappedDelayTrace
      (loadedSystem (setInterval (configure "u" 7) 4294968 0 0) emptySettings 9 0 0 0)
      = true ∧
    timelyFrom
      ((loadedSystem (setInterval (configure "u" 7) 4294968 0 0) emptySettings 9 0 0
        0).usageData.timer.map (fun d => 0 + d))
      0 wrappedDelayTrace
      (loadedSystem (setInterval (configure "u" 7) 4294968 0 0) emptySettings 9 0 0 0)
      = true ∧
    interval (setInterval (configure "u" 7) 4294968 0 0) = 4294968 ∧
    guarded windowCall wrappedDelayTrace
      (loadedSystem (setInterval (configure "u" 7) 4294968 0 0) emptySettings 9 0 0 0)
      = true ∧
    (endState (execute (wrappedDelayTrace.take 2)
      (loadedSystem (setInterval (configure "u" 7) 4294968 0 0) emptySettings 9 0 0
        0))).usageData.timer
      = some 704 ∧
    (∃ sys, execute wrappedDelayTrace
        (loadedSystem (setInterval (configure "u" 7) 4294968 0 0) emptySettings 9 0 0 0)
        = .ok sys ∧
      lastReportTime sys.usageData = QDateTime.utc 4294968000 ∧
      nextReportTime sys.usageData = QDateTime.utc 2000 ∧
      QDateTime.lt (nextReportTime sys.usageData) (lastReportTime sys.usageData) = true) := by
  refine ⟨?_, ?_, ?_, ?_, ?_, ⟨_, rfl, ?_, ?_, ?_⟩, ?_, ?_, ?_, ?_, ?_, ?_,
    ⟨_, rfl, ?_, ?_, ?_⟩, ?_, ?_, ?_, ?_, ?_, ?_, ?_, ?_, ⟨_, rfl, ?_, ?_, ?_⟩⟩ <;> decide

theorem nonDecreasingFrom_pair (t x y : Int) (h : nonDecreasingFrom t [x, y] = true) :
    t ≤ x ∧ x ≤ y := by
  unfold nonDecreasingFrom at h
  rw [Bool.and_eq_true] at h
  have h2 := h.2
  unfold nonDecreasingFrom at h2
  rw [Bool.and_eq_true] at h2
  exact ⟨of_decide_eq_true h.1, of_decide_eq_true h2.1⟩

theorem le_getLastD_of_nonDecreasingFrom : ∀ (l : List Int) (t : Int),
    nonDecreasingFrom t l = true → t ≤ l.getLastD t
  | [], t, _ => le_refl t
  | x :: rest, t, h => by
    unfold nonDecreasingFrom at h
    rw [Bool.and_eq_true] at h
    rw [List.getLastD_cons]
    exact le_trans (of_decide_eq_true h.1) (le_getLastD_of_nonDecreasingFrom rest x h.2)

/-- An interval whose milliseconds fit an `int` is added as it is. -/
theorem addSecs_interval (a : Int) (n : Nat) (h : 1000 * n ≤ 2 ^ 31 - 1) :
    (QDateTime.utc a).addSecs (toInt64 n) = QDateTime.utc (a + 1000 * (n : Int)) := by
  have hfit : fitsInt64 (1000 * (n : Int)) = true := (fitsInt64_iff _).mpr (by omega)
  rw [toInt64_of_fits n hfit, QDateTime.addSecs_utc_of_fits a _ hfit]

/-- A timer started for a report time less than 2 147 484 s ahead is due less than a second
before that time, or the report time has already passed. -/
theorem timerInterval_due (b nowSchedule : Int) (h : b ≤ nowSchedule + 2147483999) :
    b ≤ nowSchedule + 999 ∨
      b ≤ nowSchedule + timerInterval (QDateTime.utc b) nowSchedule + 999 := by
  by_cases hb : b ≤ nowSchedule + 999
  · exact Or.inl hb
  · right
    have hsecs : (QDateTime.utc nowSchedule).secsTo (QDateTime.utc b)
        = (b - nowSchedule) / 1000 := by
      show Int.tdiv (b - nowSchedule) 1000 = _
      exact Int.tdiv_eq_ediv (by omega) (by omega)
    have h0 : 0 ≤ (QDateTime.utc nowSchedule).secsTo (QDateTime.utc b) := by
      rw [hsecs]; omega
    have hfit : 1000 * (QDateTime.utc nowSchedule).secsTo (QDateTime.utc b) ≤ 2 ^ 31 - 1 := by
      rw [hsecs]; omega
    rw [timerInterval_of_fit _ nowSchedule h0 hfit, hsecs]
    omega

theorem window_step (op : Operation) (sys : System) (deadline : Option Int) (t : Int)
    (hJ : ∃ a b : Int, sys.usageData.lastOperation = QDateTime.utc a ∧
      sys.usageData.nextOperation = QDateTime.utc b ∧
      a ≤ b ∧ a ≤ t + 999 ∧ b ≤ t + 2147483999 ∧
      1 ≤ sys.usageData.reportInterval ∧ 1000 * sys.usageData.reportInterval ≤ 2 ^ 31 - 1 ∧
      (sys.usageData.currentlyIsReporting = true → b ≤ t + 999 ∧ sys.usageData.timer = none) ∧
      (∀ D, sys.usageData.timer = some D →
        ∃ d, deadline = some d ∧ (b ≤ t + 999 ∨ b ≤ d + 999)))
    (hguard : windowCall op sys = true)
    (hclock : nonDecreasingFrom (earliestTime op deadline t)
      (clockReadings op sys.usageData) = true) :
    ∃ a b : Int, (endState (applyOperation op sys)).usageData.lastOperation = QDateTime.utc a ∧
      (endState (applyOperation op sys)).usageData.nextOperation = QDateTime.utc b ∧
      a ≤ b ∧
      a ≤ (clockReadings op sys.usageData).getLastD (earliestTime op deadline t) + 999 ∧
      b ≤ (clockReadings op sys.usageData).getLastD (earliestTime op deadline t)
        + 2147483999 ∧
      1 ≤ (endState (applyOperation op sys)).usageData.reportInterval ∧
      1000 * (endState (applyOperation op sys)).usageData.reportInterval ≤ 2 ^ 31 - 1 ∧
      ((endState (applyOperation op sys)).usageData.currentlyIsReporting = true →
        b ≤ (clockReadings op sys.usageData).getLastD (earliestTime op deadline t) + 999 ∧
        (endState (applyOperation op sys)).usageData.timer = none) ∧
      (∀ D, (endState (applyOperation op sys)).usageData.timer = some D →
        ∃ d, timerDeadline op sys deadline = some d ∧
          (b ≤ (clockReadings op sys.usageData).getLastD (earliestTime op deadline t) + 999 ∨
            b ≤ d + 999)) := by
  obtain ⟨a, b, hlast, hnext, hab, hat, hbt, hi1, hi2, hrep, htim⟩ := hJ
  cases op with
  | setUrl u => cases hguard
  | setSettingsGroup g => cases hguard
  | loadSettings r x y z => cases hguard
  | saveSettings => cases hguard
  | setReportingDisabled x now nowSchedule => cases hguard
  | adjustEvent name k => cases hguard
  | adjustActivity name d => cases hguard
  | startTimer name now => cases hguard
  | stopTimer name doStop now => cases hguard
  | stopTimers now => cases hguard
  | setReportingEnabled x now nowSchedule =>
    obtain ⟨h1, h2⟩ := nonDecreasingFrom_pair t now nowSchedule hclock
    have hT : (clockReadings (Operation.setReportingEnabled x now nowSchedule)
        sys.usageData).getLastD
          (earliestTime (Operation.setReportingEnabled x now nowSchedule) deadline t)
        = nowSchedule := rfl
    have hD : timerDeadline (Operation.setReportingEnabled x now nowSchedule) sys deadline
        = (if x = sys.usageData.enabled then deadline
           else (setReportingEnabled sys.usageData x now nowSchedule).timer.map
             (fun d => nowSchedule + d)) := rfl
    have hS : (endState (applyOperation (Operation.setReportingEnabled x now nowSchedule)
        sys)).usageData = setReportingEnabled sys.usageData x now nowSchedule := rfl
    rw [hT, hD, hS]
    by_cases hsame : x = sys.usageData.enabled
    · rw [if_pos hsame, setReportingEnabled_same_eq _ x now nowSchedule hsame.symm]
      refine ⟨a, b, hlast, hnext, hab, by omega, by omega, hi1, hi2, ?_, ?_⟩
      · intro hr
        exact ⟨by have := (hrep hr).1; omega, (hrep hr).2⟩
      · intro D hD2
        obtain ⟨d, hd, hor⟩ := htim D hD2
        exact ⟨d, hd, by omega⟩
    · rw [if_neg hsame]
      rcases Bool.eq_false_or_eq_true sys.usageData.enabled with he | he
      · have hx : x = false := by
          cases x
          · rfl
          · exact absurd he.symm hsame
        subst hx
        rw [setReportingEnabled_disable_eq _ now nowSchedule he]
        refine ⟨a, b, hlast, hnext, hab, by omega, by omega, hi1, hi2, ?_, ?_⟩
        · intro hr
          exact ⟨by have := (hrep hr).1; omega, rfl⟩
        · intro D hD2
          cases hD2
      · have hx : x = true := by
          cases x
          · exact absurd he.symm hsame
          · rfl
        subst hx
        have hnr : sys.usageData.currentlyIsReporting = false := by
          have hg : (!(true && !sys.usageData.enabled && isReporting sys.usageData)) = true :=
            hguard
          rw [he] at hg
          unfold isReporting at hg
          cases hr : sys.usageData.currentlyIsReporting
          · rfl
          · rw [hr] at hg
            cases hg
        rw [setReportingEnabled_enable_eq _ now nowSchedule he, hnext, QDateTime.max_utc]
        have hm1 : b ≤ Max.max b (now + 1000 * 60) := le_max_left _ _
        have hm3 : Max.max b (now + 1000 * 60) ≤ nowSchedule + 2147483999 :=
          max_le (by omega) (by omega)
        refine ⟨a, Max.max b (now + 1000 * 60), hlast, rfl, by omega, by omega, hm3, hi1, hi2,
          ?_, ?_⟩
        · intro hr
          have hr2 : sys.usageData.currentlyIsReporting = true := hr
          rw [hnr] at hr2
          cases hr2
        · intro D _
          refine ⟨_, rfl, ?_⟩
          exact timerInterval_due _ nowSchedule hm3
  | setInterval n now nowSchedule =>
    obtain ⟨h1, h2⟩ := nonDecreasingFrom_pair t now nowSchedule hclock
    have hn : 1 ≤ n ∧ 1000 * n ≤ 2 ^ 31 - 1 := of_decide_eq_true hguard
    have hT : (clockReadings (Operation.setInterval n now nowSchedule)
        sys.usageData).getLastD
          (earliestTime (Operation.setInterval n now nowSchedule) deadline t)
        = nowSchedule := rfl
    have hD : timerDeadline (Operation.setInterval n now nowSchedule) sys deadline
        = (if (sys.usageData.enabled && isNotReporting sys.usageData) = true then
             (setInterval sys.usageData n now nowSchedule).timer.map
               (fun d => nowSchedule + d)
           else deadline) := rfl
    have hS : (endState (applyOperation (Operation.setInterval n now nowSchedule)
        sys)).usageData = setInterval sys.usageData n now nowSchedule := rfl
    rw [hT, hD, hS]
    by_cases hidle : sys.usageData.enabled = true ∧ sys.usageData.currentlyIsReporting = false
    · have hc : (sys.usageData.enabled && isNotReporting sys.usageData) = true := by
        unfold isNotReporting
        rw [hidle.1, hidle.2]
        rfl
      rw [if_pos hc, setInterval_idle_eq _ n now nowSchedule hidle.1 hidle.2, hlast,
        addSecs_interval a n hn.2, QDateTime.max_utc]
      have hm1 : a + 1000 * (n : Int) ≤ Max.max (a + 1000 * (n : Int)) (now + 1000 * 60) :=
        le_max_left _ _
      have hm3 : Max.max (a + 1000 * (n : Int)) (now + 1000 * 60)
          ≤ nowSchedule + 2147483999 := max_le (by omega) (by omega)
      refine ⟨a, Max.max (a + 1000 * (n : Int)) (now + 1000 * 60), rfl, rfl, by omega,
        by omega, hm3, hn.1, hn.2, ?_, ?_⟩
      · intro hr
        have hr2 : sys.usageData.currentlyIsReporting = true := hr
        rw [hidle.2] at hr2
        cases hr2
      · intro D _
        refine ⟨_, rfl, ?_⟩
        exact timerInterval_due _ nowSchedule hm3
    · have hother : sys.usageData.enabled = false ∨ sys.usageData.currentlyIsReporting = true := by
        cases he : sys.usageData.enabled <;> cases hr : sys.usageData.currentlyIsReporting <;>
          simp_all
      have hc : ¬ (sys.usageData.enabled && isNotReporting sys.usageData) = true := by
        unfold isNotReporting
        rcases hother with h | h <;> simp [h]
      rw [if_neg hc, setInterval_other_eq _ n now nowSchedule hother]
      refine ⟨a, b, hlast, hnext, hab, by omega, by omega, hn.1, hn.2, ?_, ?_⟩
      · intro hr
        exact ⟨by have := (hrep hr).1; omega, (hrep hr).2⟩
      · intro D hD2
        obtain ⟨d, hd, hor⟩ := htim D hD2
        exact ⟨d, hd, by omega⟩
  | timerExpiry info clock =>
    have harmed : sys.usageData.timer.isSome = true := hguard
    obtain ⟨D, hD⟩ := Option.isSome_iff_exists.mp harmed
    obtain ⟨d, hd, hor⟩ := htim D hD
    subst hd
    have hE : earliestTime (Operation.timerExpiry info clock) (some d) t = Max.max t d := rfl
    have hle := le_getLastD_of_nonDecreasingFrom _ _ hclock
    rw [hE] at hle ⊢
    have ht1 : t ≤ Max.max t d := le_max_left _ _
    have ht2 : d ≤ Max.max t d := le_max_right _ _
    generalize (clockReadings (Operation.timerExpiry info clock) sys.usageData).getLastD
      (Max.max t d) = t2 at hle ⊢
    have hS : (endState (applyOperation (Operation.timerExpiry info clock) sys)).usageData
        = Result.state (timerExpired sys.usageData info clock) := by
      show (endState (withSettings sys.settings _)).usageData = _
      rw [endState_withSettings]
    rw [hS]
    rcases timerExpired_state sys.usageData info clock with h | ⟨_, _, T, A, AA, top, h⟩
    · rw [h]
      refine ⟨a, b, hlast, hnext, hab, by omega, by omega, hi1, hi2, ?_, ?_⟩
      · intro _
        exact ⟨by omega, rfl⟩
      · intro D2 hD2
        cases hD2
    · rw [h]
      refine ⟨a, b, hlast, hnext, hab, by omega, by omega, hi1, hi2, ?_, ?_⟩
      · intro _
        exact ⟨by omega, rfl⟩
      · intro D2 hD2
        cases hD2
  | success now nowSchedule =>
    obtain ⟨h1, h2⟩ := nonDecreasingFrom_pair t now nowSchedule hclock
    have hr : sys.usageData.currentlyIsReporting = true := hguard
    obtain ⟨hb999, htnone⟩ := hrep hr
    have hT : (clockReadings (Operation.success now nowSchedule) sys.usageData).getLastD
          (earliestTime (Operation.success now nowSchedule) deadline t)
        = nowSchedule := rfl
    have hD : timerDeadline (Operation.success now nowSchedule) sys deadline
        = (if sys.usageData.enabled = true then
             (Result.state (jsonResponseWasReceived sys.usageData now nowSchedule)).timer.map
               (fun d => nowSchedule + d)
           else deadline) := rfl
    have hS : (endState (applyOperation (Operation.success now nowSchedule) sys)).usageData
        = Result.state (jsonResponseWasReceived sys.usageData now nowSchedule) := by
      show (endState (withSettings sys.settings _)).usageData = _
      rw [endState_withSettings]
    rw [hT, hD, hS]
    obtain ⟨E, A, h | h⟩ := jsonResponseWasReceived_state sys.usageData now nowSchedule
    · rw [h]
      refine ⟨a, b, hlast, hnext, hab, by omega, by omega, hi1, hi2, ?_, ?_⟩
      · intro _
        exact ⟨by omega, htnone⟩
      · intro D hD2
        have hD3 : sys.usageData.timer = some D := hD2
        rw [htnone] at hD3
        cases hD3
    · rw [h, addSecs_interval now _ hi2]
      refine ⟨b, now + 1000 * (sys.usageData.reportInterval : Int), hnext, rfl, by omega,
        by omega, by omega, hi1, hi2, ?_, ?_⟩
      · intro hr2
        cases hr2
      · intro D hD2
        rcases Bool.eq_false_or_eq_true sys.usageData.enabled with he | he
        · rw [if_pos he]
          simp only [he, if_true, Option.map_some']
          refine ⟨_, rfl, ?_⟩
          exact timerInterval_due _ nowSchedule (by omega)
        · have hD3 : (if sys.usageData.enabled = true then
              some (timerInterval (QDateTime.utc
                (now + 1000 * (sys.usageData.reportInterval : Int))) nowSchedule)
              else sys.usageData.timer) = some D := hD2
          rw [he, htnone] at hD3
          cases hD3
  | failure code now nowSchedule =>
    obtain ⟨h1, h2⟩ := nonDecreasingFrom_pair t now nowSchedule hclock
    have hr : sys.usageData.currentlyIsReporting = true := hguard
    obtain ⟨hb999, htnone⟩ := hrep hr
    have hT : (clockReadings (Operation.failure code now nowSchedule) sys.usageData).getLastD
          (earliestTime (Operation.failure code now nowSchedule) deadline t)
        = nowSchedule := rfl
    have hD : timerDeadline (Operation.failure code now nowSchedule) sys deadline
        = (if sys.usageData.enabled = true then
             (failed sys.usageData code now nowSchedule).timer.map (fun d => nowSchedule + d)
           else deadline) := rfl
    have hS : (endState (applyOperation (Operation.failure code now nowSchedule)
        sys)).usageData = failed sys.usageData code now nowSchedule := rfl
    rw [hT, hD, hS, failed_eq]
    refine ⟨a, now + 1000 * 1800, hlast, rfl, by omega, by omega, by omega, hi1, hi2, ?_, ?_⟩
    · intro hr2
      cases hr2
    · intro D hD2
      rcases Bool.eq_false_or_eq_true sys.usageData.enabled with he | he
      · rw [if_pos he]
        simp only [he, if_true, Option.map_some']
        refine ⟨_, rfl, ?_⟩
        exact timerInterval_due _ nowSchedule (by omega)
      · have hD3 : (if sys.usageData.enabled = true then
            some (timerInterval (QDateTime.utc (now + 1000 * 1800)) nowSchedule)
            else sys.usageData.timer) = some D := hD2
        rw [he, htnone] at hD3
        cases hD3

theorem window_invariant : ∀ (ops : List Operation) (deadline : Option Int) (t : Int)
    (sys : System),
    (∃ a b : Int, sys.usageData.lastOperation = QDateTime.utc a ∧
      sys.usageData.nextOperation = QDateTime.utc b ∧
      a ≤ b ∧ a ≤ t + 999 ∧ b ≤ t + 2147483999 ∧
      1 ≤ sys.usageData.reportInterval ∧ 1000 * sys.usageData.reportInterval ≤ 2 ^ 31 - 1 ∧
      (sys.usageData.currentlyIsReporting = true → b ≤ t + 999 ∧ sys.usageData.timer = none) ∧
      (∀ D, sys.usageData.timer = some D →
        ∃ d, deadline = some d ∧ (b ≤ t + 999 ∨ b ≤ d + 999))) →
    guarded windowCall ops sys = true →
    timelyFrom deadline t ops sys = true →
    ∃ a b : Int, (endState (execute ops sys)).usageData.lastOperation = QDateTime.utc a ∧
      (endState (execute ops sys)).usageData.nextOperation = QDateTime.utc b ∧ a ≤ b := by
  intro ops
  induction ops with
  | nil =>
    intro deadline t sys hJ _ _
    obtain ⟨a, b, hlast, hnext, hab, _⟩ := hJ
    exact ⟨a, b, hlast, hnext, hab⟩
  | cons op rest ih =>
    intro deadline t sys hJ hg ht
    unfold guarded at hg
    rw [Bool.and_eq_true] at hg
    unfold timelyFrom at ht
    rw [Bool.and_eq_true] at ht
    have hnext := window_step op sys deadline t hJ hg.1 ht.1
    unfold execute
    cases h : applyOperation op sys with
    | error e =>
      rw [h] at hnext
      obtain ⟨a, b, hlast, hnext2, hab, _⟩ := hnext
      exact ⟨a, b, hlast, hnext2, hab⟩
    | ok sys2 =>
      rw [h] at hnext
      have hg2 := hg.2
      have ht2 := ht.2
      rw [h] at hg2 ht2
      exact ih _ _ sys2 hnext hg2 ht2

/-- C21 (amended): report-window invariant.  An instance with no report in flight and an
interval of at least one second whose milliseconds fit an `int` (at most 2 147 483 s) is loaded
from settings that hold no timestamps.  Then every state reached by a sequence of
`setReportingEnabled(true/false)`, `setInterval`, timer expiries, success outcomes and failure
outcomes has valid `lastOperation` and `nextOperation` with `nextOperation ≥ lastOperation`,
whether the execution runs to its end or stops at a failed assertion, provided that the clock
never decreases; every interval passed to `setInterval` is at least one second and its
milliseconds fit an `int`; reporting is not switched from disabled to enabled while a report is
in flight; the timer expires only while it is armed and not before the delay it was started
with has elapsed; and an outcome is received only while a report is in flight. -/
theorem C21_report_window_invariant (s : UsageData) (settings : QSettings) (random64 : Nat)
    (nowFirst now nowSchedule : Int) (ops : List Operation)
    (hlast : persistedTimestamp s settings "last_operation" = none)
    (hnext : persistedTimestamp s settings "next_operation" = none)
    (hidle : isReporting s = false)
    (hint : 1 ≤ interval s ∧ 1000 * interval s ≤ 2 ^ 31 - 1)
    (hload : now ≤ nowSchedule)
    (hops : guarded windowCall ops
      (loadedSystem s settings random64 nowFirst now nowSchedule) = true)
    (htime : timelyFrom
      ((loadedSystem s settings random64 nowFirst now nowSchedule).usageData.timer.map
        (fun d => nowSchedule + d))
      nowSchedule ops (loadedSystem s settings random64 nowFirst now nowSchedule) = true) :
    ∃ a b : Int,
      lastReportTime
          (endState (execute ops
            (loadedSystem s settings random64 nowFirst now nowSchedule))).usageData
        = QDateTime.utc a ∧
      nextReportTime
          (endState (execute ops
            (loadedSystem s settings random64 nowFirst now nowSchedule))).usageData
        = QDateTime.utc b ∧
      a ≤ b ∧
      QDateTime.lt
          (nextReportTime
            (endState (execute ops
              (loadedSystem s settings random64 nowFirst now nowSchedule))).usageData)
          (lastReportTime
            (endState (execute ops
              (loadedSystem s settings random64 nowFirst now nowSchedule))).usageData)
        = false := by
  obtain ⟨E, hE⟩ := loadSettings_shape s settings random64 nowFirst now nowSchedule
  unfold interval at hint
  unfold isReporting at hidle
  have hadd := addSecs_interval now s.reportInterval hint.2
  have hinit : ∃ a b : Int,
      (loadedSystem s settings random64 nowFirst now nowSchedule).usageData.lastOperation
        = QDateTime.utc a ∧
      (loadedSystem s settings random64 nowFirst now nowSchedule).usageData.nextOperation
        = QDateTime.utc b ∧
      a ≤ b ∧ a ≤ nowSchedule + 999 ∧ b ≤ nowSchedule + 2147483999 ∧
      1 ≤ (loadedSystem s settings random64 nowFirst now nowSchedule).usageData.reportInterval ∧
      1000 * (loadedSystem s settings random64 nowFirst now nowSchedule).usageData.reportInterval
        ≤ 2 ^ 31 - 1 ∧
      ((loadedSystem s settings random64 nowFirst now nowSchedule).usageData.currentlyIsReporting
          = true →
        b ≤ nowSchedule + 999 ∧
        (loadedSystem s settings random64 nowFirst now nowSchedule).usageData.timer = none) ∧
      (∀ D, (loadedSystem s settings random64 nowFirst now nowSchedule).usageData.timer
          = some D →
        ∃ d, (loadedSystem s settings random64 nowFirst now nowSchedule).usageData.timer.map
            (fun d => nowSchedule + d) = some d ∧
          (b ≤ nowSchedule + 999 ∨ b ≤ d + 999)) := by
    unfold loadedSystem
    dsimp only
    rw [hE]
    dsimp only
    rw [hlast, hnext, hadd]
    refine ⟨now, now + 1000 * (s.reportInterval : Int), rfl, rfl, by omega, by omega, by omega,
      hint.1, hint.2, ?_, ?_⟩
    · intro hr
      rw [hidle] at hr
      cases hr
    · intro D hD
      cases hp : persistedEnabled s settings
      · rw [hp] at hD
        cases hD
      · refine ⟨_, rfl, ?_⟩
        exact timerInterval_due _ nowSchedule (by omega)
  obtain ⟨a, b, h1, h2, h3⟩ := window_invariant ops _ _ _ hinit hops htime
  refine ⟨a, b, h1, h2, h3, ?_⟩
  unfold lastReportTime nextReportTime
  rw [h1, h2]
  show decide (b < a) = false
  exact decide_eq_false (by omega)

/-- A new instance loads at 0 ms from empty settings, is enabled, reports after seven days,
fails, retries after the retry period and succeeds; the timer expires each time when it is
due. -/
theorem C21_report_window_invariant_witness :
    persistedTimestamp (configure "u" 7) emptySettings "last_operation" = none ∧
    persistedTimestamp (configure "u" 7) emptySettings "next_operation" = none ∧
    isReporting (configure "u" 7) = false ∧
    (1 ≤ interval (configure "u" 7) ∧ 1000 * interval (configure "u" 7) ≤ 2 ^ 31 - 1) ∧
    guarded windowCall weeklyTrace (loadedSystem (configure "u" 7) emptySettings 9 0 0 0)
      = true ∧
    timelyFrom
      ((loadedSystem (configure "u" 7) emptySettings 9 0 0 0).usageData.timer.map
        (fun d => 0 + d))
      0 weeklyTrace (loadedSystem (configure "u" 7) emptySettings 9 0 0 0) = true ∧
    lastReportTime
        (endState (execute weeklyTrace
          (loadedSystem (configure "u" 7) emptySettings 9 0 0 0))).usageData
      = QDateTime.utc 606600500 ∧
    nextReportTime
        (endState (execute weeklyTrace
          (loadedSystem (configure "u" 7) emptySettings 9 0 0 0))).usageData
      = QDateTime.utc 1211401000 ∧
    ∃ a b : Int,
      lastReportTime
          (endState (execute weeklyTrace
            (loadedSystem (configure "u" 7) emptySettings 9 0 0 0))).usageData
        = QDateTime.utc a ∧
      nextReportTime
          (endState (execute weeklyTrace
            (loadedSystem (configure "u" 7) emptySettings 9 0 0 0))).usageData
        = QDateTime.utc b ∧
      a ≤ b ∧
      QDateTime.lt
          (nextReportTime
            (endState (execute weeklyTrace
              (loadedSystem (configure "u" 7) emptySettings 9 0 0 0))).usageData)
          (lastReportTime
            (endState (execute weeklyTrace
              (loadedSystem (configure "u" 7) emptySettings 9 0 0 0))).usageData)
        = false :=
  ⟨by decide, by decide, by decide, by decide, by decide, by decide, by decide, by decide,
   C21_report_window_invariant (configure "u" 7) emptySettings 9 0 0 0 weeklyTrace
     (by decide) (by decide) (by decide) (by decide) (by decide) (by decide) (by decide)⟩

/-! ## C36: enabling and disabling twice -/

/-- C36: enable and disable are idempotent.  For every state with reporting already enabled,
`setReportingEnabled(true)` leaves the whole state unchanged (`nextOperation` and the armed
timer included), and for every state with reporting already disabled so does
`setReportingEnabled(false)`; the same holds for `setReportingDisabled`.  For every state and
either argument, a second call with the same argument, at any later clock readings, leaves the
state that the first call produced. -/
theorem C36_enable_disable_idempotent (s : UsageData) (nowEnabled : Bool)
    (now nowSchedule now2 nowSchedule2 : Int) :
    (reportingEnabled s = nowEnabled →
      setReportingEnabled s nowEnabled now nowSchedule = s) ∧
    (reportingEnabled s = nowEnabled →
      nextReportTime (setReportingEnabled s nowEnabled now nowSchedule) = nextReportTime s ∧
      (setReportingEnabled s nowEnabled now nowSchedule).timer = s.timer) ∧
    (reportingDisabled s = nowEnabled →
      setReportingDisabled s nowEnabled now nowSchedule = s) ∧
    setReportingEnabled (setReportingEnabled s nowEnabled now nowSchedule) nowEnabled
        now2 nowSchedule2
      = setReportingEnabled s nowEnabled now nowSchedule ∧
    setReportingDisabled (setReportingDisabled s nowEnabled now nowSchedule) nowEnabled
        now2 nowSchedule2
      = setReportingDisabled s nowEnabled now nowSchedule := by
  have hafter : ∀ (b : Bool) (n1 n2 : Int), (setReportingEnabled s b n1 n2).enabled = b := by
    intro b n1 n2
    obtain ⟨N, t, h, _⟩ := setReportingEnabled_shape s b n1 n2
    rw [h]
  refine ⟨fun h => setReportingEnabled_same_eq s nowEnabled now nowSchedule h, fun h => ?_,
    fun h => ?_, ?_, ?_⟩
  · rw [setReportingEnabled_same_eq s nowEnabled now nowSchedule h]
    exact ⟨rfl, rfl⟩
  · unfold setReportingDisabled
    apply setReportingEnabled_same_eq
    unfold reportingDisabled at h
    rw [← h]
    cases s.enabled <;> rfl
  · exact setReportingEnabled_same_eq _ nowEnabled now2 nowSchedule2 (hafter _ _ _)
  · unfold setReportingDisabled
    exact setReportingEnabled_same_eq _ (!nowEnabled) now2 nowSchedule2 (hafter _ _ _)

/-- Witness of C36 on the enabled test store, whose timer is armed with 1000 ms: enabling again
at 5000 ms leaves `nextOperation` at 1000 ms and the timer as armed. -/
theorem C36_enable_disable_idempotent_witness :
    reportingEnabled { testStore with timer := some 1000 } = true ∧
    setReportingEnabled { testStore with timer := some 1000 } true 5000 5000
      = { testStore with timer := some 1000 } :=
  ⟨rfl, (C36_enable_disable_idempotent { testStore with timer := some 1000 } true
    5000 5000 6000 6000).1 rfl⟩

/-! ## C34: the delay passed to the timer -/

/-- C34: timer delay arithmetic.  For every state, clock reading `now` and report time whose
whole seconds `d` from `now` (as `secsTo` gives them) satisfy `0 ≤ d` and
`1000 * d ≤ 2 ^ 31 - 1`, `scheduleReport` changes only the timer and arms it with exactly
`1000 * d` milliseconds, whatever it was armed with before; a report time of the default
interval after `now` gives 604 800 000 ms, which is at most `2 ^ 31 - 1`. -/
theorem C34_timer_delay (s : UsageData) (reportTime : QDateTime) (now : Int)
    (hnonneg : 0 ≤ (QDateTime.utc now).secsTo reportTime)
    (hfit : 1000 * (QDateTime.utc now).secsTo reportTime ≤ 2 ^ 31 - 1) :
    scheduleReport s reportTime now
      = { s with timer := some (1000 * (QDateTime.utc now).secsTo reportTime) } ∧
    timerInterval reportTime now = 1000 * (QDateTime.utc now).secsTo reportTime ∧
    (∀ previous : Option Int,
      (scheduleReport { s with timer := previous } reportTime now).timer
        = some (1000 * (QDateTime.utc now).secsTo reportTime)) ∧
    (scheduleReport s ((QDateTime.utc now).addSecs defaultReportingInterval) now).timer
      = some 604800000 ∧
    (1000 * (defaultReportingInterval : Int) = 604800000 ∧ (604800000 : Int) ≤ 2 ^ 31 - 1) := by
  have hti : timerInterval reportTime now = 1000 * (QDateTime.utc now).secsTo reportTime := by
    unfold timerInterval toInt32 toU64
    generalize (QDateTime.utc now).secsTo reportTime = d at hnonneg hfit
    have h1 : (d % 2 ^ 64).toNat = d.toNat := by omega
    rw [h1]
    have h2 : 1000 * d.toNat % 2 ^ 64 % 2 ^ 32 = 1000 * d.toNat := by omega
    rw [h2]
    split_ifs with h
    · omega
    · omega
  have hdefault : timerInterval ((QDateTime.utc now).addSecs defaultReportingInterval) now
      = 604800000 := by
    have hsecs : (QDateTime.utc now).secsTo
        ((QDateTime.utc now).addSecs defaultReportingInterval) = 604800 := by
      show Int.tdiv (now + 1000 * ((7 * 24 * 60 * 60 : Nat) : Int) - now) 1000 = 604800
      have : now + 1000 * ((7 * 24 * 60 * 60 : Nat) : Int) - now = 604800000 := by
        push_cast
        ring
      rw [this]
      rfl
    unfold timerInterval
    rw [hsecs]
    rfl
  refine ⟨?_, hti, fun previous => ?_, ?_, by decide, by decide⟩
  · rw [scheduleReport_eq, hti]
  · rw [scheduleReport_eq, hti]
  · rw [scheduleReport_eq, hdefault]

/-- Witness of C34: from the clock at 1001 ms, a report at 61 000 ms is 59 whole seconds away
and the timer is armed with 59 000 ms. -/
theorem C34_timer_delay_witness :
    0 ≤ (QDateTime.utc 1001).secsTo (QDateTime.utc 61000) ∧
    1000 * (QDateTime.utc 1001).secsTo (QDateTime.utc 61000) ≤ 2 ^ 31 - 1 ∧
    timerInterval (QDateTime.utc 61000) 1001 = 59000 :=
  ⟨by decide, by decide,
   (C34_timer_delay testStore (QDateTime.utc 61000) 1001 (by decide) (by decide)).2.1.trans
     (by decide)⟩

/-! ## C35: a checkpoint followed by a stop -/

theorem secsTo_split (t0 t1 t2 : Int) (h01 : t0 ≤ t1) (h12 : t1 ≤ t2) :
    (QDateTime.utc t0).secsTo (QDateTime.utc t2) - 1
        ≤ (QDateTime.utc t0).secsTo (QDateTime.utc t1)
          + (QDateTime.utc t1).secsTo (QDateTime.utc t2) ∧
    (QDateTime.utc t0).secsTo (QDateTime.utc t1) + (QDateTime.utc t1).secsTo (QDateTime.utc t2)
        ≤ (QDateTime.utc t0).secsTo (QDateTime.utc t2) ∧
    (1000 ∣ t0 → 1000 ∣ t1 → 1000 ∣ t2 →
      (QDateTime.utc t0).secsTo (QDateTime.utc t1)
          + (QDateTime.utc t1).secsTo (QDateTime.utc t2)
        = (QDateTime.utc t0).secsTo (QDateTime.utc t2)) := by
  have e01 : (QDateTime.utc t0).secsTo (QDateTime.utc t1) = (t1 - t0) / 1000 := by
    show Int.tdiv (t1 - t0) 1000 = _
    exact Int.tdiv_eq_ediv (by omega) (by omega)
  have e12 : (QDateTime.utc t1).secsTo (QDateTime.utc t2) = (t2 - t1) / 1000 := by
    show Int.tdiv (t2 - t1) 1000 = _
    exact Int.tdiv_eq_ediv (by omega) (by omega)
  have e02 : (QDateTime.utc t0).secsTo (QDateTime.utc t2) = (t2 - t0) / 1000 := by
    show Int.tdiv (t2 - t0) 1000 = _
    exact Int.tdiv_eq_ediv (by omega) (by omega)
  rw [e01, e12, e02]
  refine ⟨by omega, by omega, ?_⟩
  intro h0 h1 h2
  obtain ⟨a, ha⟩ := h0
  obtain ⟨b, hb⟩ := h1
  obtain ⟨c, hc⟩ := h2
  omega

/-- C35: checkpointing loses less than one second per checkpoint.  For all millisecond
timestamps `t0 ≤ t1 ≤ t2`, the whole seconds from `t0` to `t1` plus those from `t1` to `t2` are
at most the whole seconds from `t0` to `t2` and at least one less, and they are equal when the
three timestamps are whole seconds.  For a timer `name` started at `t0`,
`stopTimer(name, false)` at `t1` followed by `stopTimer(name, true)` at `t2` succeeds and leaves
the accumulator of `name` at its old value (0 when absent) plus that sum, a single
`stopTimer(name, true)` at `t2` leaves it at the old value plus the whole seconds from `t0` to
`t2` (64-bit arithmetic in both cases), and when the timestamps are whole seconds the two ways
leave the same activities and the same timers. -/
theorem C35_checkpoint_then_stop (s : UsageData) (name : String) (t0 t1 t2 : Int)
    (h01 : t0 ≤ t1) (h12 : t1 ≤ t2)
    (hrun : QHash.lookup s.timers name = some (QDateTime.utc t0)) :
    (QDateTime.utc t0).secsTo (QDateTime.utc t2) - 1
        ≤ (QDateTime.utc t0).secsTo (QDateTime.utc t1)
          + (QDateTime.utc t1).secsTo (QDateTime.utc t2) ∧
    (QDateTime.utc t0).secsTo (QDateTime.utc t1) + (QDateTime.utc t1).secsTo (QDateTime.utc t2)
        ≤ (QDateTime.utc t0).secsTo (QDateTime.utc t2) ∧
    (1000 ∣ t0 → 1000 ∣ t1 → 1000 ∣ t2 →
      (QDateTime.utc t0).secsTo (QDateTime.utc t1)
          + (QDateTime.utc t1).secsTo (QDateTime.utc t2)
        = (QDateTime.utc t0).secsTo (QDateTime.utc t2)) ∧
    ∃ s1 s2 s3, stopTimer s name false t1 = .ok s1 ∧ stopTimer s1 name true t2 = .ok s2 ∧
      stopTimer s name true t2 = .ok s3 ∧
      QHash.lookup s2.activities name
        = some (toU64 ((QHash.value s.activities name : Nat)
            + ((QDateTime.utc t0).secsTo (QDateTime.utc t1)
              + (QDateTime.utc t1).secsTo (QDateTime.utc t2)))) ∧
      QHash.lookup s3.activities name
        = some (toU64 ((QHash.value s.activities name : Nat)
            + (QDateTime.utc t0).secsTo (QDateTime.utc t2))) ∧
      (∀ other, other ≠ name →
        QHash.lookup s2.activities other = QHash.lookup s.activities other ∧
        QHash.lookup s3.activities other = QHash.lookup s.activities other) ∧
      (∀ key, QHash.lookup s2.timers key = QHash.lookup s3.timers key) ∧
      isTimerActive s2 name = false ∧
      (1000 ∣ t0 → 1000 ∣ t1 → 1000 ∣ t2 →
        ∀ key, QHash.lookup s2.activities key = QHash.lookup s3.activities key) := by
  obtain ⟨hlow, hhigh, hwhole⟩ := secsTo_split t0 t1 t2 h01 h12
  refine ⟨hlow, hhigh, hwhole, ?_⟩
  have hs1 := stopTimer_of_running s name false t1 _ hrun
  simp only [Bool.false_eq_true, if_false] at hs1
  have ht1 : QHash.lookup
      (adjustActivity { s with timers := QHash.insert s.timers name (QDateTime.utc t1) } name
        ((QDateTime.utc t0).secsTo (QDateTime.utc t1))).timers name
      = some (QDateTime.utc t1) := by
    rw [(adjustActivity_frame _ _ _).2.1]
    exact QHash.lookup_insert_self _ _ _
  have hs2 := stopTimer_of_running _ name true t2 _ ht1
  simp only [if_true] at hs2
  have hs3 := stopTimer_of_running s name true t2 _ hrun
  simp only [if_true] at hs3
  have hact1 := adjustActivity_lookup_self
    { s with timers := QHash.insert s.timers name (QDateTime.utc t1) } name
    ((QDateTime.utc t0).secsTo (QDateTime.utc t1))
  have hval1 := QHash.value_of_lookup_some _ _ _ hact1
  have hname2 : QHash.lookup
      (adjustActivity
        { adjustActivity { s with timers := QHash.insert s.timers name (QDateTime.utc t1) }
            name ((QDateTime.utc t0).secsTo (QDateTime.utc t1)) with
          timers := QHash.remove
            (adjustActivity { s with timers := QHash.insert s.timers name (QDateTime.utc t1) }
              name ((QDateTime.utc t0).secsTo (QDateTime.utc t1))).timers name }
        name ((QDateTime.utc t1).secsTo (QDateTime.utc t2))).activities name
      = some (toU64 ((QHash.value s.activities name : Nat)
          + ((QDateTime.utc t0).secsTo (QDateTime.utc t1)
            + (QDateTime.utc t1).secsTo (QDateTime.utc t2)))) := by
    rw [adjustActivity_lookup_self]
    show some (toU64 (((QHash.value
      (adjustActivity { s with timers := QHash.insert s.timers name (QDateTime.utc t1) } name
        ((QDateTime.utc t0).secsTo (QDateTime.utc t1))).activities name : Nat) : Int) + _)) = _
    rw [hval1, toU64_toU64_add]
    show some (toU64 (((QHash.value s.activities name : Nat) : Int) + _ + _)) = _
    rw [add_assoc]
  have hname3 : QHash.lookup
      (adjustActivity { s with timers := QHash.remove s.timers name } name
        ((QDateTime.utc t0).secsTo (QDateTime.utc t2))).activities name
      = some (toU64 ((QHash.value s.activities name : Nat)
          + (QDateTime.utc t0).secsTo (QDateTime.utc t2))) :=
    adjustActivity_lookup_self _ _ _
  have hother : ∀ other, other ≠ name →
      QHash.lookup
        (adjustActivity
          { adjustActivity { s with timers := QHash.insert s.timers name (QDateTime.utc t1) }
              name ((QDateTime.utc t0).secsTo (QDateTime.utc t1)) with
            timers := QHash.remove
              (adjustActivity { s with timers := QHash.insert s.timers name (QDateTime.utc t1) }
                name ((QDateTime.utc t0).secsTo (QDateTime.utc t1))).timers name }
          name ((QDateTime.utc t1).secsTo (QDateTime.utc t2))).activities other
        = QHash.lookup s.activities other ∧
      QHash.lookup
        (adjustActivity { s with timers := QHash.remove s.timers name } name
          ((QDateTime.utc t0).secsTo (QDateTime.utc t2))).activities other
        = QHash.lookup s.activities other := by
    intro other hne
    constructor
    · rw [adjustActivity_lookup_ne _ _ hne]
      exact adjustActivity_lookup_ne _ _ hne
    · exact adjustActivity_lookup_ne _ _ hne
  have htimers : ∀ key,
      QHash.lookup
        (adjustActivity
          { adjustActivity { s with timers := QHash.insert s.timers name (QDateTime.utc t1) }
              name ((QDateTime.utc t0).secsTo (QDateTime.utc t1)) with
            timers := QHash.remove
              (adjustActivity { s with timers := QHash.insert s.timers name (QDateTime.utc t1) }
                name ((QDateTime.utc t0).secsTo (QDateTime.utc t1))).timers name }
          name ((QDateTime.utc t1).secsTo (QDateTime.utc t2))).timers key
        = QHash.lookup
          (adjustActivity { s with timers := QHash.remove s.timers name } name
            ((QDateTime.utc t0).secsTo (QDateTime.utc t2))).timers key := by
    intro key
    rw [(adjustActivity_frame _ _ _).2.1, (adjustActivity_frame _ _ _).2.1,
      (adjustActivity_frame _ _ _).2.1]
    show QHash.lookup (QHash.remove (QHash.insert s.timers name (QDateTime.utc t1)) name) key
      = QHash.lookup (QHash.remove s.timers name) key
    by_cases hk : key = name
    · subst hk
      rw [QHash.lookup_remove_self, QHash.lookup_remove_self]
    · rw [QHash.lookup_remove_ne _ hk, QHash.lookup_remove_ne _ hk,
        QHash.lookup_insert_ne _ _ hk]
  refine ⟨_, _, _, hs1, hs2, hs3, hname2, hname3, hother, htimers, ?_, ?_⟩
  · unfold isTimerActive
    rw [QHash.contains_eq_isSome, (adjustActivity_frame _ _ _).2.1]
    show (QHash.lookup (QHash.remove _ name) name).isSome = false
    rw [QHash.lookup_remove_self]
    rfl
  · intro h0 h1 h2 key
    by_cases hk : key = name
    · subst hk
      rw [hname2, hname3, hwhole h0 h1 h2]
    · rw [(hother key hk).1, (hother key hk).2]

/-- Witness of C35 on the test store, whose timer `activity_1` was started at 1000 ms: a
checkpoint at 2500 ms and a stop at 4000 ms credit 1 s + 1 s, one second less than the 3 s of a
single stop at 4000 ms. -/
theorem C35_checkpoint_then_stop_witness :
    (1000 : Int) ≤ 2500 ∧ (2500 : Int) ≤ 4000 ∧
    QHash.lookup testStore.timers "activity_1" = some (QDateTime.utc 1000) ∧
    (QDateTime.utc 1000).secsTo (QDateTime.utc 2500)
        + (QDateTime.utc 2500).secsTo (QDateTime.utc 4000) = 2 ∧
    (QDateTime.utc 1000).secsTo (QDateTime.utc 4000) = 3 ∧
    (QDateTime.utc 1000).secsTo (QDateTime.utc 4000) - 1
        ≤ (QDateTime.utc 1000).secsTo (QDateTime.utc 2500)
          + (QDateTime.utc 2500).secsTo (QDateTime.utc 4000) :=
  ⟨by decide, by decide, by decide, by decide, by decide,
   (C35_checkpoint_then_stop testStore "activity_1" 1000 2500 4000 (by decide) (by decide)
      (by decide)).1⟩

/-! ## C33: a report time that has passed -/

/-- C33: evaluation of `scheduleReport` for a report time that has passed.  With the clock at
5000 ms and the report due at 0 ms, `secsTo` gives -5, the `std::uint64_t` holds `2 ^ 64 - 5`,
and the `int` that `QTimer::start` receives is -5000; `loadSettings` at 5000 ms with `enabled`
and a `next_operation` of 0 ms persisted arms the timer with that -5000.  With the report
overdue by 30 days the argument wraps to 1 702 967 296 ms, more than 19 days.  Only a report
overdue by less than a second gets the delay 0. -/
theorem C33_overdue_report_gets_negative_delay :
    QDateTime.lt (QDateTime.utc 0) (QDateTime.utc 5000) = true ∧
    (QDateTime.utc 5000).secsTo (QDateTime.utc 0) = -5 ∧
    toU64 (-5) = 2 ^ 64 - 5 ∧
    timerInterval (QDateTime.utc 0) 5000 = -5000 ∧
    (scheduleReport testStore (QDateTime.utc 0) 5000).timer = some (-5000) ∧
    reportingEnabled (loadSettings (configure "u" 7) overdueSettings 9 5000 5000 5000).1
      = true ∧
    nextReportTime (loadSettings (configure "u" 7) overdueSettings 9 5000 5000 5000).1
      = QDateTime.utc 0 ∧
    (loadSettings (configure "u" 7) overdueSettings 9 5000 5000 5000).1.timer
      = some (-5000) ∧
    timerInterval (QDateTime.utc 0) 2592000000 = 1702967296 ∧
    timerInterval (QDateTime.utc 0) 999 = 0 := by
  refine ⟨?_, ?_, ?_, ?_, ?_, ?_, ?_, ?_, ?_, ?_⟩ <;> decide

/-! ## C32: the timer is armed only while reporting is enabled -/

theorem execute_error (guard : Operation → System → Bool) (P : System → Prop)
    (hstep : ∀ op sys, P sys → guard op sys = true → P (endState (applyOperation op sys))) :
    ∀ (ops : List Operation) (sys : System), P sys → guarded guard ops sys = true →
      ∀ e, execute ops sys = .error e →
        ∃ op sys1, P sys1 ∧ guard op sys1 = true ∧ applyOperation op sys1 = .error e := by
  intro ops
  induction ops with
  | nil =>
    intro sys _ _ e h
    cases h
  | cons op rest ih =>
    intro sys hP hg e herr
    unfold guarded at hg
    rw [Bool.and_eq_true] at hg
    have hnext := hstep op sys hP hg.1
    unfold execute at herr
    cases h : applyOperation op sys with
    | error e2 =>
      rw [h] at herr
      cases herr
      exact ⟨op, sys, hP, hg.1, h⟩
    | ok sys2 =>
      rw [h] at herr hnext
      have hg2 := hg.2
      rw [h] at hg2
      exact ih sys2 hnext hg2 e herr

theorem armed_step (op : Operation) (sys : System)
    (hJ : sys.usageData.timer.isSome = true → sys.usageData.enabled = true) :
    (endState (applyOperation op sys)).usageData.timer.isSome = true →
      (endState (applyOperation op sys)).usageData.enabled = true := by
  cases op with
  | setUrl u => exact hJ
  | setSettingsGroup g => exact hJ
  | saveSettings => exact hJ
  | setInterval n now nowSchedule =>
    unfold applyOperation
    rw [endState_ok_withUsageData]
    rcases Bool.eq_false_or_eq_true sys.usageData.enabled with he | he
    · rcases Bool.eq_false_or_eq_true sys.usageData.currentlyIsReporting with hr | hr
      · rw [setInterval_other_eq _ n now nowSchedule (Or.inr hr)]
        exact hJ
      · rw [setInterval_idle_eq _ n now nowSchedule he hr]
        exact fun _ => he
    · rw [setInterval_other_eq _ n now nowSchedule (Or.inl he)]
      exact hJ
  | loadSettings r a b c =>
    obtain ⟨E, h⟩ := loadSettings_shape sys.usageData sys.settings r a b c
    show (loadSettings sys.usageData sys.settings r a b c).1.timer.isSome = true →
      (loadSettings sys.usageData sys.settings r a b c).1.enabled = true
    rw [h]
    dsimp only
    cases persistedEnabled sys.usageData sys.settings
    · intro h2
      cases h2
    · exact fun _ => rfl
  | setReportingEnabled b now nowSchedule =>
    unfold applyOperation
    rw [endState_ok_withUsageData]
    rcases Bool.eq_false_or_eq_true sys.usageData.enabled with he | he <;> cases b
    · rw [setReportingEnabled_disable_eq _ now nowSchedule he]
      intro h2
      cases h2
    · rw [setReportingEnabled_same_eq _ true now nowSchedule he]
      exact hJ
    · rw [setReportingEnabled_same_eq _ false now nowSchedule he]
      exact hJ
    · rw [setReportingEnabled_enable_eq _ now nowSchedule he]
      exact fun _ => rfl
  | setReportingDisabled b now nowSchedule =>
    unfold applyOperation setReportingDisabled
    rw [endState_ok_withUsageData]
    rcases Bool.eq_false_or_eq_true sys.usageData.enabled with he | he <;> cases b <;>
      simp only [Bool.not_false, Bool.not_true]
    · rw [setReportingEnabled_same_eq _ true now nowSchedule he]
      exact hJ
    · rw [setReportingEnabled_disable_eq _ now nowSchedule he]
      intro h2
      cases h2
    · rw [setReportingEnabled_enable_eq _ now nowSchedule he]
      exact fun _ => rfl
    · rw [setReportingEnabled_same_eq _ false now nowSchedule he]
      exact hJ
  | adjustEvent name k =>
    unfold applyOperation
    rw [endState_ok_withUsageData, adjustEvent_eq_with]
    exact hJ
  | adjustActivity name d =>
    unfold applyOperation
    rw [endState_ok_withUsageData, adjustActivity_eq_with]
    exact hJ
  | startTimer name now =>
    obtain ⟨T, h⟩ := startTimer_shape sys.usageData name now
    unfold applyOperation
    rw [endState_withSettings, h]
    exact hJ
  | stopTimer name doStop now =>
    obtain ⟨T, A, h⟩ := stopTimer_shape sys.usageData name doStop now
    unfold applyOperation
    rw [endState_withSettings, h]
    exact hJ
  | stopTimers now =>
    obtain ⟨T, A, h⟩ := stopTimers_shape sys.usageData now
    unfold applyOperation
    rw [endState_ok_withUsageData, h]
    exact hJ
  | timerExpiry info clock =>
    unfold applyOperation
    rw [endState_withSettings]
    rcases timerExpired_state sys.usageData info clock with h | ⟨_, _, T, A, AA, top, h⟩
    · rw [h]
      intro h2
      cases h2
    · rw [h]
      intro h2
      cases h2
  | success now nowSchedule =>
    unfold applyOperation
    rw [endState_withSettings]
    obtain ⟨E, A, h | h⟩ := jsonResponseWasReceived_state sys.usageData now nowSchedule
    · rw [h]
      exact hJ
    · rw [h]
      dsimp only
      rcases Bool.eq_false_or_eq_true sys.usageData.enabled with he | he
      · exact fun _ => he
      · intro h2
        rw [he] at h2
        exact hJ h2
  | failure code now nowSchedule =>
    unfold applyOperation
    rw [endState_ok_withUsageData, failed_eq]
    dsimp only
    rcases Bool.eq_false_or_eq_true sys.usageData.enabled with he | he
    · exact fun _ => he
    · intro h2
      rw [he] at h2
      exact hJ h2

theorem applyOperation_not_enabled_error (op : Operation) (sys sys2 : System)
    (herr : applyOperation op sys = .error (AssertionFailure.reportingNotEnabled, sys2)) :
    (∃ info clock, op = Operation.timerExpiry info clock) ∧ sys.usageData.enabled = false := by
  cases op with
  | setUrl u => cases herr
  | setSettingsGroup g => cases herr
  | setInterval n now nowSchedule => cases herr
  | loadSettings r a b c => cases herr
  | saveSettings => cases herr
  | setReportingEnabled b now nowSchedule => cases herr
  | setReportingDisabled b now nowSchedule => cases herr
  | adjustEvent name k => cases herr
  | adjustActivity name d => cases herr
  | stopTimers now => cases herr
  | failure code now nowSchedule => cases herr
  | startTimer name now =>
    have h2 : withSettings sys.settings (startTimer sys.usageData name now)
        = .error (AssertionFailure.reportingNotEnabled, sys2) := herr
    cases hc : QHash.contains sys.usageData.timers name <;>
      simp [startTimer, hc, withSettings] at h2
  | stopTimer name doStop now =>
    have h2 : withSettings sys.settings (stopTimer sys.usageData name doStop now)
        = .error (AssertionFailure.reportingNotEnabled, sys2) := herr
    cases hc : QHash.contains sys.usageData.timers name
    · simp [stopTimer, hc, withSettings] at h2
    · rw [stopTimer_of_running _ name doStop now _ (QHash.lookup_of_contains _ _ hc)] at h2
      cases h2
  | success now nowSchedule =>
    have h2 : withSettings sys.settings (jsonResponseWasReceived sys.usageData now nowSchedule)
        = .error (AssertionFailure.reportingNotEnabled, sys2) := herr
    rw [jsonResponseWasReceived_eq] at h2
    obtain ⟨E, A, _, _, hc⟩ := adjustEventsAndActivities_total sys.usageData
    rcases hc with ⟨_, _, hok⟩ | ⟨_, herr2⟩
    · rw [hok] at h2
      cases h2
    · rw [herr2] at h2
      cases h2
  | timerExpiry info clock =>
    refine ⟨⟨info, clock, rfl⟩, ?_⟩
    have h2 : withSettings sys.settings
        (reportUsageData { sys.usageData with timer := none } info clock)
        = .error (AssertionFailure.reportingNotEnabled, sys2) := herr
    rcases Bool.eq_false_or_eq_true sys.usageData.enabled with he | he
    · rcases Bool.eq_false_or_eq_true sys.usageData.currentlyIsReporting with hr | hr
      · rw [reportUsageData_of_reporting { sys.usageData with timer := none } info clock
          he hr] at h2
        cases h2
      · obtain ⟨T, A, AA, top, hshape, _⟩ :=
          reportUsageData_shape { sys.usageData with timer := none } info clock he hr
        rw [hshape] at h2
        cases h2
    · exact he

/-- C32: the report timer is armed only while reporting is enabled.  In every execution from a
newly constructed instance (any sequence of public operations, `loadSettings` included, timer
expiries and outcomes, the timer expiring only while it is armed), in the state reached,
whether the execution ran to its end or stopped at an assertion, an armed timer implies
`reportingEnabled()`; and the execution never stops at `Q_ASSERT(enabled)` of
`reportUsageData`. -/
theorem C32_armed_timer_implies_enabled (destinationUrl : String) (secret : Nat)
    (settings : QSettings) (ops : List Operation)
    (hexpiry : guarded expiryWhenArmed ops
      { usageData := configure destinationUrl secret, settings := settings } = true) :
    (timerArmed
        (endState (execute ops
          { usageData := configure destinationUrl secret
            settings := settings })).usageData = true →
      reportingEnabled
        (endState (execute ops
          { usageData := configure destinationUrl secret
            settings := settings })).usageData = true) ∧
    (∀ sys : System,
      execute ops { usageData := configure destinationUrl secret, settings := settings }
        ≠ .error (AssertionFailure.reportingNotEnabled, sys)) := by
  have hinit : (configure destinationUrl secret).timer.isSome = true →
      (configure destinationUrl secret).enabled = true := by
    intro h
    cases h
  constructor
  · exact execute_invariant expiryWhenArmed
      (fun sys => sys.usageData.timer.isSome = true → sys.usageData.enabled = true)
      (fun op sys h _ => armed_step op sys h) ops
      { usageData := configure destinationUrl secret, settings := settings } hinit hexpiry
  · intro sys herr
    obtain ⟨op, sys1, hP, hg, happ⟩ := execute_error expiryWhenArmed
      (fun sys => sys.usageData.timer.isSome = true → sys.usageData.enabled = true)
      (fun op sys h _ => armed_step op sys h) ops
      { usageData := configure destinationUrl secret, settings := settings } hinit hexpiry
      _ herr
    obtain ⟨⟨info, clock, hop⟩, hdis⟩ := applyOperation_not_enabled_error op sys1 sys happ
    subst hop
    have harmed : sys1.usageData.timer.isSome = true := hg
    have hen := hP harmed
    rw [hdis] at hen
    cases hen

/-- Witness of C32: a new instance loads empty settings, is enabled, its timer expires, reporting
is disabled while the report is in flight and the delivery fails; the timer is not armed
afterwards and the execution ran without a failed assertion. -/
theorem C32_armed_timer_implies_enabled_witness :
    guarded expiryWhenArmed disableInFlightTrace
      { usageData := configure "u" 7, settings := emptySettings } = true ∧
    timerArmed
      (endState (execute disableInFlightTrace
        { usageData := configure "u" 7, settings := emptySettings })).usageData = false ∧
    (∀ sys : System,
      execute disableInFlightTrace { usageData := configure "u" 7, settings := emptySettings }
        ≠ .error (AssertionFailure.reportingNotEnabled, sys)) :=
  ⟨by decide, by decide,
   (C32_armed_timer_implies_enabled "u" 7 emptySettings disableInFlightTrace (by decide)).2⟩

/-! ## C31: a timer expiry while a report is in flight -/

/-- C31: evaluation of an execution on a new instance in which reporting is disabled and enabled
again while a report is in flight.  After `setReportingEnabled(true)` at 0 ms, the timer expiry
at 60 000 ms, `setReportingEnabled(false)` at 61 000 ms and `setReportingEnabled(true)` at
62 000 ms, the report is still in flight and the timer is armed with 60 000 ms, because
`setReportingEnabled` calls `scheduleReport` without looking at `isNotReporting()`; when the
timer expires, `reportUsageData` stops at `Q_ASSERT(isNotReporting())`.  The timer expired only
while armed, no outcome was delivered and the clock never decreased. -/
theorem C31_timer_armed_during_report :
    overlapTrace.all isWindowOperation = true ∧
    guarded expiryWhenArmed overlapTrace
      { usageData := configure "u" 7, settings := emptySettings } = true ∧
    guarded outcomeFollowsReport overlapTrace
      { usageData := configure "u" 7, settings := emptySettings } = true ∧
    clockNonDecreasing 0 overlapTrace
      { usageData := configure "u" 7, settings := emptySettings } = true ∧
    isReporting
      (endState (execute (overlapTrace.take 4)
        { usageData := configure "u" 7, settings := emptySettings })).usageData = true ∧
    (endState (execute (overlapTrace.take 4)
        { usageData := configure "u" 7, settings := emptySettings })).usageData.timer
      = some 60000 ∧
    reportingEnabled
      (endState (execute (overlapTrace.take 4)
        { usageData := configure "u" 7, settings := emptySettings })).usageData = true ∧
    (∃ sys, execute overlapTrace { usageData := configure "u" 7, settings := emptySettings }
      = .error (AssertionFailure.reportAlreadyInProgress, sys)) := by
  refine ⟨?_, ?_, ?_, ?_, ?_, ?_, ?_, _, rfl⟩ <;> decide

/-! ## C22: one snapshot outstanding -/

/-- C22: at most one snapshot is outstanding.  `reportUsageData` is a private slot that runs when
the report timer expires.  In every state reached by an execution from a newly constructed
instance (any sequence of public operations, `loadSettings` included, timer expiries and
outcomes, the timer expiring only while it is armed) in which the timer is armed and a report is
in flight, the expiry stops at `Q_ASSERT(isNotReporting())`, the report-already-in-progress
failure, and leaves both snapshots, the events, the activities, the running timers and the
reporting flag unchanged; so does `reportUsageData` on every enabled state with a report in
flight.  Whenever `reportUsageData` builds a snapshot, it does so from a state with
`isReporting()` false and leaves `isReporting()` true. -/
theorem C22_one_snapshot_outstanding (destinationUrl : String) (secret : Nat)
    (settings : QSettings) (ops : List Operation) (info : SystemInfo) (clock : String → Int)
    (hexpiry : guarded expiryWhenArmed ops
      { usageData := configure destinationUrl secret, settings := settings } = true)
    (harmed : timerArmed
      (endState (execute ops
        { usageData := configure destinationUrl secret
          settings := settings })).usageData = true)
    (hflight : isReporting
      (endState (execute ops
        { usageData := configure destinationUrl secret
          settings := settings })).usageData = true) :
    reportingEnabled
      (endState (execute ops
        { usageData := configure destinationUrl secret
          settings := settings })).usageData = true ∧
    timerExpired
        (endState (execute ops
          { usageData := configure destinationUrl secret
            settings := settings })).usageData info clock
      = .error (AssertionFailure.reportAlreadyInProgress,
          { (endState (execute ops
              { usageData := configure destinationUrl secret
                settings := settings })).usageData with timer := none }) ∧
    (∃ sys, applyOperation (Operation.timerExpiry info clock)
        (endState (execute ops
          { usageData := configure destinationUrl secret, settings := settings }))
      = .error (AssertionFailure.reportAlreadyInProgress, sys) ∧
      sys.usageData.eventsAdjustment
        = (endState (execute ops
            { usageData := configure destinationUrl secret
              settings := settings })).usageData.eventsAdjustment ∧
      sys.usageData.activitiesAdjustment
        = (endState (execute ops
            { usageData := configure destinationUrl secret
              settings := settings })).usageData.activitiesAdjustment ∧
      sys.usageData.events
        = (endState (execute ops
            { usageData := configure destinationUrl secret
              settings := settings })).usageData.events ∧
      sys.usageData.activities
        = (endState (execute ops
            { usageData := configure destinationUrl secret
              settings := settings })).usageData.activities ∧
      sys.usageData.timers
        = (endState (execute ops
            { usageData := configure destinationUrl secret
              settings := settings })).usageData.timers ∧
      isReporting sys.usageData = true) ∧
    (∀ s : UsageData, reportingEnabled s = true → isReporting s = true →
      reportUsageData s info clock = .error (AssertionFailure.reportAlreadyInProgress, s)) ∧
    (∀ s0 s1 : UsageData, reportUsageData s0 info clock = .ok s1 →
      isReporting s0 = false ∧ isReporting s1 = true ∧
      s1.eventsAdjustment = (snapshotLoop s0.events).2) := by
  have hinit : (configure destinationUrl secret).timer.isSome = true →
      (configure destinationUrl secret).enabled = true := by
    intro h
    cases h
  have hen := execute_invariant expiryWhenArmed
    (fun sys => sys.usageData.timer.isSome = true → sys.usageData.enabled = true)
    (fun op sys h _ => armed_step op sys h) ops
    { usageData := configure destinationUrl secret, settings := settings } hinit hexpiry harmed
  generalize endState (execute ops
    { usageData := configure destinationUrl secret, settings := settings }) = sys
    at hen harmed hflight ⊢
  have hexp : timerExpired sys.usageData info clock
      = .error (AssertionFailure.reportAlreadyInProgress,
          { sys.usageData with timer := none }) :=
    reportUsageData_of_reporting { sys.usageData with timer := none } info clock hen hflight
  refine ⟨hen, hexp, ?_, ?_, ?_⟩
  · refine ⟨{ usageData := { sys.usageData with timer := none }, settings := sys.settings },
      ?_, rfl, rfl, rfl, rfl, rfl, hflight⟩
    show withSettings sys.settings (timerExpired sys.usageData info clock) = _
    rw [hexp]
    rfl
  · intro s he hr
    exact reportUsageData_of_reporting s info clock he hr
  · intro s0 s1 hrun
    cases he : s0.enabled
    · rw [reportUsageData_of_disabled s0 info clock he] at hrun
      cases hrun
    · cases hr : isReporting s0
      · obtain ⟨T, A, AA, top, hshape, _⟩ := reportUsageData_shape s0 info clock he hr
        rw [hshape] at hrun
        cases hrun
        exact ⟨rfl, rfl, rfl⟩
      · rw [reportUsageData_of_reporting s0 info clock he hr] at hrun
        cases hrun

/-- A new instance is enabled at 0 ms, its timer expires at 60 000 ms and the report is sent;
reporting is disabled and enabled again while the report is in flight, which arms the timer; its
expiry then stops at the report-already-in-progress assertion. -/
theorem C22_one_snapshot_outstanding_witness :
    guarded expiryWhenArmed (overlapTrace.take 4)
      { usageData := configure "u" 7, settings := emptySettings } = true ∧
    timerArmed
      (endState (execute (overlapTrace.take 4)
        { usageData := configure "u" 7, settings := emptySettings })).usageData = true ∧
    isReporting
      (endState (execute (overlapTrace.take 4)
        { usageData := configure "u" 7, settings := emptySettings })).usageData = true ∧
    timerExpired
        (endState (execute (overlapTrace.take 4)
          { usageData := configure "u" 7, settings := emptySettings })).usageData
        testSystemInfo (fun _ => 122000)
      = .error (AssertionFailure.reportAlreadyInProgress,
          { (endState (execute (overlapTrace.take 4)
              { usageData := configure "u" 7, settings := emptySettings })).usageData with
            timer := none }) :=
  ⟨by decide, by decide, by decide,
   (C22_one_snapshot_outstanding "u" 7 emptySettings (overlapTrace.take 4) testSystemInfo
      (fun _ => 122000) (by decide) (by decide) (by decide)).2.1⟩

end Ud
